import Mathlib

/-!
# Dapi drone workspace: mission compiler, code projector and mission executor

A shallow embedding of `src/pages/DroneWorkspace.jsx` (the functions
`parseNumber`, `buildMissionSequence`, the `javascriptGenerator.forBlock` table,
`animateProperty`, `executeCommandRef.current` and `handleRunProgram`).

Conventions of the embedding:

* A finite JavaScript number is an exact rational; `NaN` and the two infinities are
  separate constructors of `JsNum`, with the IEEE rules for arithmetic on them.
* The JavaScript built-ins the code calls but does not define (`Number` on a string,
  number-to-string conversion, `Math.PI`, `Math.cos`, `Math.sin`, and the frame
  clock of the tween library) are the fields of a `Platform`; every general theorem
  holds for all platforms.
* The tween library (gsap) is imported by the page and is not part of its sources.
  Of it the embedding keeps the frame clock, a field of the platform, and the rule by
  which it writes a numeric property at eased progress `ratio`,
  `Math.round((start + change * ratio) * 1000000) / 1000000` (`tweenValue`).
* A mutable array that the code pushes to is passed as an explicit accumulator; the
  mutable simulation object is an explicit state.
* The XML functions of `src/utils/blocklyXml.js`, `src/utils/droneBlocks.js` and
  `src/components/LlmChatWidget.jsx` work on lists of characters and on a tree of
  elements and text nodes; a read of an object literal used as a table of the
  sanitizer tells its own keys from the property names inherited from
  `Object.prototype`.
-/

namespace Dapi

/-! ## JavaScript values -/

/-- A JavaScript number: a finite value, `NaN`, `Infinity` or `-Infinity`. -/
inductive JsNum where
  | fin (q : ℚ)
  | nan
  | posInf
  | negInf
  deriving DecidableEq

/-- The values a block field or an instruction can hold: a number, a string, or
`null` (what `getFieldValue` returns for a field the block does not have). -/
inductive JsVal where
  | num (n : JsNum)
  | str (s : String)
  | null
  deriving DecidableEq

/-- The built-ins of the JavaScript platform that the code uses. -/
structure Platform where
  /-- Models `Number(s)` for a string `s`. -/
  stringToNumber : String → JsNum
  /-- The text of a number inside a template literal. -/
  numberToString : JsNum → String
  /-- Models `Math.PI`. -/
  PI : ℚ
  /-- Models `Math.cos` on a finite argument. -/
  cos : ℚ → ℚ
  /-- Models `Math.sin` on a finite argument. -/
  sin : ℚ → ℚ
  /-- The eased progress values in `[0, 1)` at which the tween library fires
  `onUpdate` before the tween completes (at completion the progress is `1`). -/
  frames : List ℚ

namespace JsNum

/-- Models `Number.isFinite`. -/
def isFinite : JsNum → Bool
  | fin _ => true
  | _ => false

end JsNum

namespace Platform

/-- Models `Number(value)`. -/
def toNumber (p : Platform) : JsVal → JsNum
  | .num n => n
  | .str s => p.stringToNumber s
  | .null => .fin 0

/-- The text of `value` inside a template literal. -/
def toText (p : Platform) : JsVal → String
  | .num n => p.numberToString n
  | .str s => s
  | .null => "null"

end Platform

/-- Models `parseNumber(value, fallback)`; the source's default for `fallback` is `0`. -/
def parseNumber (p : Platform) (value : JsVal) (fallback : JsNum) : JsNum :=
  let parsed := p.toNumber value
  if parsed.isFinite then parsed else fallback

/-! ## The block graph -/

/-- A reference to a block: `null`, or a block with its type, its fields and the
reference `getNextBlock()` returns. -/
inductive Block where
  | null
  | node (type : String) (fields : List (String × JsVal)) (next : Block)

/-- Models `block.getFieldValue(name)`. -/
def getFieldValue (fields : List (String × JsVal)) (name : String) : JsVal :=
  (fields.lookup name).getD .null

/-- The workspace as the compiler sees it: `getTopBlocks(true)`. -/
structure Workspace where
  topBlocks : List Block

/-- One element of the mission sequence: `{ type: "command", value }` or
`{ type: "wait", value }`. -/
inductive Instr where
  | command (value : String)
  | wait (value : JsNum)
  deriving DecidableEq

/-! ## The instruction compiler -/

/-- The `switch (block.type)` of `visit`: the instructions pushed for one block. -/
def emit (p : Platform) (type : String) (fields : List (String × JsVal)) : List Instr :=
  match type with
  | "takeoff" => [.command "takeoff"]
  | "takeoff_after" =>
      [.wait (parseNumber p (getFieldValue fields "TIME") (.fin 0)), .command "takeoff"]
  | "land" => [.command "land"]
  | "land_after" =>
      [.wait (parseNumber p (getFieldValue fields "TIME") (.fin 0)), .command "land"]
  | "wait" => [.wait (parseNumber p (getFieldValue fields "TIME") (.fin 0))]
  | "fly" =>
      let direction := getFieldValue fields "DIRECTION"
      let value := parseNumber p (getFieldValue fields "VALUE") (.fin 1)
      [.command ("fly " ++ p.toText direction ++ " " ++ p.numberToString value)]
  | "circle" =>
      let direction := getFieldValue fields "DIRECTION"
      let value := parseNumber p (getFieldValue fields "VALUE") (.fin (3 / 2))
      [.command ("circle " ++ p.toText direction ++ " " ++ p.numberToString value)]
  | "yaw" =>
      let direction := getFieldValue fields "DIRECTION"
      let value := parseNumber p (getFieldValue fields "VALUE") (.fin 30)
      [.command ("yaw " ++ p.toText direction ++ " " ++ p.numberToString value)]
  | _ => []

/-- The inner function `visit` of `buildMissionSequence`, with the array `sequence`
passed through. -/
def visit (p : Platform) : Block → List Instr → List Instr
  | .null, sequence => sequence
  | .node type fields next, sequence => visit p next (sequence ++ emit p type fields)

/-- Models `buildMissionSequence`; the argument is `workspaceRef.current`. -/
def buildMissionSequence (p : Platform) : Option Workspace → List Instr
  | none => []
  | some workspace => workspace.topBlocks.foldl (fun sequence block => visit p block sequence) []

/-! ## A concrete platform for examples -/

/-- The decimal digit `d` as a character. -/
def digitChar (d : Nat) : Char := Char.ofNat (48 + d)

/-- The decimal digits of `n`, most significant first (`fuel` bounds the length). -/
def natDigits : Nat → Nat → List Char
  | 0, _ => []
  | fuel + 1, n =>
      if n < 10 then [digitChar n] else natDigits fuel (n / 10) ++ [digitChar (n % 10)]

/-- The digits after the decimal point of `r / den` for `r < den`, at most `fuel` of
them. -/
def fracDigits : Nat → Nat → Nat → List Char
  | 0, _, _ => []
  | fuel + 1, r, den =>
      if r = 0 then [] else digitChar (10 * r / den) :: fracDigits fuel (10 * r % den) den

/-- Decimal text of a rational: the integer part, then the fraction digits if any. -/
def ratText (q : ℚ) : String :=
  let n := q.num.natAbs
  let whole := natDigits (n / q.den + 1) (n / q.den)
  let frac := fracDigits 17 (n % q.den) q.den
  String.mk ((if q.num < 0 then ['-'] else []) ++ whole ++ (if frac = [] then [] else '.' :: frac))

/-- The value of a digit string read as a natural number, if it is one. -/
def readNat : List Char → Nat → Option Nat
  | [], acc => some acc
  | c :: cs, acc => if c.isDigit then readNat cs (10 * acc + (c.toNat - 48)) else none

/-- Reads an unsigned decimal literal `ddd` or `ddd.ddd`. -/
def readUnsigned (cs : List Char) : Option ℚ :=
  let whole := cs.takeWhile (fun c => c != '.')
  let rest := cs.dropWhile (fun c => c != '.')
  match readNat whole 0, rest with
  | some w, [] => if whole = [] then none else some (w : ℚ)
  | some w, _ :: frac =>
      match readNat frac 0 with
      | some f => if whole = [] ∧ frac = [] then none else some ((w : ℚ) + (f : ℚ) / (10 : ℚ) ^ frac.length)
      | none => none
  | none, _ => none

/-- Models `Number(s)` for the plain decimal literals: the empty string is `0`, an optional
sign, `Infinity`, digits with an optional fraction; anything else is `NaN`. -/
def readNumber (s : String) : JsNum :=
  match s.toList with
  | [] => .fin 0
  | '-' :: cs =>
      if cs = "Infinity".toList then .negInf
      else match readUnsigned cs with
        | some q => .fin (-q)
        | none => .nan
  | cs =>
      if cs = "Infinity".toList then .posInf
      else match readUnsigned cs with
        | some q => .fin q
        | none => .nan

/-- The text of a number, as a template literal prints it. -/
def showNumber : JsNum → String
  | .fin q => ratText q
  | .nan => "NaN"
  | .posInf => "Infinity"
  | .negInf => "-Infinity"

/-- A concrete platform used in the examples: decimal literals without exponent,
`Math.PI` cut to `3.141592653589793`, a cosine and a sine that are exact at the
multiples of a full turn, and a frame clock with three updates before completion. -/
def stdPlatform : Platform where
  stringToNumber := readNumber
  numberToString := showNumber
  PI := 3141592653589793 / 1000000000000000
  cos := fun _ => 1
  sin := fun _ => 0
  frames := [1 / 4, 1 / 2, 3 / 4]

/-! ## Chains of typed operations -/

/-- The operations the compiler recognises, with the parameters their blocks carry
in `DRONE_BLOCK_DEFINITIONS`: a finite number of seconds, or a direction and a
finite magnitude. -/
inductive Op where
  | takeoff
  | takeoff_after (s : ℚ)
  | land
  | land_after (s : ℚ)
  | wait (s : ℚ)
  | fly (d : String) (m : ℚ)
  | circle (d : String) (r : ℚ)
  | yaw (d : String) (g : ℚ)

namespace Op

/-- The block type of an operation. -/
def type : Op → String
  | takeoff => "takeoff"
  | takeoff_after _ => "takeoff_after"
  | land => "land"
  | land_after _ => "land_after"
  | wait _ => "wait"
  | fly _ _ => "fly"
  | circle _ _ => "circle"
  | yaw _ _ => "yaw"

/-- The fields of the block of an operation, named as in `DRONE_BLOCK_DEFINITIONS`. -/
def fields : Op → List (String × JsVal)
  | takeoff => []
  | takeoff_after s => [("TIME", .num (.fin s))]
  | land => []
  | land_after s => [("TIME", .num (.fin s))]
  | wait s => [("TIME", .num (.fin s))]
  | fly d m => [("DIRECTION", .str d), ("VALUE", .num (.fin m))]
  | circle d r => [("DIRECTION", .str d), ("VALUE", .num (.fin r))]
  | yaw d g => [("DIRECTION", .str d), ("VALUE", .num (.fin g))]

/-- The per-kind emission table of the specification. -/
def emission (p : Platform) : Op → List Instr
  | takeoff => [.command "takeoff"]
  | takeoff_after s => [.wait (.fin s), .command "takeoff"]
  | land => [.command "land"]
  | land_after s => [.wait (.fin s), .command "land"]
  | wait s => [.wait (.fin s)]
  | fly d m => [.command ("fly " ++ d ++ " " ++ p.numberToString (.fin m))]
  | circle d r => [.command ("circle " ++ d ++ " " ++ p.numberToString (.fin r))]
  | yaw d g => [.command ("yaw " ++ d ++ " " ++ p.numberToString (.fin g))]

end Op

/-- The linked chain of blocks of a list of operations, in `next`-order. -/
def chainOf : List Op → Block
  | [] => .null
  | op :: ops => .node op.type op.fields (chainOf ops)

/-- The block types that have a `case` in the compiler's `switch`. -/
def recognisedTypes : List String :=
  ["takeoff", "takeoff_after", "land", "land_after", "wait", "fly", "circle", "yaw"]

namespace Block

/-- The blocks of a chain in `next`-order, each as its type and fields. -/
def toList : Block → List (String × List (String × JsVal))
  | .null => []
  | .node type fields next => (type, fields) :: toList next

/-- The type of the `i`-th block of a chain, if the chain is that long. -/
def typeAt : Block → Nat → Option String
  | .null, _ => none
  | .node type _ _, 0 => some type
  | .node _ _ next, i + 1 => typeAt next i

/-- The chain with its `i`-th block unlinked: the predecessor's `next` becomes the
removed block's successor. -/
def removeAt : Block → Nat → Block
  | .null, _ => .null
  | .node _ _ next, 0 => next
  | .node type fields next, i + 1 => .node type fields (removeAt next i)

end Block


/-! ## Arithmetic on JavaScript numbers -/

namespace JsNum

/-- Unary minus. -/
def neg : JsNum → JsNum
  | fin q => fin (-q)
  | nan => nan
  | posInf => negInf
  | negInf => posInf

/-- The sum; `Infinity + -Infinity` is `NaN`. -/
def add : JsNum → JsNum → JsNum
  | fin a, fin b => fin (a + b)
  | nan, _ => nan
  | _, nan => nan
  | posInf, negInf => nan
  | negInf, posInf => nan
  | posInf, _ => posInf
  | _, posInf => posInf
  | negInf, _ => negInf
  | _, negInf => negInf

/-- An infinity of the sign of `q`, and `NaN` for `q = 0`. -/
def signedInf (q : ℚ) : JsNum :=
  if q = 0 then nan else if 0 < q then posInf else negInf

/-- The product; `0 * Infinity` is `NaN`. -/
def mul : JsNum → JsNum → JsNum
  | fin a, fin b => fin (a * b)
  | nan, _ => nan
  | _, nan => nan
  | fin a, posInf => signedInf a
  | fin a, negInf => signedInf (-a)
  | posInf, fin b => signedInf b
  | negInf, fin b => signedInf (-b)
  | posInf, posInf => posInf
  | negInf, negInf => posInf
  | posInf, negInf => negInf
  | negInf, posInf => negInf

/-- The quotient by a finite non-zero constant (the only divisions in the code). -/
def divConst (a : JsNum) (c : ℚ) : JsNum := mul a (fin (1 / c))

/-- Models `Math.abs`. -/
def abs : JsNum → JsNum
  | fin q => fin |q|
  | nan => nan
  | _ => posInf

/-- Models `Math.min` of two numbers; `NaN` if either is `NaN`. -/
def min : JsNum → JsNum → JsNum
  | fin a, fin b => fin (Min.min a b)
  | nan, _ => nan
  | _, nan => nan
  | negInf, _ => negInf
  | _, negInf => negInf
  | posInf, b => b
  | a, posInf => a

/-- Models `Math.max` of two numbers; `NaN` if either is `NaN`. -/
def max : JsNum → JsNum → JsNum
  | fin a, fin b => fin (Max.max a b)
  | nan, _ => nan
  | _, nan => nan
  | posInf, _ => posInf
  | _, posInf => posInf
  | negInf, b => b
  | a, negInf => a

/-- Truthiness of a number: `0` and `NaN` are falsy. -/
def truthy : JsNum → Bool
  | fin q => q != 0
  | nan => false
  | _ => true

/-- The expression `a || d` on numbers. -/
def orElse (a d : JsNum) : JsNum := if a.truthy then a else d

instance : Add JsNum := ⟨add⟩
instance : Mul JsNum := ⟨mul⟩
instance : Neg JsNum := ⟨neg⟩
instance : Sub JsNum := ⟨fun a b => add a (neg b)⟩

end JsNum

namespace Platform

/-- Models `Math.cos` on any number. -/
def cosN (p : Platform) : JsNum → JsNum
  | .fin t => .fin (p.cos t)
  | _ => .nan

/-- Models `Math.sin` on any number. -/
def sinN (p : Platform) : JsNum → JsNum
  | .fin t => .fin (p.sin t)
  | _ => .nan

/-- Models `Number(s)` for an array element that may be missing (`undefined` gives `NaN`). -/
def argNumber (p : Platform) : Option String → JsNum
  | some s => p.stringToNumber s
  | none => .nan

end Platform

/-! ## Strings: `trim` and `split(" ")` -/

/-- The white space and line terminators that `String.prototype.trim` removes. -/
def isJsWhitespace (c : Char) : Bool :=
  [0x09, 0x0A, 0x0B, 0x0C, 0x0D, 0x20, 0xA0, 0x1680, 0x2000, 0x2001, 0x2002, 0x2003, 0x2004,
    0x2005, 0x2006, 0x2007, 0x2008, 0x2009, 0x200A, 0x2028, 0x2029, 0x202F, 0x205F, 0x3000,
    0xFEFF].contains c.toNat

/-- Models `s.trim()`. -/
def trim (s : String) : String :=
  String.mk ((((s.toList.dropWhile isJsWhitespace).reverse).dropWhile isJsWhitespace).reverse)

/-- The pieces of `cs` between single spaces: the first piece and the others. -/
def splitChars : List Char → List Char × List (List Char)
  | [] => ([], [])
  | c :: cs =>
      if c = ' ' then ([], (splitChars cs).1 :: (splitChars cs).2)
      else (c :: (splitChars cs).1, (splitChars cs).2)

/-- The destructuring `const [action, ...args] = command.split(" ")`. -/
def splitCommand (command : String) : String × List String :=
  (String.mk (splitChars command.toList).1, (splitChars command.toList).2.map String.mk)

/-! ## The actuator model -/

/-- A `THREE.Vector3` or the three angles of a `THREE.Euler`. -/
structure Vector3 where
  x : JsNum
  y : JsNum
  z : JsNum
  deriving DecidableEq

/-- The drone object: its position and its rotation (`rotation.y` is the yaw,
`rotation.x` and `rotation.z` are the tilt). -/
structure Drone where
  position : Vector3
  rotation : Vector3
  deriving DecidableEq

/-- The property names `"x"`, `"y"`, `"z"` used to index `drone.position`. -/
inductive Axis where
  | x
  | y
  | z
  deriving DecidableEq

namespace Vector3

/-- Models `v[axis]`. -/
def get (v : Vector3) : Axis → JsNum
  | .x => v.x
  | .y => v.y
  | .z => v.z

/-- Models `v[axis] = value`. -/
def set (v : Vector3) (axis : Axis) (value : JsNum) : Vector3 :=
  match axis with
  | .x => { v with x := value }
  | .y => { v with y := value }
  | .z => { v with z := value }

end Vector3

/-- What a command leaves behind besides the state: a tween started with a
duration, a `console.warn`, a socket emission. -/
inductive Event where
  | tween (duration : JsNum)
  | warn (command : String)
  | emitted (command : String)
  deriving DecidableEq

/-- The state a command works on once the guard of `executeCommand` has passed:
the drone, the flag `propellerSpin.active`, and the events so far. -/
structure Flight where
  drone : Drone
  spinActive : Bool
  log : List Event
  deriving DecidableEq

/-- The field `propellerSpin` of the simulation state. -/
structure PropellerSpin where
  active : Bool
  speed : JsNum
  deriving DecidableEq

/-- The object `simulationStateRef.current` holds, as far as commands use it. -/
structure SimulationState where
  drone : Option Drone
  propellerSpin : PropellerSpin
  deriving DecidableEq

/-- Everything `executeCommand` reads and writes: `simulationStateRef.current`,
whether `socketRef.current` exists and is connected, and the events so far. -/
structure Sim where
  simulationState : Option SimulationState
  socketConnected : Bool
  log : List Event
  deriving DecidableEq

/-- The finite number `Math.round(q * 1000000) / 1000000`: `q` rounded to six
decimals, halves upwards (`Math.round` is the floor of its argument plus one half). -/
def round6 (q : ℚ) : ℚ := ⌊q * 1000000 + 1 / 2⌋ / 1000000

/-- Models `Math.round(v * 1000000) / 1000000` on any number: `NaN` and the
infinities pass through. -/
def JsNum.round6 : JsNum → JsNum
  | .fin q => .fin (Dapi.round6 q)
  | n => n

/-- The value a tween from `start` to `target` writes at eased progress `t`. The
tween library (gsap, imported by the page and not part of its sources) keeps the
start `s` and the change `c = target - s` and writes every numeric property as
`Math.round((s + c * ratio) * 1000000) / 1000000`. -/
def tweenValue (start target : JsNum) (t : ℚ) : JsNum :=
  (start + (target - start) * .fin t).round6

/-- Models `animateProperty(target, vars)`: the tween is started with `duration`, and
`render t` stands for what one tick of it does at eased progress `t` (the property
writes and the `onUpdate` callback); ticks fire at the frames of the platform's
clock and, at completion, at progress `1`. -/
def animateProperty (p : Platform) (duration : JsNum) (render : ℚ → Flight → Flight)
    (f : Flight) : Flight :=
  (p.frames ++ [1]).foldl (fun f t => render t f) { f with log := f.log ++ [Event.tween duration] }

/-- Models `togglePropellerSpin(active)` with a simulation state present. -/
def togglePropellerSpin (active : Bool) (f : Flight) : Flight :=
  { f with spinActive := active }

/-- The inner function `moveDelta(axis, value)`. -/
def moveDelta (p : Platform) (axis : Axis) (value : JsNum) (f : Flight) : Flight :=
  let start := f.drone.position.get axis
  let destination := f.drone.position.get axis + value
  animateProperty p (JsNum.min (JsNum.abs value * JsNum.fin 0.35 + JsNum.fin 0.4) (.fin 2.4))
    (fun t f =>
      { f with drone := { f.drone with
          position := f.drone.position.set axis (tweenValue start destination t) } })
    f

/-- The lookup `tiltMap[directionCode] || { x: 0, z: 0 }` on the keys the object
literal defines (a missing argument is `none`). -/
def tiltMap (directionCode : Option String) : JsNum × JsNum :=
  let tiltAmount : ℚ := 0.18
  match directionCode with
  | some "F" => (.fin (-tiltAmount), .fin 0)
  | some "B" => (.fin tiltAmount, .fin 0)
  | some "L" => (.fin 0, .fin tiltAmount)
  | some "R" => (.fin 0, .fin (-tiltAmount))
  | _ => (.fin 0, .fin 0)

/-- One tween of `drone.rotation` towards the tilt `(x, z)`. -/
def tiltTo (p : Platform) (x z : JsNum) (duration : JsNum) (f : Flight) : Flight :=
  let startX := f.drone.rotation.x
  let startZ := f.drone.rotation.z
  animateProperty p duration
    (fun t f =>
      { f with drone := { f.drone with
          rotation := { f.drone.rotation with
            x := tweenValue startX x t, z := tweenValue startZ z t } } })
    f

/-- The inner function `tiltDrone(directionCode)`. -/
def tiltDrone (p : Platform) (directionCode : Option String) (f : Flight) : Flight :=
  let tilt := tiltMap directionCode
  tiltTo p (.fin 0) (.fin 0) (.fin 0.4) (tiltTo p tilt.1 tilt.2 (.fin 0.28) f)

/-- The lookup `axisMap[direction]` on the keys the object literal defines. -/
def axisMap : Option String → Option Axis
  | some "F" => some .z
  | some "B" => some .z
  | some "L" => some .x
  | some "R" => some .x
  | some "U" => some .y
  | some "D" => some .y
  | _ => none

/-- The lookup `signed[direction] ?? 0` on the keys the object literal defines. -/
def signed (distance : JsNum) : Option String → JsNum
  | some "F" => -distance
  | some "B" => distance
  | some "L" => -distance
  | some "R" => distance
  | some "U" => distance
  | some "D" => -distance
  | _ => .fin 0

/-- The duration of the circle tween. -/
def circleDuration (radius : JsNum) : JsNum := .fin 4 + radius * .fin 0.4

/-- The `onUpdate` callback of the circle tween at angle `theta`, for the captured
`center`, `radius`, `clockwise` and `startAngle`. -/
def circleOnUpdate (p : Platform) (center : Vector3) (radius : JsNum) (clockwise : Bool)
    (startAngle : JsNum) (theta : JsNum) (drone : Drone) : Drone :=
  let x := center.x + (if clockwise then p.cosN theta else -(p.cosN theta)) * radius
  let z := center.z + p.sinN theta * radius
  { position := { x := x, y := drone.position.y, z := z },
    rotation := { drone.rotation with
      y := startAngle + theta * (if clockwise then .fin (-1) else .fin 1) } }

/-- The `switch (action)` of `executeCommand`. -/
def runAction (p : Platform) (command action : String) (args : List String) (f : Flight) :
    Flight :=
  match action with
  | "takeoff" =>
      let f := togglePropellerSpin true f
      moveDelta p .y (.fin 2.2 - f.drone.position.y) f
  | "takeoff_height" =>
      let target := p.argNumber args.head?
      let targetY := if target.isFinite then JsNum.max (.fin 0.2) target else .fin 2.2
      let f := togglePropellerSpin true f
      moveDelta p .y (targetY - f.drone.position.y) f
  | "land" =>
      let f := moveDelta p .y (.fin 0.2 - f.drone.position.y) f
      togglePropellerSpin false f
  | "fly" =>
      let direction := args.head?
      let distance := (p.argNumber (args.get? 1)).orElse (.fin 0)
      if !distance.isFinite then f
      else
        let f := tiltDrone p direction f
        match axisMap direction with
        | some axis => moveDelta p axis (signed distance direction) f
        | none => f
  | "yaw" =>
      let direction := args.head?
      let degrees := (p.argNumber (args.get? 1)).orElse (.fin 0)
      let radians := degrees * .fin (p.PI / 180)
      let start := f.drone.rotation.y
      let target := if direction = some "YL" then start + radians else start - radians
      animateProperty p (JsNum.min ((JsNum.abs degrees).divConst 90 + .fin 0.4) (.fin 2))
        (fun t f =>
          { f with drone := { f.drone with
              rotation := { f.drone.rotation with y := tweenValue start target t } } })
        f
  | "circle" =>
      let direction := args.head?
      let radius := (p.argNumber (args.get? 1)).orElse (.fin 1.5)
      let clockwise : Bool := direction = some "CR"
      let revolution : JsNum := .fin (2 * p.PI)
      let duration := circleDuration radius
      let startAngle := f.drone.rotation.y
      let center : Vector3 :=
        { f.drone.position with
          x := f.drone.position.x + (if clockwise then radius else -radius) }
      animateProperty p duration
        (fun t f =>
          let theta := tweenValue (.fin 0) revolution t
          { f with drone := circleOnUpdate p center radius clockwise startAngle theta f.drone })
        f
  | "wait" => f
  | _ => { f with log := f.log ++ [Event.warn command] }

/-- The function stored in `executeCommandRef.current`. -/
def executeCommand (p : Platform) (rawCommand : String) (w : Sim) : Sim :=
  match w.simulationState with
  | none => w
  | some state =>
    match state.drone with
    | none => w
    | some drone =>
      let command := trim rawCommand
      if command = "" then w
      else
        let f := runAction p command (splitCommand command).1 (splitCommand command).2
          { drone := drone, spinActive := state.propellerSpin.active, log := w.log }
        { w with
          simulationState := some { state with
            drone := some f.drone,
            propellerSpin := { state.propellerSpin with active := f.spinActive } },
          log := if w.socketConnected then f.log ++ [Event.emitted command] else f.log }

/-! ## The mission executor -/

/-- What `handleRunProgram` does besides changing the simulation: the preview is
refreshed, the status is set, a step of the loop is entered, `delay` arms a timer of
so many milliseconds, a failed step is reported by `console.error`. -/
inductive RunEvent where
  | codePreview
  | setIsExecuting (value : Bool)
  | step (s : Instr)
  | timeout (milliseconds : JsNum)
  | consoleError (s : Instr) (error : String)
  deriving DecidableEq

/-- The result of awaiting the function in `executeCommandRef.current`: the
simulation it leaves, and the error if the promise was rejected. -/
structure Outcome where
  sim : Sim
  thrown : Option String

/-- The component state `handleRunProgram` works on: the status `isExecuting`,
`workspaceRef.current`, the simulation, and the events so far. -/
structure App where
  isExecuting : Bool
  workspace : Option Workspace
  sim : Sim
  trace : List RunEvent

/-- The timer `delay(seconds)` arms: `Math.max(seconds, 0) * 1000` milliseconds. -/
def delay (seconds : JsNum) : JsNum := JsNum.max seconds (.fin 0) * .fin 1000

/-- Models `updateCodePreview()`; the preview text is not part of the model. -/
def updateCodePreview (app : App) : App :=
  { app with trace := app.trace ++ [RunEvent.codePreview] }

/-- The loop `for (const step of mission)` of `handleRunProgram`, with its
`try`/`catch`; `exec` is the function in `executeCommandRef.current`. -/
def runSteps (exec : String → Sim → Outcome) : List Instr → App → App
  | [], app => app
  | .command value :: rest, app =>
      let app := { app with trace := app.trace ++ [RunEvent.step (Instr.command value)] }
      match (exec value app.sim).thrown with
      | none => runSteps exec rest { app with sim := (exec value app.sim).sim }
      | some error =>
          { app with
            sim := (exec value app.sim).sim,
            trace := app.trace ++ [RunEvent.consoleError (Instr.command value) error] }
  | .wait value :: rest, app =>
      runSteps exec rest
        { app with trace := app.trace ++ [RunEvent.step (Instr.wait value), RunEvent.timeout (delay value)] }

/-- Models `handleRunProgram`. -/
def handleRunProgram (p : Platform) (exec : String → Sim → Outcome) (app : App) : App :=
  if app.isExecuting then app
  else
    let app := updateCodePreview app
    let mission := buildMissionSequence p app.workspace
    if mission.length = 0 then app
    else
      let app := { app with isExecuting := true, trace := app.trace ++ [RunEvent.setIsExecuting true] }
      let app := runSteps exec mission app
      { app with isExecuting := false, trace := app.trace ++ [RunEvent.setIsExecuting false] }

/-- The function `executeCommandRef.current` holds once the component has
rendered: `executeCommand`, whose promise is never rejected. -/
def execStored (p : Platform) (rawCommand : String) (w : Sim) : Outcome :=
  { sim := executeCommand p rawCommand w, thrown := none }

/-! ## The code projector -/

/-- The generator table `javascriptGenerator.forBlock` as this file fills it: the
text generated for a block of the given type, `none` for a type it does not set. -/
def forBlock (p : Platform) (type : String) (fields : List (String × JsVal)) : Option String :=
  match type with
  | "takeoff" => some "executeCommand(\"takeoff\");\n"
  | "takeoff_height" =>
      let height := getFieldValue fields "HEIGHT"
      some ("executeCommand(\"takeoff_height " ++ p.toText height ++ "\");\n")
  | "takeoff_after" =>
      let time := getFieldValue fields "TIME"
      some ("delayCommand(" ++ p.toText time ++ ");\nexecuteCommand(\"takeoff\");\n")
  | "land" => some "executeCommand(\"land\");\n"
  | "land_after" =>
      let time := getFieldValue fields "TIME"
      some ("delayCommand(" ++ p.toText time ++ ");\nexecuteCommand(\"land\");\n")
  | "wait" =>
      let time := getFieldValue fields "TIME"
      some ("delayCommand(" ++ p.toText time ++ ");\n")
  | "fly" =>
      let direction := getFieldValue fields "DIRECTION"
      let value := getFieldValue fields "VALUE"
      some ("executeCommand(\"fly " ++ p.toText direction ++ " " ++ p.toText value ++ "\");\n")
  | "circle" =>
      let direction := getFieldValue fields "DIRECTION"
      let value := getFieldValue fields "VALUE"
      some ("executeCommand(\"circle " ++ p.toText direction ++ " " ++ p.toText value
        ++ "\");\n")
  | "yaw" =>
      let direction := getFieldValue fields "DIRECTION"
      let value := getFieldValue fields "VALUE"
      some ("executeCommand(\"yaw " ++ p.toText direction ++ " " ++ p.toText value ++ "\");\n")
  | _ => none

/-- A statement of the projected script: `executeCommand("text");` or
`delayCommand(seconds);`. -/
inductive Line where
  | executeCommand (text : String)
  | delayCommand (seconds : String)
  deriving DecidableEq

/-- The text of a statement, as the generators write it. -/
def Line.render : Line → String
  | .executeCommand text => "executeCommand(\"" ++ text ++ "\");\n"
  | .delayCommand seconds => "delayCommand(" ++ seconds ++ ");\n"

/-- The statements of the text `forBlock` generates for a block, in order; a type
without a generator in this file contributes none. -/
def projectedLines (p : Platform) (type : String) (fields : List (String × JsVal)) :
    List Line :=
  match type with
  | "takeoff" => [.executeCommand "takeoff"]
  | "takeoff_height" =>
      [.executeCommand ("takeoff_height " ++ p.toText (getFieldValue fields "HEIGHT"))]
  | "takeoff_after" =>
      [.delayCommand (p.toText (getFieldValue fields "TIME")), .executeCommand "takeoff"]
  | "land" => [.executeCommand "land"]
  | "land_after" =>
      [.delayCommand (p.toText (getFieldValue fields "TIME")), .executeCommand "land"]
  | "wait" => [.delayCommand (p.toText (getFieldValue fields "TIME"))]
  | "fly" =>
      [.executeCommand ("fly " ++ p.toText (getFieldValue fields "DIRECTION") ++ " "
        ++ p.toText (getFieldValue fields "VALUE"))]
  | "circle" =>
      [.executeCommand ("circle " ++ p.toText (getFieldValue fields "DIRECTION") ++ " "
        ++ p.toText (getFieldValue fields "VALUE"))]
  | "yaw" =>
      [.executeCommand ("yaw " ++ p.toText (getFieldValue fields "DIRECTION") ++ " "
        ++ p.toText (getFieldValue fields "VALUE"))]
  | _ => []

/-- The projected statements of a chain: the per-block generators in `next`-order. -/
def projectChain (p : Platform) : Block → List Line
  | .null => []
  | .node type fields next => projectedLines p type fields ++ projectChain p next

/-- The statement an instruction is read from: `executeCommand("c")` for the command
`c`, `delayCommand(t)` for the wait whose number prints as `t`. -/
def Instr.line (p : Platform) : Instr → Line
  | .command value => .executeCommand value
  | .wait value => .delayCommand (p.numberToString value)

/-! ## Auxiliary notions for the statements -/

/-- All three components are finite numbers. -/
def Vector3.finite (v : Vector3) : Prop :=
  v.x.isFinite = true ∧ v.y.isFinite = true ∧ v.z.isFinite = true

/-- The events a run leaves for a mission none of whose steps throws. -/
def fullTrace : List Instr → List RunEvent
  | [] => []
  | .command value :: rest => RunEvent.step (.command value) :: fullTrace rest
  | .wait value :: rest =>
      RunEvent.step (.wait value) :: RunEvent.timeout (delay value) :: fullTrace rest

/-- The actuator is unavailable: no simulation state, or no drone loaded. -/
def Sim.unavailable (w : Sim) : Prop :=
  w.simulationState = none ∨ ∃ state, w.simulationState = some state ∧ state.drone = none

/-- The drone as the loader places it: `drone.position.set(0, 0.8, 0)`. -/
def exampleDrone : Drone :=
  { position := { x := .fin 0, y := .fin 0.8, z := .fin 0 },
    rotation := { x := .fin 0, y := .fin 0, z := .fin 0 } }

/-- A simulation with the example drone loaded, rotors idle, no socket. -/
def exampleSim : Sim :=
  { simulationState := some { drone := some exampleDrone,
                              propellerSpin := { active := false, speed := .fin 0 } },
    socketConnected := false,
    log := [] }

/-- A simulation whose view has not mounted: no simulation state. -/
def unmountedSim : Sim :=
  { simulationState := none, socketConnected := false, log := [] }

/-- The workspace with the single chain takeoff, land. -/
def exampleWorkspace : Workspace :=
  { topBlocks := [.node "takeoff" [] (.node "land" [] .null)] }

/-- A stored command function whose promise is always rejected. -/
def execFailing (rawCommand : String) (w : Sim) : Outcome :=
  { sim := w, thrown := some ("cannot run " ++ rawCommand) }
/-- The steps a run entered, in order: the instructions of the `step` events of a
trace. -/
def performedSteps : List RunEvent → List Instr
  | [] => []
  | .step s :: rest => s :: performedSteps rest
  | .codePreview :: rest => performedSteps rest
  | .setIsExecuting _ :: rest => performedSteps rest
  | .timeout _ :: rest => performedSteps rest
  | .consoleError _ _ :: rest => performedSteps rest

/-- The steps reported as failed, in order: the instructions of the `consoleError`
events of a trace. -/
def failedSteps : List RunEvent → List Instr
  | [] => []
  | .consoleError s _ :: rest => s :: failedSteps rest
  | .codePreview :: rest => failedSteps rest
  | .setIsExecuting _ :: rest => failedSteps rest
  | .timeout _ :: rest => failedSteps rest
  | .step _ :: rest => failedSteps rest

/-- A stored command function whose promise is rejected for the command `bad` and
which is `executeCommand` for every other command. -/
def execFailingOn (p : Platform) (bad : String) (rawCommand : String) (w : Sim) : Outcome :=
  if rawCommand = bad then { sim := w, thrown := some ("cannot run " ++ rawCommand) }
  else execStored p rawCommand w

/-- The verbs that have a `case` in the `switch (action)` of `executeCommand`. -/
def executorVerbs : List String :=
  ["takeoff", "takeoff_height", "land", "fly", "yaw", "circle", "wait"]

/-- The example drone in flight state: rotors idle, no events yet. -/
def exampleFlight : Flight :=
  { drone := exampleDrone, spinActive := false, log := [] }

/-! ## The render tick and the snapshot relation -/

/-- The propeller part of one frame of `animate`: with a simulation state, a drone
and at least one propeller object (`propellerCount` is `state.propellers.length`),
the speed moves towards its target by the factor 0.08; otherwise nothing changes. -/
def animatePropellerSpin (state : Option SimulationState) (propellerCount : Nat) :
    Option SimulationState :=
  match state with
  | none => none
  | some s =>
    match s.drone with
    | none => some s
    | some _ =>
      if propellerCount = 0 then some s
      else
        let spinState := s.propellerSpin
        let targetSpeed : JsNum := if spinState.active then .fin 0.32 else .fin 0
        let speed := spinState.speed + (targetSpeed - spinState.speed) * JsNum.fin 0.08
        some { s with propellerSpin := { spinState with speed := speed } }

/-- The guard of `togglePropellerSpin(active)` on `simulationStateRef.current`,
followed by one frame of `animate`. -/
def toggleThenTick (propellerCount : Nat) (state : Option SimulationState) (active : Bool) :
    Option SimulationState :=
  animatePropellerSpin
    (state.map (fun s => { s with propellerSpin := { s.propellerSpin with active := active } }))
    propellerCount

/-- The speed one tick writes for a finite speed: `speed + (target - speed) * 0.08`,
the target being 0.32 with the rotor flag active and 0 otherwise. -/
def spinStep (active : Bool) (speed : ℚ) : ℚ :=
  speed + ((if active then 0.32 else 0) - speed) * 0.08

/-- Two block references show the same snapshot: the same types in the same
`next`-order, and every field name reads the same value in both. -/
def Block.sameSnapshot : Block → Block → Prop
  | .null, .null => True
  | .node type fields next, .node type' fields' next' =>
      type = type' ∧ (∀ name, getFieldValue fields name = getFieldValue fields' name) ∧
        Block.sameSnapshot next next'
  | .null, .node _ _ _ => False
  | .node _ _ _, .null => False

/-- The number `executeCommand` takes from the second argument of a command: the
expression `Number(raw) || fallback` on `args[1]` of the trimmed, split command
(the fallback is 0 for fly and yaw and 1.5 for circle). -/
def recoveredArgument (p : Platform) (fallback : JsNum) (rawCommand : String) : JsNum :=
  (p.argNumber ((splitCommand (trim rawCommand)).2.get? 1)).orElse fallback

/-- The verbs of the commands the compiler emits. -/
def compiledVerbs : List String := ["takeoff", "land", "fly", "circle", "yaw"]

/-! ## The panel layout -/

/-- The argument of `validateLayout`: a value that is not an object (`null`,
`undefined`, a number, a string, a boolean), or an object given by its entries in
key order (an array is the object of its indices). -/
inductive Candidate where
  | notObject
  | object (entries : List (String × JsVal))

/-- A layout object with the three slots; `none` is `undefined`. -/
structure Layout where
  left : Option JsVal
  rightTop : Option JsVal
  rightBottom : Option JsVal
  deriving DecidableEq

/-- The constant `DEFAULT_LAYOUT`. -/
def DEFAULT_LAYOUT : Layout :=
  { left := some (.str "blockly"), rightTop := some (.str "simulation"),
    rightBottom := some (.str "code") }

/-- The function `validateLayout(candidate)`. -/
def validateLayout (candidate : Candidate) : Layout :=
  match candidate with
  | .notObject => DEFAULT_LAYOUT
  | .object entries =>
    let values := entries.map Prod.snd
    let required := [JsVal.str "blockly", JsVal.str "simulation", JsVal.str "code"]
    let allPresent := required.all (fun r => values.contains r)
    if !allPresent then DEFAULT_LAYOUT
    else
      let unique := values.eraseDups
      if unique.length ≠ values.length then DEFAULT_LAYOUT
      else
        { left := entries.lookup "left",
          rightTop := entries.lookup "rightTop",
          rightBottom := entries.lookup "rightBottom" }

/-- A layout is valid when its three slots hold `"blockly"`, `"simulation"` and
`"code"`, each exactly once. -/
def Layout.valid (l : Layout) : Prop :=
  ∀ r ∈ ["blockly", "simulation", "code"],
    [l.left, l.rightTop, l.rightBottom].count (some (JsVal.str r)) = 1

instance (l : Layout) : Decidable l.valid := by
  unfold Layout.valid
  infer_instance

/-- The three slot names of a layout, in the key order of the object. -/
inductive Location where
  | left
  | rightTop
  | rightBottom
  deriving DecidableEq

/-- The read `prev[location]`. -/
def Layout.get (l : Layout) : Location → Option JsVal
  | .left => l.left
  | .rightTop => l.rightTop
  | .rightBottom => l.rightBottom

/-- The write `nextLayout[location] = value` on a copy. -/
def Layout.set (l : Layout) (location : Location) (value : Option JsVal) : Layout :=
  match location with
  | .left => { l with left := value }
  | .rightTop => { l with rightTop := value }
  | .rightBottom => { l with rightBottom := value }

/-- The state update of `swapPanels(panelId, targetLocation)` on the layout `prev`;
an empty `panelId` or a missing target (`none`) returns before any update. -/
def swapPanels (panelId : String) (targetLocation : Option Location) (prev : Layout) : Layout :=
  if panelId = "" then prev
  else
    match targetLocation with
    | none => prev
    | some target =>
      let sourceLocation := [Location.left, Location.rightTop, Location.rightBottom].find?
        (fun location => prev.get location == some (JsVal.str panelId))
      match sourceLocation with
      | none => prev
      | some source =>
        if source = target then prev
        else
          let targetPanelId := prev.get target
          (prev.set source targetPanelId).set target (some (JsVal.str panelId))

/-! ## Text normalisation of incoming XML -/

/-- Replaces every match of the literal `pattern` by `replacement`, leftmost first and
without overlap (`s.replace(/pattern/g, replacement)`); `skip` counts the characters
of the current match still to pass over. -/
def replaceAux (pattern replacement : List Char) : Nat → List Char → List Char
  | _, [] => []
  | skip + 1, _ :: cs => replaceAux pattern replacement skip cs
  | 0, c :: cs =>
      if pattern.isPrefixOf (c :: cs) then
        replacement ++ replaceAux pattern replacement (pattern.length - 1) cs
      else c :: replaceAux pattern replacement 0 cs

/-- The call `s.replace(/pattern/g, replacement)` for a non-empty literal pattern. -/
def replaceAll (pattern replacement : String) (s : String) : String :=
  String.mk (replaceAux pattern.data replacement.data 0 s.data)

/-- The function `decodeHtmlEntities(s)`. -/
def decodeHtmlEntities (s : String) : String :=
  replaceAll "&#39;" (String.singleton (Char.ofNat 39))
    (replaceAll "&quot;" "\""
      (replaceAll "&amp;" "&"
        (replaceAll "&gt;" ">"
          (replaceAll "&lt;" "<" s))))

/-- HTML escaping of one character: `&`, `<`, `>`, the double quote and the
apostrophe are written as `&amp;`, `&lt;`, `&gt;`, `&quot;`, `&#39;`. -/
def escapeChar (c : Char) : List Char :=
  if c = '&' then "&amp;".data
  else if c = '<' then "&lt;".data
  else if c = '>' then "&gt;".data
  else if c = '"' then "&quot;".data
  else if c = Char.ofNat 39 then "&#39;".data
  else [c]

/-- The escaped form of a string: every character escaped. -/
def escapeHtml (s : String) : String :=
  String.mk (s.data.flatMap escapeChar)

/-- The method `toLowerCase` on the characters of an ASCII string. -/
def toLowerCase (cs : List Char) : List Char := cs.map Char.toLower

/-- The method `indexOf(pattern)` for a non-empty pattern: the position of the first
match, `none` for `-1`. -/
def indexOf (pattern : List Char) : List Char → Option Nat
  | [] => none
  | c :: cs =>
      if pattern.isPrefixOf (c :: cs) then some 0
      else (indexOf pattern cs).map (fun i => i + 1)

/-- The method `lastIndexOf(pattern)` for a non-empty pattern: the position of the last
match, `none` for `-1`. -/
def lastIndexOf (pattern : List Char) : List Char → Option Nat
  | [] => none
  | c :: cs =>
      match lastIndexOf pattern cs with
      | some j => some (j + 1)
      | none => if pattern.isPrefixOf (c :: cs) then some 0 else none

/-- The method `slice(start, stop)` for indices inside the string: empty when
`stop ≤ start`. -/
def slice (cs : List Char) (start stop : Nat) : List Char := (cs.take stop).drop start

/-- The function `extractXmlRoot(s)`. -/
def extractXmlRoot (s : String) : String :=
  match indexOf "<xml".data (toLowerCase s.data), lastIndexOf "</xml>".data (toLowerCase s.data) with
  | some start, some stop => String.mk (slice s.data start (stop + "</xml>".length))
  | _, _ => s

/-! ## The XML sanitizer -/

/-- A node of the parsed XML: an element with its name, its attributes and its child
nodes, or a text node. -/
inductive Xml where
  | element (nodeName : String) (attributes : List (String × String)) (childNodes : List Xml)
  | text (data : String)

/-- The method `getAttribute(name)`; `none` is `null`. -/
def getAttribute (attributes : List (String × String)) (name : String) : Option String :=
  attributes.lookup name

/-- What reading `table[type]` gives on one of the two tables of allowed fields:
`undefined`, one of the arrays of the object literal, or a value inherited from
`Object.prototype` (a function, or the prototype itself for `__proto__`), which is
truthy and has no `includes` method. -/
inductive Lookup where
  | undefined
  | array (allowed : List String)
  | inherited
  deriving DecidableEq

/-- The property names that every object literal inherits from `Object.prototype`. -/
def objectPrototypeKeys : List String :=
  ["constructor", "__defineGetter__", "__defineSetter__", "hasOwnProperty",
    "__lookupGetter__", "__lookupSetter__", "isPrototypeOf", "propertyIsEnumerable",
    "toString", "valueOf", "__proto__", "toLocaleString"]

/-- The read `ALLOWED_FIELDS_BY_TYPE[type]` on the table of `utils/droneBlocks.js`:
the nine keys of the object literal, then the inherited property names. -/
def ALLOWED_FIELDS_BY_TYPE (type : String) : Lookup :=
  match type with
  | "takeoff" => .array []
  | "takeoff_height" => .array ["HEIGHT"]
  | "land" => .array []
  | "wait" => .array ["TIME"]
  | "takeoff_after" => .array ["TIME"]
  | "land_after" => .array ["TIME"]
  | "fly" => .array ["DIRECTION", "VALUE"]
  | "circle" => .array ["DIRECTION", "VALUE"]
  | "yaw" => .array ["DIRECTION", "VALUE"]
  | _ => if type ∈ objectPrototypeKeys then .inherited else .undefined

/-- The read `ALLOWED_FIELDS_BY_TYPE[type]` on the table of
`components/LlmChatWidget.jsx`: the eight keys of the object literal, then the
inherited property names. -/
def widgetAllowedFields (type : String) : Lookup :=
  match type with
  | "takeoff" => .array []
  | "land" => .array []
  | "wait" => .array ["TIME"]
  | "takeoff_after" => .array ["TIME"]
  | "land_after" => .array ["TIME"]
  | "fly" => .array ["DIRECTION", "VALUE"]
  | "circle" => .array ["DIRECTION", "VALUE"]
  | "yaw" => .array ["DIRECTION", "VALUE"]
  | _ => if type ∈ objectPrototypeKeys then .inherited else .undefined

/-- Whether a node is a field element: an element whose `nodeName.toLowerCase()` is
`"field"` (text nodes are not among `children`). -/
def isFieldElement : Xml → Bool
  | .element nodeName _ _ => toLowerCase nodeName.data == "field".data
  | .text _ => false

/-- The test of the inner callback on one child, for an array `allowed`: the child is
a field element and its `name` attribute is not included in `allowed` (a missing
attribute reads as `null`, which no array of names includes). -/
def removesChild (allowed : List String) (child : Xml) : Bool :=
  match child with
  | .element nodeName attributes _ =>
      toLowerCase nodeName.data == "field".data &&
        !(match getAttribute attributes "name" with
          | some name => allowed.contains name
          | none => false)
  | .text _ => false

/-- The inner loop `Array.from(blockEl.children).forEach(...)`: the snapshot of the
children is walked in order, and `removeChild(child)` takes that very child (told
apart by its position in the snapshot) out of the current child list. -/
def removeDisallowed (allowed : List String) (childNodes : List Xml) : List Xml :=
  let snapshot := childNodes.enum
  (snapshot.foldl
    (fun current entry =>
      if removesChild allowed entry.2 then current.filter (fun e => e.1 != entry.1)
      else current)
    snapshot).map Prod.snd

/-- Whether the callback of the outer `forEach` throws on a block element. The type
is `getAttribute("type") || ""`. When the value read from the table is an inherited
one, `if (!allowed) return` does not return, and at the first field child the call
`allowed.includes(name)` is a `TypeError`; the call stands outside the inner `try`, so
the error leaves both `forEach` loops and is swallowed by the outer `catch`. Nothing
has been removed from the block at that point. -/
def callbackThrows (table : String → Lookup) (attributes : List (String × String))
    (childNodes : List Xml) : Bool :=
  match table ((getAttribute attributes "type").getD "") with
  | .inherited => childNodes.any isFieldElement
  | _ => false

/-- The callback of the outer `forEach` on one block element on which it does not
throw, as the child list it leaves: a type without an entry in the table leaves the
block as it is, and so does an inherited value on a block without field children. -/
def sanitizeBlockEl (table : String → Lookup)
    (attributes : List (String × String)) (childNodes : List Xml) : List Xml :=
  match table ((getAttribute attributes "type").getD "") with
  | .array allowed => removeDisallowed allowed childNodes
  | _ => childNodes

mutual
/-- The pass `blocks.forEach(...)` over one node and what is below it, in document
order, which is the order of `getElementsByTagName("block")`: the flag tells whether
an earlier callback has thrown, which ends the pass, and the result is the node after
the pass with the flag after it. An element named `block` gets the callback before
the blocks below it. The callback of a block looks only at the names and `name`
attributes of its own children, which no other callback changes, so its removals can
be applied to the children after the pass has gone through them; the blocks inside a
removed field are in the snapshot `blocks` and still get their callbacks. -/
def sanitizeNode (table : String → Lookup) : Bool → Xml → Xml × Bool
  | stopped, .text data => (.text data, stopped)
  | true, .element nodeName attributes childNodes =>
      (.element nodeName attributes childNodes, true)
  | false, .element nodeName attributes childNodes =>
      if nodeName = "block" then
        if callbackThrows table attributes childNodes then
          (.element nodeName attributes childNodes, true)
        else
          (.element nodeName attributes
              (sanitizeBlockEl table attributes (sanitizeNodes table false childNodes).1),
            (sanitizeNodes table false childNodes).2)
      else
        (.element nodeName attributes (sanitizeNodes table false childNodes).1,
          (sanitizeNodes table false childNodes).2)
/-- The pass over a list of sibling nodes, from the first to the last. -/
def sanitizeNodes (table : String → Lookup) : Bool → List Xml → List Xml × Bool
  | stopped, [] => ([], stopped)
  | stopped, child :: rest =>
      ((sanitizeNode table stopped child).1
          :: (sanitizeNodes table (sanitizeNode table stopped child).2 rest).1,
        (sanitizeNodes table (sanitizeNode table stopped child).2 rest).2)
end

/-- The sanitizer with a given table of allowed fields: the pass runs over the
elements named `block` among the descendants of `xmlDom` (`getElementsByTagName` does
not return the node it is called on; a text node has no such method, and the error
is swallowed), and `xmlDom` is returned whether the pass has ended early or not. -/
def sanitizeWith (table : String → Lookup) (xmlDom : Xml) : Xml :=
  match xmlDom with
  | .text data => .text data
  | .element nodeName attributes childNodes =>
      .element nodeName attributes (sanitizeNodes table false childNodes).1

/-- The function `sanitizeBlocklyXmlDom` of `utils/droneBlocks.js`. -/
def sanitizeBlocklyXmlDom (xmlDom : Xml) : Xml := sanitizeWith ALLOWED_FIELDS_BY_TYPE xmlDom

/-- The function `sanitizeBlocklyXmlDom` of `components/LlmChatWidget.jsx`. -/
def widgetSanitizeBlocklyXmlDom (xmlDom : Xml) : Xml := sanitizeWith widgetAllowedFields xmlDom

mutual
/-- The types of the block elements of a node, the node itself included. -/
def blockTypes : Xml → List String
  | .text _ => []
  | .element nodeName attributes childNodes =>
      (if nodeName = "block" then [(getAttribute attributes "type").getD ""] else [])
        ++ blockTypesOfNodes childNodes
/-- The types of the block elements of a list of nodes. -/
def blockTypesOfNodes : List Xml → List String
  | [] => []
  | child :: rest => blockTypes child ++ blockTypesOfNodes rest
end

/-! ## Properties of the compiler -/

theorem visit_append (p : Platform) (b : Block) (sequence : List Instr) :
    visit p b sequence = sequence ++ visit p b [] := by
  induction b generalizing sequence with
  | null => simp [visit]
  | node type fields next ih =>
      simp only [visit, List.nil_append]
      rw [ih (sequence ++ emit p type fields), ih (emit p type fields), List.append_assoc]

theorem visit_toList (p : Platform) (b : Block) :
    visit p b [] = b.toList.flatMap (fun tf => emit p tf.1 tf.2) := by
  induction b with
  | null => simp [visit, Block.toList]
  | node type fields next ih =>
      simp only [visit, List.nil_append, Block.toList, List.flatMap_cons]
      rw [visit_append, ih]

theorem foldl_visit (p : Platform) (blocks : List Block) (sequence : List Instr) :
    blocks.foldl (fun sequence block => visit p block sequence) sequence
      = sequence ++ blocks.flatMap (fun b => visit p b []) := by
  induction blocks generalizing sequence with
  | nil => simp
  | cons b bs ih =>
      simp only [List.foldl_cons, List.flatMap_cons]
      rw [ih, visit_append, List.append_assoc]

theorem buildMissionSequence_flatMap (p : Platform) (workspace : Workspace) :
    buildMissionSequence p (some workspace)
      = workspace.topBlocks.flatMap (fun b => visit p b []) := by
  simp [buildMissionSequence, foldl_visit]

theorem emit_op (p : Platform) (op : Op) : emit p op.type op.fields = op.emission p := by
  cases op <;> rfl

theorem visit_chainOf (p : Platform) (ops : List Op) :
    visit p (chainOf ops) [] = ops.flatMap (Op.emission p) := by
  induction ops with
  | nil => simp [chainOf, visit]
  | cons op ops ih =>
      simp only [chainOf, visit, List.nil_append, List.flatMap_cons]
      rw [visit_append, ih, emit_op]

theorem emit_unrecognised (p : Platform) (type : String) (fields : List (String × JsVal))
    (h : type ∉ recognisedTypes) : emit p type fields = [] := by
  simp only [recognisedTypes, List.mem_cons, List.mem_singleton, not_or, List.mem_nil_iff,
    or_false] at h
  unfold emit
  split <;> simp_all

theorem visit_removeAt (p : Platform) (chain : Block) (i : Nat) (t : String)
    (ht : chain.typeAt i = some t) (hu : t ∉ recognisedTypes) (sequence : List Instr) :
    visit p (chain.removeAt i) sequence = visit p chain sequence := by
  induction chain generalizing i sequence with
  | null => simp [Block.typeAt] at ht
  | node type fields next ih =>
      cases i with
      | zero =>
          simp only [Block.typeAt, Option.some.injEq] at ht
          subst ht
          simp [Block.removeAt, visit, emit_unrecognised p type fields hu]
      | succ i =>
          simp only [Block.typeAt] at ht
          simp only [Block.removeAt, visit]
          exact ih i ht _

/-- C1: for a workspace whose chains are built from the eight recognised kinds,
`buildMissionSequence` returns the per-kind emissions of the table, concatenated
chain by chain in `getTopBlocks` order and block by block in `next`-order; and the
chain takeoff, wait 2, fly F 5, land compiles to
`[command takeoff, wait 2, command "fly F 5", command land]`. -/
theorem buildMissionSequence_table :
    (∀ (p : Platform) (chains : List (List Op)),
      buildMissionSequence p (some ⟨chains.map chainOf⟩)
        = chains.flatMap (fun ops => ops.flatMap (Op.emission p))) ∧
    buildMissionSequence stdPlatform
        (some ⟨[chainOf [.takeoff, .wait 2, .fly "F" 5, .land]]⟩)
      = [.command "takeoff", .wait (.fin 2), .command "fly F 5", .command "land"] ∧
    buildMissionSequence stdPlatform (some ⟨[chainOf [.takeoff_after 3]]⟩)
      = [.wait (.fin 3), .command "takeoff"] := by
  refine ⟨?_, by decide, by decide⟩
  intro p chains
  rw [buildMissionSequence_flatMap]
  simp only [List.flatMap_map]
  congr 1
  funext ops
  exact visit_chainOf p ops

/-- C2 (as the code behaves): the compiler's `switch` has no case for
`takeoff_height`, so such a block emits no instruction at all, wherever it stands in
a chain; a workspace holding only the block `takeoff_height` with `HEIGHT = 2`
compiles to the empty sequence. -/
theorem takeoff_height_emits_nothing :
    (∀ (p : Platform) (fields : List (String × JsVal)) (next : Block) (sequence : List Instr),
      visit p (.node "takeoff_height" fields next) sequence = visit p next sequence) ∧
    buildMissionSequence stdPlatform
        (some ⟨[.node "takeoff_height" [("HEIGHT", .num (.fin 2))] .null]⟩) = [] := by
  refine ⟨?_, by decide⟩
  intro p fields next sequence
  simp [visit, emit]

/-- C3: a `wait`, `takeoff_after` or `land_after` block whose `TIME` does not convert
to a finite number emits `wait 0` (followed by its command), a `fly` block whose
`VALUE` does not convert to a finite number emits `fly <DIRECTION> 1` with the
direction as it is, and the number of instructions a block emits is the same for
all field values. -/
theorem bad_field_defaults (p : Platform) (type : String)
    (fields fields' : List (String × JsVal)) :
    ((p.toNumber (getFieldValue fields "TIME")).isFinite = false →
      emit p "wait" fields = [.wait (.fin 0)] ∧
      emit p "takeoff_after" fields = [.wait (.fin 0), .command "takeoff"] ∧
      emit p "land_after" fields = [.wait (.fin 0), .command "land"]) ∧
    ((p.toNumber (getFieldValue fields "VALUE")).isFinite = false →
      emit p "fly" fields
        = [.command ("fly " ++ p.toText (getFieldValue fields "DIRECTION") ++ " "
            ++ p.numberToString (.fin 1))]) ∧
    (emit p type fields).length = (emit p type fields').length := by
  refine ⟨?_, ?_, ?_⟩
  · intro h
    simp [emit, parseNumber, h]
  · intro h
    simp [emit, parseNumber, h]
  · unfold emit
    split <;> rfl

/-- Witness for C3: a `TIME` and a `VALUE` holding the text `abc` on the example platform. -/
theorem bad_field_defaults_witness :
    emit stdPlatform "wait" [("TIME", .str "abc")] = [.wait (.fin 0)] ∧
    emit stdPlatform "takeoff_after" [("TIME", .str "abc")]
      = [.wait (.fin 0), .command "takeoff"] ∧
    emit stdPlatform "fly" [("DIRECTION", .str "F"), ("VALUE", .str "abc")]
      = [.command "fly F 1"] ∧
    (emit stdPlatform "fly" [("DIRECTION", .str "F"), ("VALUE", .str "abc")]).length
      = (emit stdPlatform "fly" [("DIRECTION", .str "F"), ("VALUE", .num (.fin 5))]).length :=
  ⟨((bad_field_defaults stdPlatform "wait" [("TIME", .str "abc")] []).1 (by decide)).1,
   ((bad_field_defaults stdPlatform "wait" [("TIME", .str "abc")] []).1 (by decide)).2.1,
   ((bad_field_defaults stdPlatform "fly" [("DIRECTION", .str "F"), ("VALUE", .str "abc")]
      []).2.1 (by decide)).trans (by decide),
   (bad_field_defaults stdPlatform "fly" [("DIRECTION", .str "F"), ("VALUE", .str "abc")]
      [("DIRECTION", .str "F"), ("VALUE", .num (.fin 5))]).2.2⟩

/-- C4: a block whose type has no case in the compiler's `switch` contributes no
instruction and does not stop the traversal: compiling a workspace gives the same
sequence as compiling it with that block unlinked from its chain. -/
theorem unknown_block_skipped (p : Platform) (before after : List Block) (chain : Block)
    (i : Nat) (t : String) (ht : chain.typeAt i = some t) (hu : t ∉ recognisedTypes) :
    buildMissionSequence p (some ⟨before ++ chain :: after⟩)
      = buildMissionSequence p (some ⟨before ++ chain.removeAt i :: after⟩) := by
  simp only [buildMissionSequence_flatMap, List.flatMap_append, List.flatMap_cons]
  rw [visit_removeAt p chain i t ht hu]

/-- Witness for C4: a `controls_if` block between takeoff and land. -/
theorem unknown_block_skipped_witness :
    buildMissionSequence stdPlatform
        (some ⟨[.node "takeoff" [] (.node "controls_if" [] (.node "land" [] .null))]⟩)
      = buildMissionSequence stdPlatform (some ⟨[.node "takeoff" [] (.node "land" [] .null)]⟩) ∧
    buildMissionSequence stdPlatform (some ⟨[.node "takeoff" [] (.node "land" [] .null)]⟩)
      = [.command "takeoff", .command "land"] :=
  ⟨unknown_block_skipped stdPlatform [] []
      (.node "takeoff" [] (.node "controls_if" [] (.node "land" [] .null))) 1 "controls_if"
      rfl (by decide),
   by decide⟩

/-! ## Properties of the actuator model -/

namespace JsNum

@[simp]
theorem fin_add_fin (a b : ℚ) : fin a + fin b = fin (a + b) := rfl

@[simp]
theorem fin_mul_fin (a b : ℚ) : fin a * fin b = fin (a * b) := rfl

@[simp]
theorem neg_fin (a : ℚ) : -fin a = fin (-a) := rfl

@[simp]
theorem fin_sub_fin (a b : ℚ) : fin a - fin b = fin (a - b) := by
  show add (fin a) (neg (fin b)) = fin (a - b)
  simp [add, neg, sub_eq_add_neg]

@[simp]
theorem abs_fin (a : ℚ) : abs (fin a) = fin |a| := rfl

@[simp]
theorem min_fin_fin (a b : ℚ) : min (fin a) (fin b) = fin (Min.min a b) := rfl

@[simp]
theorem max_fin_fin (a b : ℚ) : max (fin a) (fin b) = fin (Max.max a b) := rfl

@[simp]
theorem isFinite_fin (a : ℚ) : (fin a).isFinite = true := rfl

theorem isFinite_iff (n : JsNum) : n.isFinite = true ↔ ∃ q, n = fin q := by
  cases n <;> simp [isFinite]

end JsNum

@[simp]
theorem JsNum.round6_fin (q : ℚ) : (JsNum.fin q).round6 = .fin (Dapi.round6 q) := rfl

theorem round6_of_grid (q : ℚ) (k : ℤ) (h : q = k / 1000000) : round6 q = q := by
  unfold round6
  subst h
  have h1 : (k : ℚ) / 1000000 * 1000000 + 1 / 2 = (k : ℚ) + 1 / 2 := by ring
  have h2 : ⌊(k : ℚ) + 1 / 2⌋ = k := by
    rw [Int.floor_eq_iff]
    constructor <;> norm_num
  rw [h1, h2]

theorem round6_add_grid (q : ℚ) (k : ℤ) :
    round6 (k / 1000000 + q) = k / 1000000 + round6 q := by
  unfold round6
  have h1 : ((k : ℚ) / 1000000 + q) * 1000000 + 1 / 2 = (q * 1000000 + 1 / 2) + k := by ring
  rw [h1, Int.floor_add_int]
  push_cast
  ring

theorem round6_near (q : ℚ) : |round6 q - q| ≤ 1 / 2000000 := by
  unfold round6
  have h1 := Int.floor_le (q * 1000000 + 1 / 2)
  have h2 := Int.lt_floor_add_one (q * 1000000 + 1 / 2)
  have e : (⌊q * 1000000 + 1 / 2⌋ : ℚ) / 1000000 - q
      = (⌊q * 1000000 + 1 / 2⌋ - q * 1000000) / 1000000 := by ring
  rw [e, abs_le]
  constructor
  · rw [le_div_iff₀ (by norm_num)]
    linarith
  · rw [div_le_iff₀ (by norm_num)]
    linarith

theorem round6_sub_self (q : ℚ) (h : ∀ n : ℤ, q * 1000000 ≠ n + 1 / 2) :
    round6 (round6 q - q) = 0 := by
  have h1 := Int.floor_le (q * 1000000 + 1 / 2)
  have h2 := Int.lt_floor_add_one (q * 1000000 + 1 / 2)
  have h3 : (⌊q * 1000000 + 1 / 2⌋ : ℚ) ≠ q * 1000000 + 1 / 2 := by
    intro e
    apply h (⌊q * 1000000 + 1 / 2⌋ - 1)
    push_cast
    linarith
  have h4 : (⌊q * 1000000 + 1 / 2⌋ : ℚ) < q * 1000000 + 1 / 2 := lt_of_le_of_ne h1 h3
  have e : ((⌊q * 1000000 + 1 / 2⌋ : ℚ) / 1000000 - q) * 1000000 + 1 / 2
      = ⌊q * 1000000 + 1 / 2⌋ - q * 1000000 + 1 / 2 := by ring
  have h5 : ⌊(round6 q - q) * 1000000 + 1 / 2⌋ = 0 := by
    rw [Int.floor_eq_iff]
    unfold round6
    rw [e]
    constructor
    · push_cast
      linarith
    · push_cast
      linarith
  show (⌊(round6 q - q) * 1000000 + 1 / 2⌋ : ℚ) / 1000000 = 0
  rw [h5]
  simp

theorem round6_eval (q : ℚ) (k : ℤ) (h1 : (k : ℚ) ≤ q * 1000000 + 1 / 2)
    (h2 : q * 1000000 + 1 / 2 < k + 1) : round6 q = k / 1000000 := by
  unfold round6
  rw [Int.floor_eq_iff.2 ⟨h1, h2⟩]

theorem round6_zero : round6 0 = 0 := round6_of_grid 0 0 (by norm_num)

theorem round6_round6 (q : ℚ) : round6 (round6 q) = round6 q :=
  round6_of_grid (round6 q) ⌊q * 1000000 + 1 / 2⌋ rfl

theorem tweenValue_one (s e : ℚ) : tweenValue (.fin s) (.fin e) 1 = .fin (round6 e) := by
  simp [tweenValue]

theorem foldl_overwrite {α : Type} (render : ℚ → α → α)
    (h : ∀ t s f, render t (render s f) = render t f) (ts : List ℚ) (f : α) :
    (ts ++ [1]).foldl (fun f t => render t f) f = render 1 f := by
  induction ts generalizing f with
  | nil => rfl
  | cons t ts ih =>
      simp only [List.cons_append, List.foldl_cons]
      rw [ih, h]

theorem animateProperty_eq (p : Platform) (duration : JsNum) (render : ℚ → Flight → Flight)
    (h : ∀ t s f, render t (render s f) = render t f) (f : Flight) :
    animateProperty p duration render f
      = render 1 { f with log := f.log ++ [Event.tween duration] } := by
  unfold animateProperty
  exact foldl_overwrite render h p.frames _

theorem Vector3.set_set (v : Vector3) (axis : Axis) (a b : JsNum) :
    (v.set axis a).set axis b = v.set axis b := by
  cases axis <;> rfl

theorem moveDelta_eq (p : Platform) (axis : Axis) (value : JsNum) (f : Flight) :
    moveDelta p axis value f
      = { drone := { f.drone with
            position := f.drone.position.set axis
              (tweenValue (f.drone.position.get axis) (f.drone.position.get axis + value) 1) },
          spinActive := f.spinActive,
          log := f.log ++ [Event.tween
            (JsNum.min (JsNum.abs value * JsNum.fin 0.35 + JsNum.fin 0.4) (.fin 2.4))] } := by
  unfold moveDelta
  rw [animateProperty_eq]
  intro t s f
  simp [Vector3.set_set]

theorem tiltTo_eq (p : Platform) (x z duration : JsNum) (f : Flight) :
    tiltTo p x z duration f
      = { drone := { f.drone with
            rotation := { f.drone.rotation with
              x := tweenValue f.drone.rotation.x x 1, z := tweenValue f.drone.rotation.z z 1 } },
          spinActive := f.spinActive,
          log := f.log ++ [Event.tween duration] } := by
  unfold tiltTo
  rw [animateProperty_eq]
  intro t s f
  rfl

theorem tiltDrone_position (p : Platform) (directionCode : Option String) (f : Flight) :
    (tiltDrone p directionCode f).drone.position = f.drone.position := by
  simp [tiltDrone, tiltTo_eq]

theorem tiltDrone_log (p : Platform) (directionCode : Option String) (f : Flight) :
    (tiltDrone p directionCode f).log
      = f.log ++ [Event.tween (.fin 0.28), Event.tween (.fin 0.4)] := by
  simp [tiltDrone, tiltTo_eq]

theorem runAction_circle (p : Platform) (command : String) (args : List String) (f : Flight) :
    runAction p command "circle" args f
      = { drone :=
            circleOnUpdate p
              { f.drone.position with
                x := f.drone.position.x
                  + (if args.head? = some "CR"
                      then (p.argNumber (args.get? 1)).orElse (.fin 1.5)
                      else -((p.argNumber (args.get? 1)).orElse (.fin 1.5))) }
              ((p.argNumber (args.get? 1)).orElse (.fin 1.5))
              (decide (args.head? = some "CR")) f.drone.rotation.y
              (tweenValue (.fin 0) (.fin (2 * p.PI)) 1) f.drone,
          spinActive := f.spinActive,
          log := f.log
            ++ [Event.tween (circleDuration ((p.argNumber (args.get? 1)).orElse (.fin 1.5)))] } := by
  simp only [runAction]
  rw [animateProperty_eq]
  · simp
  · intro t s f
    simp [circleOnUpdate]

theorem circle_final_position (p : Platform) (command raw : String) (f : Flight)
    (x0 z0 r : ℚ) (hx : f.drone.position.x = .fin x0) (hz : f.drone.position.z = .fin z0)
    (hr : p.stringToNumber raw = .fin r) (hr0 : r ≠ 0)
    (hcos : p.cos (round6 (2 * p.PI)) = 1) (hsin : p.sin (round6 (2 * p.PI)) = 0) :
    (runAction p command "circle" ["CR", raw] f).drone.position
      = { x := .fin (x0 + 2 * r), y := f.drone.position.y, z := .fin z0 } ∧
    (runAction p command "circle" ["CL", raw] f).drone.position
      = { x := .fin (x0 - 2 * r), y := f.drone.position.y, z := .fin z0 } ∧
    (runAction p command "circle" ["CR", raw] f).spinActive = f.spinActive ∧
    (runAction p command "circle" ["CL", raw] f).spinActive = f.spinActive := by
  have hrad : (JsNum.fin r).orElse (.fin 1.5) = .fin r := by
    simp [JsNum.orElse, JsNum.truthy, hr0]
  have htheta : tweenValue (.fin 0) (.fin (2 * p.PI)) 1 = .fin (round6 (2 * p.PI)) :=
    tweenValue_one _ _
  refine ⟨?_, ?_, ?_, ?_⟩
  · rw [runAction_circle]
    simp [circleOnUpdate, Platform.argNumber, hr, hrad, htheta, Platform.cosN, Platform.sinN,
      hcos, hsin, hx, hz]
    ring
  · rw [runAction_circle]
    simp [circleOnUpdate, Platform.argNumber, hr, hrad, htheta, Platform.cosN, Platform.sinN,
      hcos, hsin, hx, hz]
    ring
  · rw [runAction_circle]
  · rw [runAction_circle]

/-- C5 (as the code behaves): a full circle does not bring the drone back. From the
drone at `(0, 0.8, 0)`, on a platform with `cos = 1` and `sin = 0` at the final angle,
`circle CR 1` ends at `x = 2` and `circle CL 1` ends at `x = -2`; `z`, `y` and the
rotor flag are as before. The final angle is the one the tween writes at completion,
`2 * PI` rounded to six decimals, 6.283185, and the yaw ends at minus and plus that
angle. -/
theorem circle_ends_displaced :
    (executeCommand stdPlatform "circle CR 1" exampleSim).simulationState
      = some { drone := some
                { position := { x := .fin 2, y := .fin 0.8, z := .fin 0 },
                  rotation := { x := .fin 0, y := .fin (-6.283185), z := .fin 0 } },
               propellerSpin := { active := false, speed := .fin 0 } } ∧
    (executeCommand stdPlatform "circle CL 1" exampleSim).simulationState
      = some { drone := some
                { position := { x := .fin (-2), y := .fin 0.8, z := .fin 0 },
                  rotation := { x := .fin 0, y := .fin 6.283185, z := .fin 0 } },
               propellerSpin := { active := false, speed := .fin 0 } } := by
  have t1 : trim "circle CR 1" = "circle CR 1" := by decide
  have s1 : splitCommand "circle CR 1" = ("circle", ["CR", "1"]) := by decide
  have t2 : trim "circle CL 1" = "circle CL 1" := by decide
  have s2 : splitCommand "circle CL 1" = ("circle", ["CL", "1"]) := by decide
  have n1 : stdPlatform.stringToNumber "1" = .fin 1 := by decide
  have hth : tweenValue (.fin 0) (.fin (2 * stdPlatform.PI)) 1 = .fin 6.283185 := by
    rw [tweenValue_one]
    have hPI : stdPlatform.PI = 3141592653589793 / 1000000000000000 := rfl
    rw [hPI, round6_eval _ 6283185 (by norm_num) (by norm_num)]
    norm_num
  have hcos : ∀ t, stdPlatform.cos t = 1 := fun _ => rfl
  have hsin : ∀ t, stdPlatform.sin t = 0 := fun _ => rfl
  constructor
  · simp [executeCommand, exampleSim, exampleDrone, t1, s1, runAction_circle, circleOnUpdate,
      Platform.argNumber, n1, JsNum.orElse, JsNum.truthy, hth, Platform.cosN,
      Platform.sinN, hcos, hsin]
    norm_num
  · simp [executeCommand, exampleSim, exampleDrone, t2, s2, runAction_circle, circleOnUpdate,
      Platform.argNumber, n1, JsNum.orElse, JsNum.truthy, hth, Platform.cosN,
      Platform.sinN, hcos, hsin]
    norm_num

theorem moveDelta_log_bounded (p : Platform) (axis : Axis) (v : ℚ) (f : Flight) :
    ∃ q, (moveDelta p axis (.fin v) f).log = f.log ++ [Event.tween (.fin q)] ∧ q ≤ 2.4 := by
  refine ⟨Min.min (|v| * 0.35 + 0.4) 2.4, ?_, min_le_right _ _⟩
  simp [moveDelta_eq]

theorem orElse_ne_nan (n : JsNum) (q : ℚ) : n.orElse (.fin q) ≠ .nan := by
  cases n <;> simp [JsNum.orElse, JsNum.truthy]
  split <;> simp

theorem yaw_duration_bounded (degrees : JsNum) (h : degrees ≠ .nan) :
    ∃ q, JsNum.min ((JsNum.abs degrees).divConst 90 + JsNum.fin 0.4) (.fin 2) = .fin q
      ∧ q ≤ 2.4 := by
  cases degrees with
  | fin d =>
      refine ⟨Min.min (|d| * (1 / 90) + 0.4) 2, rfl, ?_⟩
      exact le_trans (min_le_right _ _) (by norm_num)
  | nan => exact absurd rfl h
  | posInf =>
      refine ⟨2, ?_, by norm_num⟩
      have h90 : JsNum.signedInf (1 / 90) = .posInf := by
        unfold JsNum.signedInf
        norm_num
      show JsNum.min (JsNum.add (JsNum.signedInf (1 / 90)) (.fin 0.4)) (.fin 2) = .fin 2
      rw [h90]
      rfl
  | negInf =>
      refine ⟨2, ?_, by norm_num⟩
      have h90 : JsNum.signedInf (1 / 90) = .posInf := by
        unfold JsNum.signedInf
        norm_num
      show JsNum.min (JsNum.add (JsNum.signedInf (1 / 90)) (.fin 0.4)) (.fin 2) = .fin 2
      rw [h90]
      rfl

theorem circle_duration_unbounded :
    ¬ ∃ M : ℚ, ∀ radius d : ℚ, circleDuration (.fin radius) = .fin d → d ≤ M := by
  rintro ⟨M, hM⟩
  have h := hM (5 * M / 2) (4 + 5 * M / 2 * 0.4) (by simp [circleDuration])
  norm_num at h
  linarith

theorem signed_fin (d : ℚ) (direction : Option String) :
    ∃ v, signed (.fin d) direction = .fin v := by
  unfold signed
  split <;> simp

theorem runAction_fly_log (p : Platform) (command : String) (args : List String) (f : Flight) :
    ∃ added, (runAction p command "fly" args f).log = f.log ++ added ∧
      ∀ d, Event.tween d ∈ added → ∃ q, d = .fin q ∧ q ≤ 2.4 := by
  simp only [runAction]
  cases hd : (p.argNumber (args.get? 1)).orElse (.fin 0) with
  | fin dist =>
      simp only [JsNum.isFinite_fin, Bool.not_true, Bool.false_eq_true, if_false]
      obtain ⟨v, hv⟩ := signed_fin dist args.head?
      cases haxis : axisMap args.head? with
      | none =>
          refine ⟨[Event.tween (.fin 0.28), Event.tween (.fin 0.4)], tiltDrone_log _ _ _, ?_⟩
          intro d hmem
          simp only [List.mem_cons, List.mem_singleton, Event.tween.injEq, List.mem_nil_iff,
            or_false] at hmem
          rcases hmem with rfl | rfl
          · exact ⟨0.28, rfl, by norm_num⟩
          · exact ⟨0.4, rfl, by norm_num⟩
      | some axis =>
          obtain ⟨q, hq, hle⟩ := moveDelta_log_bounded p axis v (tiltDrone p args.head? f)
          refine ⟨[Event.tween (.fin 0.28), Event.tween (.fin 0.4), Event.tween (.fin q)], ?_, ?_⟩
          · simp only [hv]
            rw [hq, tiltDrone_log]
            simp
          · intro d hmem
            simp only [List.mem_cons, List.mem_singleton, Event.tween.injEq, List.mem_nil_iff,
              or_false] at hmem
            rcases hmem with rfl | rfl | rfl
            · exact ⟨0.28, rfl, by norm_num⟩
            · exact ⟨0.4, rfl, by norm_num⟩
            · exact ⟨q, rfl, hle⟩
  | nan => exact ⟨[], by simp [JsNum.isFinite], by simp⟩
  | posInf => exact ⟨[], by simp [JsNum.isFinite], by simp⟩
  | negInf => exact ⟨[], by simp [JsNum.isFinite], by simp⟩

theorem runAction_yaw_log (p : Platform) (command : String) (args : List String) (f : Flight) :
    ∃ q, (runAction p command "yaw" args f).log = f.log ++ [Event.tween (.fin q)] ∧ q ≤ 2.4 := by
  obtain ⟨q, hq, hle⟩ :=
    yaw_duration_bounded ((p.argNumber (args.get? 1)).orElse (.fin 0)) (orElse_ne_nan _ _)
  refine ⟨q, ?_, hle⟩
  simp only [runAction]
  rw [animateProperty_eq, hq]
  intro t s f
  rfl

/-- C8 (as the code behaves): the circle tween is not clamped. `circle CR 1000`
starts one tween of 404 seconds, and no number bounds the duration of the circle
tween over all radii. -/
theorem circle_duration_not_clamped :
    (executeCommand stdPlatform "circle CR 1000" exampleSim).log = [.tween (.fin 404)] ∧
    ¬ ∃ M : ℚ, ∀ radius d : ℚ, circleDuration (.fin radius) = .fin d → d ≤ M := by
  refine ⟨?_, circle_duration_unbounded⟩
  have t1 : trim "circle CR 1000" = "circle CR 1000" := by decide
  have s1 : splitCommand "circle CR 1000" = ("circle", ["CR", "1000"]) := by decide
  have n1 : readNumber "1000" = .fin 1000 := by decide
  simp [executeCommand, exampleSim, t1, s1, runAction_circle, Platform.argNumber, n1,
    JsNum.orElse, JsNum.truthy, circleDuration, stdPlatform]
  norm_num

/-- C8 (amended): on a drone whose position is finite, every tween that a command
other than `circle` starts lasts at most 2.4 seconds, whatever the magnitude of the
argument (axis moves at most 2.4, yaw turns at most 2, the two tilts 0.28 and 0.4);
a `circle` command starts one tween of `4 + 0.4 * radius` seconds, which is not
clamped. -/
theorem tween_durations (p : Platform) (command action : String) (args : List String)
    (f : Flight) (hpos : f.drone.position.finite) :
    (action ≠ "circle" →
      ∃ added, (runAction p command action args f).log = f.log ++ added ∧
        ∀ d, Event.tween d ∈ added → ∃ q, d = .fin q ∧ q ≤ 2.4) ∧
    (runAction p command "circle" args f).log
      = f.log ++ [Event.tween (circleDuration ((p.argNumber (args.get? 1)).orElse (.fin 1.5)))] ∧
    (∀ radius : ℚ, circleDuration (.fin radius) = .fin (4 + radius * 0.4)) := by
  refine ⟨?_, by rw [runAction_circle], fun radius => rfl⟩
  intro hne
  obtain ⟨-, hy, -⟩ := hpos
  obtain ⟨y0, hy⟩ := (JsNum.isFinite_iff _).1 hy
  have single : ∀ (g : Flight) (q : ℚ), g.log = f.log ++ [Event.tween (.fin q)] → q ≤ 2.4 →
      ∃ added, g.log = f.log ++ added ∧
        ∀ d, Event.tween d ∈ added → ∃ q, d = .fin q ∧ q ≤ 2.4 := by
    intro g q hg hle
    refine ⟨[Event.tween (.fin q)], hg, ?_⟩
    intro d hmem
    simp only [List.mem_singleton, Event.tween.injEq] at hmem
    exact ⟨q, hmem, hle⟩
  by_cases h1 : action = "takeoff"
  · subst h1
    obtain ⟨q, hq, hle⟩ := moveDelta_log_bounded p .y (2.2 - y0) (togglePropellerSpin true f)
    refine single _ q ?_ hle
    simpa [runAction, togglePropellerSpin, hy] using hq
  by_cases h2 : action = "takeoff_height"
  · subst h2
    cases ht : p.argNumber args.head? with
    | fin t =>
        obtain ⟨q, hq, hle⟩ :=
          moveDelta_log_bounded p .y (Max.max 0.2 t - y0) (togglePropellerSpin true f)
        refine single _ q ?_ hle
        simpa [runAction, togglePropellerSpin, hy, ht] using hq
    | nan =>
        obtain ⟨q, hq, hle⟩ := moveDelta_log_bounded p .y (2.2 - y0) (togglePropellerSpin true f)
        refine single _ q ?_ hle
        simpa [runAction, togglePropellerSpin, hy, ht, JsNum.isFinite] using hq
    | posInf =>
        obtain ⟨q, hq, hle⟩ := moveDelta_log_bounded p .y (2.2 - y0) (togglePropellerSpin true f)
        refine single _ q ?_ hle
        simpa [runAction, togglePropellerSpin, hy, ht, JsNum.isFinite] using hq
    | negInf =>
        obtain ⟨q, hq, hle⟩ := moveDelta_log_bounded p .y (2.2 - y0) (togglePropellerSpin true f)
        refine single _ q ?_ hle
        simpa [runAction, togglePropellerSpin, hy, ht, JsNum.isFinite] using hq
  by_cases h3 : action = "land"
  · subst h3
    obtain ⟨q, hq, hle⟩ := moveDelta_log_bounded p .y (0.2 - y0) f
    refine single _ q ?_ hle
    simpa [runAction, togglePropellerSpin, hy] using hq
  by_cases h4 : action = "fly"
  · subst h4
    exact runAction_fly_log p command args f
  by_cases h5 : action = "yaw"
  · subst h5
    obtain ⟨q, hq, hle⟩ := runAction_yaw_log p command args f
    exact single _ q hq hle
  by_cases h6 : action = "wait"
  · subst h6
    exact ⟨[], by simp [runAction], by simp⟩
  · refine ⟨[Event.warn command], ?_, by simp⟩
    unfold runAction
    split <;> simp_all

/-- Witness for C8: `fly F 5000` from the initial position. -/
theorem tween_durations_witness :
    ∃ added, (runAction stdPlatform "fly F 5000" "fly" ["F", "5000"]
        { drone := exampleDrone, spinActive := false, log := [] }).log = [] ++ added ∧
      ∀ d, Event.tween d ∈ added → ∃ q, d = .fin q ∧ q ≤ 2.4 :=
  (tween_durations stdPlatform "fly F 5000" "fly" ["F", "5000"]
    { drone := exampleDrone, spinActive := false, log := [] } ⟨rfl, rfl, rfl⟩).1 (by decide)

/-! ## Properties of the code projector -/

theorem projectedLines_op (p : Platform) (op : Op) :
    projectedLines p op.type op.fields = (op.emission p).map (Instr.line p) := by
  cases op <;> rfl

theorem forBlock_render (p : Platform) (type s : String) (fields : List (String × JsVal))
    (h : forBlock p type fields = some s) :
    s = String.join ((projectedLines p type fields).map Line.render) := by
  unfold forBlock at h
  unfold projectedLines
  split at h <;> simp_all [Line.render, String.join, String.append_assoc] <;> subst h <;> rfl

/-- C6 (as the code behaves): the projector and the compiler do not agree on every
snapshot. A `takeoff_height` block is projected as
`executeCommand("takeoff_height 2")` and compiled to nothing, and a `wait` block
whose `TIME` is the text `abc` is projected as `delayCommand(abc)` and compiled to
`wait 0`. -/
theorem projector_diverges_from_compiler :
    projectChain stdPlatform (.node "takeoff_height" [("HEIGHT", .num (.fin 2))] .null)
        = [.executeCommand "takeoff_height 2"] ∧
    visit stdPlatform (.node "takeoff_height" [("HEIGHT", .num (.fin 2))] .null) [] = [] ∧
    projectChain stdPlatform (.node "wait" [("TIME", .str "abc")] .null)
        = [.delayCommand "abc"] ∧
    (visit stdPlatform (.node "wait" [("TIME", .str "abc")] .null) []).map
        (Instr.line stdPlatform) = [.delayCommand "0"] ∧
    ¬ (∀ chain : Block,
        projectChain stdPlatform chain
          = (visit stdPlatform chain []).map (Instr.line stdPlatform)) := by
  refine ⟨by decide, by decide, by decide, by decide, ?_⟩
  intro h
  exact absurd (h (.node "wait" [("TIME", .str "abc")] .null)) (by decide)

/-- C6 (amended): for every chain built from the eight kinds the compiler recognises,
with finite numbers in the numeric fields, the projected statements are the compiled
instructions read as statements, one for one and in the same order. -/
theorem projector_agrees_on_recognised (p : Platform) (ops : List Op) :
    projectChain p (chainOf ops) = (visit p (chainOf ops) []).map (Instr.line p) := by
  rw [visit_chainOf]
  induction ops with
  | nil => rfl
  | cons op ops ih =>
      simp only [chainOf, projectChain, List.flatMap_cons, List.map_append]
      rw [ih, projectedLines_op]

/-! ## Properties of the run loop -/

theorem runSteps_isExecuting (exec : String → Sim → Outcome) (mission : List Instr) (app : App) :
    (runSteps exec mission app).isExecuting = app.isExecuting := by
  induction mission generalizing app with
  | nil => rfl
  | cons step rest ih =>
      cases step with
      | command value =>
          simp only [runSteps]
          split
          · rw [ih]
          · rfl
      | wait value =>
          simp only [runSteps]
          rw [ih]

theorem runSteps_trace (exec : String → Sim → Outcome) (mission : List Instr) (app : App) :
    ∃ steps, (runSteps exec mission app).trace = app.trace ++ steps ∧
      ∀ e ∈ steps, ∀ b, e ≠ RunEvent.setIsExecuting b := by
  induction mission generalizing app with
  | nil => exact ⟨[], by simp [runSteps], by simp⟩
  | cons step rest ih =>
      cases step with
      | command value =>
          simp only [runSteps]
          split
          · obtain ⟨steps, h1, h2⟩ := ih
              { app with
                trace := app.trace ++ [RunEvent.step (Instr.command value)],
                sim := (exec value app.sim).sim }
            refine ⟨RunEvent.step (Instr.command value) :: steps, ?_, ?_⟩
            · rw [h1]; simp
            · intro e he b
              rcases List.mem_cons.1 he with rfl | he
              · simp
              · exact h2 e he b
          · rename_i error _
            refine ⟨[RunEvent.step (Instr.command value),
              RunEvent.consoleError (Instr.command value) error], by simp, ?_⟩
            intro e he b
            simp only [List.mem_cons, List.mem_singleton, List.mem_nil_iff, or_false] at he
            rcases he with rfl | rfl <;> simp
      | wait value =>
          simp only [runSteps]
          obtain ⟨steps, h1, h2⟩ := ih
            { app with
              trace := app.trace ++ [RunEvent.step (Instr.wait value),
                RunEvent.timeout (delay value)] }
          refine ⟨RunEvent.step (Instr.wait value) :: RunEvent.timeout (delay value) :: steps,
            ?_, ?_⟩
          · rw [h1]; simp
          · intro e he b
            simp only [List.mem_cons] at he
            rcases he with rfl | rfl | he
            · simp
            · simp
            · exact h2 e he b

theorem executeCommand_unavailable (p : Platform) (rawCommand : String) (w : Sim)
    (h : w.unavailable) : executeCommand p rawCommand w = w := by
  rcases h with h | ⟨state, h, hd⟩
  · simp [executeCommand, h]
  · simp [executeCommand, h, hd]

theorem runSteps_unavailable (p : Platform) (mission : List Instr) (app : App)
    (h : app.sim.unavailable) :
    runSteps (execStored p) mission app
      = { app with trace := app.trace ++ fullTrace mission } := by
  induction mission generalizing app with
  | nil => simp [runSteps, fullTrace]
  | cons step rest ih =>
      cases step with
      | command value =>
          simp only [runSteps, execStored, fullTrace]
          rw [executeCommand_unavailable p value app.sim h]
          have := ih { app with trace := app.trace ++ [RunEvent.step (Instr.command value)] } h
          simp only [execStored] at this
          rw [this]
          simp
      | wait value =>
          simp only [runSteps, fullTrace]
          have := ih { app with
            trace := app.trace ++ [RunEvent.step (Instr.wait value),
              RunEvent.timeout (delay value)] } h
          rw [this]
          simp

/-- C7 (as the code behaves): with no simulation state, a command step is not
rejected and the run goes on: the mission takeoff, land performs both steps and
reports no error. -/
theorem unavailable_actuator_does_not_abort :
    (execStored stdPlatform "takeoff" unmountedSim).thrown = none ∧
    (handleRunProgram stdPlatform (execStored stdPlatform)
        { isExecuting := false, workspace := some exampleWorkspace, sim := unmountedSim,
          trace := [] }).trace
      = [.codePreview, .setIsExecuting true, .step (.command "takeoff"),
          .step (.command "land"), .setIsExecuting false] := by
  constructor <;> decide

/-- C7 (amended): when the actuator is unavailable (no simulation state, or no drone
loaded), a command step returns without raising an error and without changing
anything, and a run started from Idle goes through every instruction of the mission
in order, none of them reported as failed, and ends Idle with the simulation as it
was. -/
theorem unavailable_actuator_steps_are_noops (p : Platform) (app : App)
    (hidle : app.isExecuting = false) (h : app.sim.unavailable) :
    (∀ rawCommand, (execStored p rawCommand app.sim).thrown = none ∧
      (execStored p rawCommand app.sim).sim = app.sim) ∧
    (buildMissionSequence p app.workspace ≠ [] →
      handleRunProgram p (execStored p) app
        = { app with
            trace := app.trace ++ [RunEvent.codePreview, RunEvent.setIsExecuting true]
              ++ fullTrace (buildMissionSequence p app.workspace)
              ++ [RunEvent.setIsExecuting false] }) := by
  refine ⟨fun rawCommand => ⟨rfl, executeCommand_unavailable p rawCommand app.sim h⟩, ?_⟩
  intro hne
  have hlen : (buildMissionSequence p app.workspace).length ≠ 0 := by
    simpa [List.length_eq_zero] using hne
  simp only [handleRunProgram, hidle, updateCodePreview, Bool.false_eq_true, if_false, hlen]
  have hrun := runSteps_unavailable p (buildMissionSequence p app.workspace)
    { app with isExecuting := true,
               trace := app.trace ++ [RunEvent.codePreview] ++ [RunEvent.setIsExecuting true] } h
  simp only at hrun
  rw [hrun]
  simp [hidle]

/-- Witness for C7: the mission takeoff, land run with no simulation state. -/
theorem unavailable_actuator_steps_are_noops_witness :
    handleRunProgram stdPlatform (execStored stdPlatform)
        { isExecuting := false, workspace := some exampleWorkspace, sim := unmountedSim,
          trace := [] }
      = { isExecuting := false, workspace := some exampleWorkspace, sim := unmountedSim,
          trace := [RunEvent.codePreview, RunEvent.setIsExecuting true]
            ++ fullTrace (buildMissionSequence stdPlatform (some exampleWorkspace))
            ++ [RunEvent.setIsExecuting false] } :=
  (unavailable_actuator_steps_are_noops stdPlatform
    { isExecuting := false, workspace := some exampleWorkspace, sim := unmountedSim,
      trace := [] } rfl (Or.inl rfl)).2 (by decide)

/-- C9: invoked while the status is Running, `handleRunProgram` returns at once: the
status, the simulation and the trace are what they were, so nothing was compiled,
no step ran and no second run began. -/
theorem rerun_while_running_is_noop (p : Platform) (exec : String → Sim → Outcome) (app : App)
    (h : app.isExecuting = true) : handleRunProgram p exec app = app := by
  simp [handleRunProgram, h]

/-- Witness for C9: a run requested while `isExecuting` is true. -/
theorem rerun_while_running_is_noop_witness :
    handleRunProgram stdPlatform (execStored stdPlatform)
        { isExecuting := true, workspace := some exampleWorkspace, sim := exampleSim,
          trace := [] }
      = { isExecuting := true, workspace := some exampleWorkspace, sim := exampleSim,
          trace := [] } :=
  rerun_while_running_is_noop stdPlatform (execStored stdPlatform)
    { isExecuting := true, workspace := some exampleWorkspace, sim := exampleSim, trace := [] }
    rfl

/-- C10: started from Idle, `handleRunProgram` ends Idle whatever the stored command
function does (also when it throws); for an empty mission it only refreshes the
preview, never sets the status and runs no step; for a non-empty mission the status
is set to Running once, before the first step, and back to Idle once, after the last
step performed, and no step changes it in between. -/
theorem run_ends_idle (p : Platform) (exec : String → Sim → Outcome) (app : App)
    (hidle : app.isExecuting = false) :
    (handleRunProgram p exec app).isExecuting = false ∧
    (buildMissionSequence p app.workspace = [] →
      handleRunProgram p exec app = updateCodePreview app) ∧
    (buildMissionSequence p app.workspace ≠ [] →
      ∃ steps, (handleRunProgram p exec app).trace
          = app.trace ++ [RunEvent.codePreview, RunEvent.setIsExecuting true] ++ steps
            ++ [RunEvent.setIsExecuting false] ∧
        ∀ e ∈ steps, ∀ b, e ≠ RunEvent.setIsExecuting b) := by
  refine ⟨?_, ?_, ?_⟩
  · simp only [handleRunProgram, hidle, Bool.false_eq_true, if_false]
    split
    · simp [updateCodePreview, hidle]
    · rfl
  · intro hempty
    simp [handleRunProgram, hidle, updateCodePreview, hempty]
  · intro hne
    have hlen : (buildMissionSequence p app.workspace).length ≠ 0 := by
      simpa [List.length_eq_zero] using hne
    simp only [handleRunProgram, hidle, updateCodePreview, Bool.false_eq_true, if_false, hlen]
    obtain ⟨steps, h1, h2⟩ := runSteps_trace exec (buildMissionSequence p app.workspace)
      { app with isExecuting := true,
                 trace := app.trace ++ [RunEvent.codePreview] ++ [RunEvent.setIsExecuting true] }
    refine ⟨steps, ?_, h2⟩
    simp only at h1 ⊢
    rw [h1]
    simp

/-- Witness for C10: a run whose first step throws still ends Idle. -/
theorem run_ends_idle_witness :
    (handleRunProgram stdPlatform execFailing
        { isExecuting := false, workspace := some exampleWorkspace, sim := exampleSim,
          trace := [] }).isExecuting = false ∧
    (handleRunProgram stdPlatform execFailing
        { isExecuting := false, workspace := some exampleWorkspace, sim := exampleSim,
          trace := [] }).trace
      = [.codePreview, .setIsExecuting true, .step (.command "takeoff"),
          .consoleError (.command "takeoff") "cannot run takeoff", .setIsExecuting false] :=
  ⟨(run_ends_idle stdPlatform execFailing
      { isExecuting := false, workspace := some exampleWorkspace, sim := exampleSim,
        trace := [] } rfl).1,
   by decide⟩

/-! ## Order of the performed steps -/

theorem performedSteps_append (a b : List RunEvent) :
    performedSteps (a ++ b) = performedSteps a ++ performedSteps b := by
  induction a with
  | nil => rfl
  | cons e a ih => cases e <;> simp [performedSteps, ih]

theorem failedSteps_append (a b : List RunEvent) :
    failedSteps (a ++ b) = failedSteps a ++ failedSteps b := by
  induction a with
  | nil => rfl
  | cons e a ih => cases e <;> simp [failedSteps, ih]

theorem runSteps_performed_take (exec : String → Sim → Outcome) (mission : List Instr)
    (app : App) :
    ∃ n, performedSteps (runSteps exec mission app).trace
      = performedSteps app.trace ++ mission.take n := by
  induction mission generalizing app with
  | nil => exact ⟨0, by simp [runSteps]⟩
  | cons step rest ih =>
      cases step with
      | command value =>
          simp only [runSteps]
          split
          · obtain ⟨n, hn⟩ := ih
              { app with
                trace := app.trace ++ [RunEvent.step (Instr.command value)],
                sim := (exec value app.sim).sim }
            refine ⟨n + 1, ?_⟩
            rw [hn]
            simp [performedSteps_append, performedSteps]
          · exact ⟨1, by simp [performedSteps_append, performedSteps]⟩
      | wait value =>
          simp only [runSteps]
          obtain ⟨n, hn⟩ := ih
            { app with
              trace := app.trace ++ [RunEvent.step (Instr.wait value),
                RunEvent.timeout (delay value)] }
          refine ⟨n + 1, ?_⟩
          rw [hn]
          simp [performedSteps_append, performedSteps]

theorem runSteps_no_throw (exec : String → Sim → Outcome) (mission : List Instr) (app : App)
    (h : ∀ value w, Instr.command value ∈ mission → (exec value w).thrown = none) :
    performedSteps (runSteps exec mission app).trace = performedSteps app.trace ++ mission ∧
    failedSteps (runSteps exec mission app).trace = failedSteps app.trace := by
  induction mission generalizing app with
  | nil => simp [runSteps]
  | cons step rest ih =>
      have hrest : ∀ value w, Instr.command value ∈ rest → (exec value w).thrown = none :=
        fun value w hmem => h value w (List.mem_cons_of_mem _ hmem)
      cases step with
      | command value =>
          simp only [runSteps, h value app.sim (List.mem_cons_self _ _)]
          obtain ⟨h1, h2⟩ := ih
            { app with
              trace := app.trace ++ [RunEvent.step (Instr.command value)],
              sim := (exec value app.sim).sim } hrest
          rw [h1, h2]
          simp [performedSteps_append, performedSteps, failedSteps_append, failedSteps]
      | wait value =>
          simp only [runSteps]
          obtain ⟨h1, h2⟩ := ih
            { app with
              trace := app.trace ++ [RunEvent.step (Instr.wait value),
                RunEvent.timeout (delay value)] } hrest
          rw [h1, h2]
          simp [performedSteps_append, performedSteps, failedSteps_append, failedSteps]

theorem runSteps_throw_at (exec : String → Sim → Outcome) (before after : List Instr)
    (value : String) (app : App)
    (hbefore : ∀ c w, Instr.command c ∈ before → (exec c w).thrown = none)
    (hthrow : ∀ w, (exec value w).thrown ≠ none) :
    performedSteps (runSteps exec (before ++ Instr.command value :: after) app).trace
      = performedSteps app.trace ++ before ++ [Instr.command value] ∧
    failedSteps (runSteps exec (before ++ Instr.command value :: after) app).trace
      = failedSteps app.trace ++ [Instr.command value] := by
  induction before generalizing app with
  | nil =>
      simp only [List.nil_append, runSteps]
      split
      · rename_i hnone
        exact absurd hnone (hthrow _)
      · simp [performedSteps_append, performedSteps, failedSteps_append, failedSteps]
  | cons step rest ih =>
      have hrest : ∀ c w, Instr.command c ∈ rest → (exec c w).thrown = none :=
        fun c w hmem => hbefore c w (List.mem_cons_of_mem _ hmem)
      cases step with
      | command c =>
          simp only [List.cons_append, runSteps, hbefore c app.sim (List.mem_cons_self _ _),
            List.append_eq]
          obtain ⟨h1, h2⟩ := ih
            { app with
              trace := app.trace ++ [RunEvent.step (Instr.command c)],
              sim := (exec c app.sim).sim } hrest
          rw [h1, h2]
          simp [performedSteps_append, performedSteps, failedSteps_append, failedSteps]
      | wait s =>
          simp only [List.cons_append, runSteps, List.append_eq]
          obtain ⟨h1, h2⟩ := ih
            { app with
              trace := app.trace ++ [RunEvent.step (Instr.wait s),
                RunEvent.timeout (delay s)] } hrest
          rw [h1, h2]
          simp [performedSteps_append, performedSteps, failedSteps_append, failedSteps]

theorem handleRunProgram_trace_idle (p : Platform) (exec : String → Sim → Outcome) (app : App)
    (hidle : app.isExecuting = false) (hne : buildMissionSequence p app.workspace ≠ []) :
    (handleRunProgram p exec app).trace
      = (runSteps exec (buildMissionSequence p app.workspace)
          { app with isExecuting := true,
                     trace := app.trace ++ [RunEvent.codePreview]
                       ++ [RunEvent.setIsExecuting true] }).trace
        ++ [RunEvent.setIsExecuting false] := by
  have hlen : (buildMissionSequence p app.workspace).length ≠ 0 := by
    simpa [List.length_eq_zero] using hne
  simp only [handleRunProgram, hidle, updateCodePreview, Bool.false_eq_true, if_false, hlen]

/-- C11: the steps `handleRunProgram` performs are a prefix of the mission, each
performed once and in mission order; if no step throws, every step is performed and
none is reported as failed; if the step at some position throws (and none before it
does), the steps performed are exactly those up to and including it, it is reported
once, and no later step is performed nor any step retried. -/
theorem run_performs_leading_steps (p : Platform) (exec : String → Sim → Outcome) (app : App)
    (hidle : app.isExecuting = false) :
    (∃ n, performedSteps (handleRunProgram p exec app).trace
      = performedSteps app.trace ++ (buildMissionSequence p app.workspace).take n) ∧
    ((∀ value w, Instr.command value ∈ buildMissionSequence p app.workspace →
        (exec value w).thrown = none) →
      performedSteps (handleRunProgram p exec app).trace
        = performedSteps app.trace ++ buildMissionSequence p app.workspace ∧
      failedSteps (handleRunProgram p exec app).trace = failedSteps app.trace) ∧
    (∀ (before after : List Instr) (value : String),
      buildMissionSequence p app.workspace = before ++ Instr.command value :: after →
      (∀ c w, Instr.command c ∈ before → (exec c w).thrown = none) →
      (∀ w, (exec value w).thrown ≠ none) →
      performedSteps (handleRunProgram p exec app).trace
        = performedSteps app.trace ++ before ++ [Instr.command value] ∧
      failedSteps (handleRunProgram p exec app).trace
        = failedSteps app.trace ++ [Instr.command value]) := by
  by_cases hne : buildMissionSequence p app.workspace = []
  · have hrun : handleRunProgram p exec app = updateCodePreview app := by
      simp [handleRunProgram, hidle, updateCodePreview, hne]
    refine ⟨⟨0, ?_⟩, ?_, ?_⟩
    · simp [hrun, updateCodePreview, performedSteps_append, performedSteps]
    · intro _
      simp [hrun, hne, updateCodePreview, performedSteps_append, performedSteps,
        failedSteps_append, failedSteps]
    · intro before after value hsplit
      rw [hne] at hsplit
      simp at hsplit
  · rw [handleRunProgram_trace_idle p exec app hidle hne]
    refine ⟨?_, ?_, ?_⟩
    · obtain ⟨n, hn⟩ := runSteps_performed_take exec (buildMissionSequence p app.workspace)
        { app with isExecuting := true,
                   trace := app.trace ++ [RunEvent.codePreview]
                     ++ [RunEvent.setIsExecuting true] }
      refine ⟨n, ?_⟩
      rw [performedSteps_append, hn]
      simp [performedSteps_append, performedSteps]
    · intro hnone
      obtain ⟨h1, h2⟩ := runSteps_no_throw exec (buildMissionSequence p app.workspace)
        { app with isExecuting := true,
                   trace := app.trace ++ [RunEvent.codePreview]
                     ++ [RunEvent.setIsExecuting true] } hnone
      rw [performedSteps_append, failedSteps_append, h1, h2]
      simp [performedSteps_append, performedSteps, failedSteps_append, failedSteps]
    · intro before after value hsplit hbefore hthrow
      rw [hsplit]
      obtain ⟨h1, h2⟩ := runSteps_throw_at exec before after value
        { app with isExecuting := true,
                   trace := app.trace ++ [RunEvent.codePreview]
                     ++ [RunEvent.setIsExecuting true] } hbefore hthrow
      rw [performedSteps_append, failedSteps_append, h1, h2]
      simp [performedSteps_append, performedSteps, failedSteps_append, failedSteps]

/-- Witness for C11: in the mission takeoff, land with a command function that
rejects `takeoff`, only takeoff is performed and it is reported once. -/
theorem run_performs_leading_steps_witness :
    performedSteps (handleRunProgram stdPlatform (execFailingOn stdPlatform "takeoff")
        { isExecuting := false, workspace := some exampleWorkspace, sim := unmountedSim,
          trace := [] }).trace = [] ++ [] ++ [Instr.command "takeoff"] ∧
    failedSteps (handleRunProgram stdPlatform (execFailingOn stdPlatform "takeoff")
        { isExecuting := false, workspace := some exampleWorkspace, sim := unmountedSim,
          trace := [] }).trace = [] ++ [Instr.command "takeoff"] :=
  (run_performs_leading_steps stdPlatform (execFailingOn stdPlatform "takeoff")
    { isExecuting := false, workspace := some exampleWorkspace, sim := unmountedSim,
      trace := [] } rfl).2.2 [] [Instr.command "land"] "takeoff" (by decide)
    (by simp) (by simp [execFailingOn])

/-! ## Commands one by one -/

theorem runAction_unsupported (p : Platform) (command action : String) (args : List String)
    (f : Flight) (h : action ∉ executorVerbs) :
    runAction p command action args f = { f with log := f.log ++ [Event.warn command] } := by
  simp only [executorVerbs, List.mem_cons, List.mem_singleton, not_or, List.mem_nil_iff,
    or_false] at h
  unfold runAction
  split <;> simp_all

/-- C12: for a command whose verb is none of takeoff, takeoff_height, land, fly, yaw,
circle, wait, `executeCommand` leaves the simulation state (position, yaw, tilt,
rotor flag) as it was and its promise is not rejected, so the loop goes on with the
remaining instructions; with a drone present the only effect is the warning (and the
socket emission if connected). -/
theorem unsupported_command_is_noop (p : Platform) (rawCommand : String) (w : Sim)
    (h : (splitCommand (trim rawCommand)).1 ∉ executorVerbs) :
    (executeCommand p rawCommand w).simulationState = w.simulationState ∧
    (execStored p rawCommand w).thrown = none ∧
    (∀ (rest : List Instr) (app : App),
      runSteps (execStored p) (Instr.command rawCommand :: rest) app
        = runSteps (execStored p) rest
            { app with
              trace := app.trace ++ [RunEvent.step (Instr.command rawCommand)],
              sim := executeCommand p rawCommand app.sim }) ∧
    (∀ state drone, w.simulationState = some state → state.drone = some drone →
      trim rawCommand ≠ "" →
      (executeCommand p rawCommand w).log
        = if w.socketConnected
          then w.log ++ [Event.warn (trim rawCommand)] ++ [Event.emitted (trim rawCommand)]
          else w.log ++ [Event.warn (trim rawCommand)]) := by
  refine ⟨?_, rfl, fun rest app => rfl, ?_⟩
  · cases hs : w.simulationState with
    | none => simp [executeCommand, hs]
    | some state =>
        cases hd : state.drone with
        | none => simp [executeCommand, hs, hd]
        | some drone =>
            by_cases hc : trim rawCommand = ""
            · simp [executeCommand, hs, hd, hc]
            · simp only [executeCommand, hs, hd, hc, if_false]
              rw [runAction_unsupported p _ _ _ _ h]
              simp [← hd]
  · intro state drone hs hd hne
    unfold executeCommand
    simp only [hs, hd, hne, if_false]
    rw [runAction_unsupported p _ _ _ _ h]

/-- Witness for C12: the command `hover now` on the example simulation. -/
theorem unsupported_command_is_noop_witness :
    (executeCommand stdPlatform "hover now" exampleSim).simulationState
      = exampleSim.simulationState ∧
    (execStored stdPlatform "hover now" exampleSim).thrown = none :=
  ⟨(unsupported_command_is_noop stdPlatform "hover now" exampleSim (by decide)).1,
   (unsupported_command_is_noop stdPlatform "hover now" exampleSim (by decide)).2.1⟩

theorem orElse_fin_zero (m : ℚ) : (JsNum.fin m).orElse (.fin 0) = .fin m := by
  by_cases h : m = 0 <;> simp [JsNum.orElse, JsNum.truthy, h]

theorem tiltDrone_rotation_y (p : Platform) (directionCode : Option String) (f : Flight) :
    (tiltDrone p directionCode f).drone.rotation.y = f.drone.rotation.y := by
  simp [tiltDrone, tiltTo_eq]

theorem tiltDrone_spinActive (p : Platform) (directionCode : Option String) (f : Flight) :
    (tiltDrone p directionCode f).spinActive = f.spinActive := by
  simp [tiltDrone, tiltTo_eq]

theorem runAction_fly_eq (p : Platform) (command d raw : String) (m : ℚ) (f : Flight)
    (hm : p.stringToNumber raw = .fin m) :
    runAction p command "fly" [d, raw] f
      = match axisMap (some d) with
        | some axis => moveDelta p axis (signed (.fin m) (some d)) (tiltDrone p (some d) f)
        | none => tiltDrone p (some d) f := by
  simp [runAction, Platform.argNumber, hm, orElse_fin_zero]

theorem round6_pair_near (c q : ℚ) : |round6 (round6 (c + q) - q) - c| ≤ 1 / 1000000 := by
  have h1 := abs_le.1 (round6_near (c + q))
  have h2 := abs_le.1 (round6_near (round6 (c + q) - q))
  rw [abs_le]
  constructor <;> linarith [h1.1, h1.2, h2.1, h2.2]

theorem round6_there_and_back (c q : ℚ) (k : ℤ) (hc : c = k / 1000000)
    (h : ∀ n : ℤ, q * 1000000 ≠ n + 1 / 2) : round6 (round6 (c + q) - q) = c := by
  subst hc
  rw [round6_add_grid, add_sub_assoc, round6_add_grid, round6_sub_self q h, add_zero]

theorem not_half_neg (v : ℚ) (h : ∀ n : ℤ, v * 1000000 ≠ n + 1 / 2) :
    ∀ n : ℤ, -v * 1000000 ≠ n + 1 / 2 := by
  intro n e
  apply h (-n - 1)
  push_cast
  linarith

theorem tiltMap_fin (d : Option String) :
    ∃ u v, tiltMap d = (JsNum.fin u, JsNum.fin v) ∧ round6 u = u ∧ round6 v = v := by
  have g1 : round6 (-0.18) = -0.18 := round6_of_grid _ (-180000) (by norm_num)
  have g2 : round6 0.18 = 0.18 := round6_of_grid _ 180000 (by norm_num)
  unfold tiltMap
  split
  · exact ⟨_, _, rfl, g1, round6_zero⟩
  · exact ⟨_, _, rfl, g2, round6_zero⟩
  · exact ⟨_, _, rfl, round6_zero, g2⟩
  · exact ⟨_, _, rfl, round6_zero, g1⟩
  · exact ⟨_, _, rfl, round6_zero, round6_zero⟩

theorem tiltDrone_drone (p : Platform) (directionCode : Option String) (f : Flight) (a b : ℚ)
    (hx : f.drone.rotation.x = .fin a) (hz : f.drone.rotation.z = .fin b) :
    (tiltDrone p directionCode f).drone
      = { f.drone with rotation := { f.drone.rotation with x := .fin 0, z := .fin 0 } } := by
  obtain ⟨u, v, huv, -, -⟩ := tiltMap_fin directionCode
  simp [tiltDrone, tiltTo_eq, huv, hx, hz, tweenValue_one, round6_zero]

theorem fly_LR_drone (p : Platform) (command raw : String) (f : Flight)
    (x0 y0 z0 m a b : ℚ)
    (hpos : f.drone.position = { x := .fin x0, y := .fin y0, z := .fin z0 })
    (hx : f.drone.rotation.x = .fin a) (hz : f.drone.rotation.z = .fin b)
    (hm : p.stringToNumber raw = .fin m) :
    (runAction p command "fly" ["L", raw] f).drone
      = { position := { x := .fin (round6 (x0 - m)), y := .fin y0, z := .fin z0 },
          rotation := { f.drone.rotation with x := .fin 0, z := .fin 0 } } ∧
    (runAction p command "fly" ["R", raw] f).drone
      = { position := { x := .fin (round6 (x0 + m)), y := .fin y0, z := .fin z0 },
          rotation := { f.drone.rotation with x := .fin 0, z := .fin 0 } } ∧
    (runAction p command "fly" ["L", raw] f).spinActive = f.spinActive ∧
    (runAction p command "fly" ["R", raw] f).spinActive = f.spinActive := by
  refine ⟨?_, ?_, ?_, ?_⟩
  · rw [runAction_fly_eq p command "L" raw m f hm]
    simp [axisMap, signed, moveDelta_eq, tiltDrone_drone p _ f a b hx hz, hpos, Vector3.get,
      Vector3.set, tweenValue_one, sub_eq_add_neg]
  · rw [runAction_fly_eq p command "R" raw m f hm]
    simp [axisMap, signed, moveDelta_eq, tiltDrone_drone p _ f a b hx hz, hpos, Vector3.get,
      Vector3.set, tweenValue_one]
  · rw [runAction_fly_eq p command "L" raw m f hm]
    simp [axisMap, moveDelta_eq, tiltDrone_spinActive]
  · rw [runAction_fly_eq p command "R" raw m f hm]
    simp [axisMap, moveDelta_eq, tiltDrone_spinActive]

theorem executeCommand_fly_LR (p : Platform) (rawCommand d raw : String) (w : Sim)
    (state : SimulationState) (drone : Drone) (x0 y0 z0 m a b : ℚ)
    (hw : w.simulationState = some state) (hd : state.drone = some drone)
    (ht : trim rawCommand = rawCommand) (hne : rawCommand ≠ "")
    (hs : splitCommand rawCommand = ("fly", [d, raw]))
    (hpos : drone.position = { x := .fin x0, y := .fin y0, z := .fin z0 })
    (hx : drone.rotation.x = .fin a) (hz : drone.rotation.z = .fin b)
    (hm : p.stringToNumber raw = .fin m) :
    (d = "L" → (executeCommand p rawCommand w).simulationState
      = some { state with
          drone := some { position := { x := .fin (round6 (x0 - m)), y := .fin y0, z := .fin z0 },
                          rotation := { drone.rotation with x := .fin 0, z := .fin 0 } } }) ∧
    (d = "R" → (executeCommand p rawCommand w).simulationState
      = some { state with
          drone := some { position := { x := .fin (round6 (x0 + m)), y := .fin y0, z := .fin z0 },
                          rotation := { drone.rotation with x := .fin 0, z := .fin 0 } } }) := by
  obtain ⟨hL, hR, hLs, hRs⟩ := fly_LR_drone p rawCommand raw
    { drone := drone, spinActive := state.propellerSpin.active, log := w.log }
    x0 y0 z0 m a b hpos hx hz hm
  constructor
  · intro hdL
    subst hdL
    simp only [executeCommand, hw, hd, ht, hne, if_false, hs]
    rw [hL, hLs]
  · intro hdR
    subst hdR
    simp only [executeCommand, hw, hd, ht, hne, if_false, hs]
    rw [hR, hRs]

/-- C13 (as the code behaves): the coordinate a `fly` command ends at is the one the
tween writes at completion, the target rounded to six decimals. From the drone at
`(0, 0.8, 0)`, `fly R 0.1234567` ends at `x = 0.123457`, which is not
`0 + 0.1234567`. -/
theorem fly_target_is_rounded :
    stdPlatform.stringToNumber "0.1234567" = .fin 0.1234567 ∧
    (executeCommand stdPlatform "fly R 0.1234567" exampleSim).simulationState
      = some { drone := some
                { position := { x := .fin 0.123457, y := .fin 0.8, z := .fin 0 },
                  rotation := { x := .fin 0, y := .fin 0, z := .fin 0 } },
               propellerSpin := { active := false, speed := .fin 0 } } ∧
    JsNum.fin 0.123457 ≠ JsNum.fin (0 + 0.1234567) := by
  have t1 : trim "fly R 0.1234567" = "fly R 0.1234567" := by decide
  have s1 : splitCommand "fly R 0.1234567" = ("fly", ["R", "0.1234567"]) := by decide
  have n0 : stdPlatform.stringToNumber "0.1234567"
      = .fin ((0 : ℕ) + (1234567 : ℕ) / (10 : ℚ) ^ 7) := rfl
  have n1 : stdPlatform.stringToNumber "0.1234567" = .fin 0.1234567 := by
    rw [n0]
    norm_num
  have hr : round6 (0 + 0.1234567) = 0.123457 := by
    rw [round6_eval _ 123457 (by norm_num) (by norm_num)]
    norm_num
  refine ⟨n1, ?_, by norm_num⟩
  rw [(executeCommand_fly_LR stdPlatform "fly R 0.1234567" "R" "0.1234567" exampleSim _
    exampleDrone 0 0.8 0 0.1234567 0 0 rfl rfl t1 (by decide) s1 rfl rfl rfl n1).2 rfl, hr]
  rfl

/-- C13 (amended): for each of the directions F, B, L, R, U, D and every finite
distance `m`, `fly d m` on a drone at a finite position leaves on the axis of `d` the
target of the table (F: z - m, B: z + m, L: x - m, R: x + m, U: y + m, D: y - m)
rounded to six decimals, as the tween writes it: the target itself when that is a
multiple of 0.000001, and a value within 0.0000005 of it in every case. The other two
coordinates, the yaw and the rotor flag are as they were. -/
theorem fly_moves_along_axis (p : Platform) (command raw : String) (f : Flight)
    (x0 y0 z0 m : ℚ)
    (hpos : f.drone.position = { x := .fin x0, y := .fin y0, z := .fin z0 })
    (hm : p.stringToNumber raw = .fin m) :
    (runAction p command "fly" ["F", raw] f).drone.position
      = { x := .fin x0, y := .fin y0, z := .fin (round6 (z0 - m)) } ∧
    (runAction p command "fly" ["B", raw] f).drone.position
      = { x := .fin x0, y := .fin y0, z := .fin (round6 (z0 + m)) } ∧
    (runAction p command "fly" ["L", raw] f).drone.position
      = { x := .fin (round6 (x0 - m)), y := .fin y0, z := .fin z0 } ∧
    (runAction p command "fly" ["R", raw] f).drone.position
      = { x := .fin (round6 (x0 + m)), y := .fin y0, z := .fin z0 } ∧
    (runAction p command "fly" ["U", raw] f).drone.position
      = { x := .fin x0, y := .fin (round6 (y0 + m)), z := .fin z0 } ∧
    (runAction p command "fly" ["D", raw] f).drone.position
      = { x := .fin x0, y := .fin (round6 (y0 - m)), z := .fin z0 } ∧
    (∀ d ∈ ["F", "B", "L", "R", "U", "D"],
      (runAction p command "fly" [d, raw] f).drone.rotation.y = f.drone.rotation.y ∧
      (runAction p command "fly" [d, raw] f).spinActive = f.spinActive) ∧
    (∀ (q : ℚ) (k : ℤ), q = k / 1000000 → round6 q = q) ∧
    (∀ q : ℚ, |round6 q - q| ≤ 1 / 2000000) := by
  refine ⟨?_, ?_, ?_, ?_, ?_, ?_, ?_, round6_of_grid, round6_near⟩
  · rw [runAction_fly_eq p command "F" raw m f hm]
    simp [axisMap, signed, moveDelta_eq, tiltDrone_position, hpos, Vector3.get, Vector3.set,
      tweenValue_one, sub_eq_add_neg]
  · rw [runAction_fly_eq p command "B" raw m f hm]
    simp [axisMap, signed, moveDelta_eq, tiltDrone_position, hpos, Vector3.get, Vector3.set,
      tweenValue_one]
  · rw [runAction_fly_eq p command "L" raw m f hm]
    simp [axisMap, signed, moveDelta_eq, tiltDrone_position, hpos, Vector3.get, Vector3.set,
      tweenValue_one, sub_eq_add_neg]
  · rw [runAction_fly_eq p command "R" raw m f hm]
    simp [axisMap, signed, moveDelta_eq, tiltDrone_position, hpos, Vector3.get, Vector3.set,
      tweenValue_one]
  · rw [runAction_fly_eq p command "U" raw m f hm]
    simp [axisMap, signed, moveDelta_eq, tiltDrone_position, hpos, Vector3.get, Vector3.set,
      tweenValue_one]
  · rw [runAction_fly_eq p command "D" raw m f hm]
    simp [axisMap, signed, moveDelta_eq, tiltDrone_position, hpos, Vector3.get, Vector3.set,
      tweenValue_one, sub_eq_add_neg]
  · intro d hd
    rw [runAction_fly_eq p command d raw m f hm]
    simp only [List.mem_cons, List.mem_singleton, List.mem_nil_iff, or_false] at hd
    rcases hd with rfl | rfl | rfl | rfl | rfl | rfl <;>
      simp [axisMap, moveDelta_eq, tiltDrone_rotation_y, tiltDrone_spinActive]

/-- Witness for C13: `fly L 5` and `fly U 5` from the initial position. -/
theorem fly_moves_along_axis_witness :
    (runAction stdPlatform "fly L 5" "fly" ["L", "5"] exampleFlight).drone.position
      = { x := .fin (round6 (0 - 5)), y := .fin 0.8, z := .fin 0 } ∧
    (runAction stdPlatform "fly U 5" "fly" ["U", "5"] exampleFlight).drone.position
      = { x := .fin 0, y := .fin (round6 (0.8 + 5)), z := .fin 0 } ∧
    round6 (0 - 5) = 0 - 5 ∧ round6 (0.8 + 5) = 0.8 + 5 :=
  ⟨(fly_moves_along_axis stdPlatform "fly L 5" "5" exampleFlight 0 0.8 0 5 rfl
      (by decide)).2.2.1,
   (fly_moves_along_axis stdPlatform "fly U 5" "5" exampleFlight 0 0.8 0 5 rfl
      (by decide)).2.2.2.2.1,
   (fly_moves_along_axis stdPlatform "fly L 5" "5" exampleFlight 0 0.8 0 5 rfl
      (by decide)).2.2.2.2.2.2.2.1 _ (-5000000) (by norm_num),
   (fly_moves_along_axis stdPlatform "fly U 5" "5" exampleFlight 0 0.8 0 5 rfl
      (by decide)).2.2.2.2.2.2.2.1 _ 5800000 (by norm_num)⟩

theorem runAction_yaw_drone (p : Platform) (command d raw : String) (f : Flight) (yaw0 g : ℚ)
    (hyaw : f.drone.rotation.y = .fin yaw0) (hg : p.stringToNumber raw = .fin g) :
    (runAction p command "yaw" [d, raw] f).drone
      = { f.drone with
          rotation := { f.drone.rotation with
            y := .fin (round6 (if d = "YL" then yaw0 + g * (p.PI / 180)
                               else yaw0 - g * (p.PI / 180))) } } ∧
    (runAction p command "yaw" [d, raw] f).spinActive = f.spinActive := by
  simp only [runAction]
  rw [animateProperty_eq]
  · constructor
    · by_cases hd : d = "YL"
      · simp [Platform.argNumber, hg, orElse_fin_zero, hyaw, hd, tweenValue_one]
      · simp [Platform.argNumber, hg, orElse_fin_zero, hyaw, hd, tweenValue_one]
    · rfl
  · intro t s f
    rfl

/-- C14 (as the code behaves): an opposite pair need not return to the start. From the
drone at `x = 0`, `fly L 0.0000015` ends at `x = -0.000001` (the target `-0.0000015`
rounded to six decimals, halves upwards) and the following `fly R 0.0000015` ends at
`x = 0.000001` (the target `0.0000005` rounded), not at `0`. -/
theorem opposite_pair_leaves_offset :
    stdPlatform.stringToNumber "0.0000015" = .fin 0.0000015 ∧
    (runAction stdPlatform "fly L 0.0000015" "fly" ["L", "0.0000015"] exampleFlight).drone.position
      = { x := .fin (-0.000001), y := .fin 0.8, z := .fin 0 } ∧
    (runAction stdPlatform "fly R 0.0000015" "fly" ["R", "0.0000015"]
        (runAction stdPlatform "fly L 0.0000015" "fly" ["L", "0.0000015"]
          exampleFlight)).drone.position
      = { x := .fin 0.000001, y := .fin 0.8, z := .fin 0 } ∧
    (runAction stdPlatform "fly R 0.0000015" "fly" ["R", "0.0000015"]
        (runAction stdPlatform "fly L 0.0000015" "fly" ["L", "0.0000015"]
          exampleFlight)).drone.position
      ≠ exampleFlight.drone.position := by
  have n0 : stdPlatform.stringToNumber "0.0000015"
      = .fin ((0 : ℕ) + (15 : ℕ) / (10 : ℚ) ^ 7) := rfl
  have n1 : stdPlatform.stringToNumber "0.0000015" = .fin 0.0000015 := by
    rw [n0]
    norm_num
  have r1 : round6 (0 - 0.0000015) = -0.000001 := by
    rw [round6_eval _ (-1) (by norm_num) (by norm_num)]
    norm_num
  have r2 : round6 (-0.000001 + 0.0000015) = 0.000001 := by
    rw [round6_eval _ 1 (by norm_num) (by norm_num)]
    norm_num
  obtain ⟨hL, -, -, -⟩ := fly_LR_drone stdPlatform "fly L 0.0000015" "0.0000015" exampleFlight
    0 0.8 0 0.0000015 0 0 rfl rfl rfl n1
  obtain ⟨-, hR, -, -⟩ := fly_LR_drone stdPlatform "fly R 0.0000015" "0.0000015"
    (runAction stdPlatform "fly L 0.0000015" "fly" ["L", "0.0000015"] exampleFlight)
    (-0.000001) 0.8 0 0.0000015 0 0 (by rw [hL, r1]) (by rw [hL]) (by rw [hL]) n1
  refine ⟨n1, by rw [hL, r1], by rw [hR, r2], ?_⟩
  rw [hR, r2]
  simp [exampleFlight, exampleDrone]
  norm_num

/-- C14 (amended): from a start state with finite position and yaw, `fly L m` followed
by `fly R m` leaves `x` at the value the two tweens write, `x - m` rounded to six
decimals, plus `m`, rounded again, which is within 0.000001 of the original `x`, with
`y`, `z`, the yaw and the rotor flag as before; `yaw YL d` followed by `yaw YR d`
leaves the yaw at the starting yaw plus `d * PI / 180` rounded, minus `d * PI / 180`,
rounded again, within 0.000001 of the starting yaw, with everything else of the drone
and the rotor flag as before. The pair returns exactly to the start when the starting
value is a multiple of 0.000001 and the amount moved (`m`, or `d * PI / 180`) is not
an odd multiple of 0.0000005: then the position is as before (the whole drone when
the tilt was zero at the start), and the yaw pair leaves the whole drone as before. -/
theorem opposite_pairs_cancel (p : Platform) (c1 c2 raw : String) (f : Flight)
    (x0 y0 z0 yaw0 a b v : ℚ)
    (hpos : f.drone.position = { x := .fin x0, y := .fin y0, z := .fin z0 })
    (hyaw : f.drone.rotation.y = .fin yaw0)
    (hx : f.drone.rotation.x = .fin a) (hz : f.drone.rotation.z = .fin b)
    (hv : p.stringToNumber raw = .fin v) :
    (runAction p c2 "fly" ["R", raw] (runAction p c1 "fly" ["L", raw] f)).drone.position
      = { x := .fin (round6 (round6 (x0 - v) + v)), y := .fin y0, z := .fin z0 } ∧
    |round6 (round6 (x0 - v) + v) - x0| ≤ 1 / 1000000 ∧
    (runAction p c2 "fly" ["R", raw] (runAction p c1 "fly" ["L", raw] f)).drone.rotation.y
      = f.drone.rotation.y ∧
    (runAction p c2 "fly" ["R", raw] (runAction p c1 "fly" ["L", raw] f)).spinActive
      = f.spinActive ∧
    (runAction p c2 "yaw" ["YR", raw] (runAction p c1 "yaw" ["YL", raw] f)).drone
      = { f.drone with
          rotation := { f.drone.rotation with
            y := .fin (round6 (round6 (yaw0 + v * (p.PI / 180)) - v * (p.PI / 180))) } } ∧
    |round6 (round6 (yaw0 + v * (p.PI / 180)) - v * (p.PI / 180)) - yaw0| ≤ 1 / 1000000 ∧
    (runAction p c2 "yaw" ["YR", raw] (runAction p c1 "yaw" ["YL", raw] f)).spinActive
      = f.spinActive ∧
    (∀ k : ℤ, x0 = k / 1000000 → (∀ n : ℤ, v * 1000000 ≠ n + 1 / 2) →
      (runAction p c2 "fly" ["R", raw] (runAction p c1 "fly" ["L", raw] f)).drone.position
        = f.drone.position ∧
      (a = 0 → b = 0 →
        (runAction p c2 "fly" ["R", raw] (runAction p c1 "fly" ["L", raw] f)).drone
          = f.drone)) ∧
    (∀ k : ℤ, yaw0 = k / 1000000 → (∀ n : ℤ, v * (p.PI / 180) * 1000000 ≠ n + 1 / 2) →
      (runAction p c2 "yaw" ["YR", raw] (runAction p c1 "yaw" ["YL", raw] f)).drone
        = f.drone) := by
  obtain ⟨hL, -, hLs, -⟩ := fly_LR_drone p c1 raw f x0 y0 z0 v a b hpos hx hz hv
  obtain ⟨-, hR, -, hRs⟩ := fly_LR_drone p c2 raw (runAction p c1 "fly" ["L", raw] f)
    (round6 (x0 - v)) y0 z0 v 0 0 (by rw [hL]) (by rw [hL]) (by rw [hL]) hv
  obtain ⟨hYL, hYLs⟩ := runAction_yaw_drone p c1 "YL" raw f yaw0 v hyaw hv
  obtain ⟨hYR, hYRs⟩ := runAction_yaw_drone p c2 "YR" raw (runAction p c1 "yaw" ["YL", raw] f)
    (round6 (yaw0 + v * (p.PI / 180))) v (by rw [hYL]; simp) hv
  have eneg : ∀ c : ℚ, round6 (round6 (c - v) + v) = round6 (round6 (c + -v) - -v) := by
    intro c
    rw [sub_neg_eq_add, sub_eq_add_neg]
  have hYRd : (runAction p c2 "yaw" ["YR", raw] (runAction p c1 "yaw" ["YL", raw] f)).drone
      = { f.drone with
          rotation := { f.drone.rotation with
            y := .fin (round6 (round6 (yaw0 + v * (p.PI / 180)) - v * (p.PI / 180))) } } := by
    rw [hYR, hYL]
    simp
  refine ⟨by rw [hR], ?_, by rw [hR, hL], by rw [hRs, hLs], hYRd, round6_pair_near _ _,
    by rw [hYRs, hYLs], ?_, ?_⟩
  · rw [eneg]
    exact round6_pair_near _ _
  · intro k hk hhalf
    have hback : round6 (round6 (x0 - v) + v) = x0 := by
      rw [eneg]
      exact round6_there_and_back x0 (-v) k hk (not_half_neg v hhalf)
    constructor
    · rw [hR, hpos, hback]
    · intro ha hb
      rw [hR, hL, hback]
      cases hf : f.drone with
      | mk position rotation =>
          cases rotation with
          | mk rx ry rz =>
              simp [hf] at hpos hx hz
              simp [hpos, hx.trans (by rw [ha]), hz.trans (by rw [hb])]
  · intro k hk hhalf
    rw [hYRd, round6_there_and_back yaw0 _ k hk hhalf]
    cases hf : f.drone with
    | mk position rotation =>
        cases rotation with
        | mk rx ry rz =>
            simp [hf] at hyaw
            simp [hyaw]

/-- Witness for C14: `fly L 5` then `fly R 5`, and `yaw YL 5` then `yaw YR 5`, from the
initial state. -/
theorem opposite_pairs_cancel_witness :
    (runAction stdPlatform "fly R 5" "fly" ["R", "5"]
        (runAction stdPlatform "fly L 5" "fly" ["L", "5"] exampleFlight)).drone
      = exampleFlight.drone ∧
    (runAction stdPlatform "yaw YR 5" "yaw" ["YR", "5"]
        (runAction stdPlatform "yaw YL 5" "yaw" ["YL", "5"] exampleFlight)).drone
      = exampleFlight.drone := by
  have h5 : ∀ n : ℤ, (5 : ℚ) * 1000000 ≠ n + 1 / 2 := by
    intro n e
    have e2 : ((10000000 : ℤ) : ℚ) = ((2 * n + 1 : ℤ) : ℚ) := by
      push_cast
      linarith
    have e3 : (10000000 : ℤ) = 2 * n + 1 := by exact_mod_cast e2
    omega
  have hpi : ∀ n : ℤ, (5 : ℚ) * (stdPlatform.PI / 180) * 1000000 ≠ n + 1 / 2 := by
    intro n e
    have hPI : stdPlatform.PI = 3141592653589793 / 1000000000000000 := rfl
    rw [hPI] at e
    have e2 : ((3141592653589793 : ℤ) : ℚ) = ((18000000000 * (2 * n + 1) : ℤ) : ℚ) := by
      push_cast
      linarith
    have e3 : (3141592653589793 : ℤ) = 18000000000 * (2 * n + 1) := by exact_mod_cast e2
    omega
  exact
    ⟨((opposite_pairs_cancel stdPlatform "fly L 5" "fly R 5" "5" exampleFlight 0 0.8 0 0 0 0 5
        rfl rfl rfl rfl (by decide)).2.2.2.2.2.2.2.1 0 (by norm_num) h5).2 rfl rfl,
     (opposite_pairs_cancel stdPlatform "yaw YL 5" "yaw YR 5" "5" exampleFlight 0 0.8 0 0 0 0 5
        rfl rfl rfl rfl (by decide)).2.2.2.2.2.2.2.2 0 (by norm_num) hpi⟩

theorem moveDelta_y_to (p : Platform) (f : Flight) (y0 t : ℚ)
    (hy : f.drone.position.y = .fin y0) :
    (moveDelta p .y (JsNum.fin t - f.drone.position.y) f).drone
      = { f.drone with position := { f.drone.position with y := .fin (round6 t) } } ∧
    (moveDelta p .y (JsNum.fin t - f.drone.position.y) f).spinActive = f.spinActive := by
  simp [moveDelta_eq, hy, Vector3.get, Vector3.set, tweenValue_one]

theorem round6_hover : round6 2.2 = 2.2 := round6_of_grid _ 2200000 (by norm_num)

theorem round6_ground : round6 0.2 = 0.2 := round6_of_grid _ 200000 (by norm_num)

/-- C15: from a start state with a drone at a finite height, after `takeoff` the rotor
flag is true, `y` is 2.2 whatever it was, and `x`, `z`, the yaw and the tilt are as
before. -/
theorem takeoff_reaches_hover_height (p : Platform) (command : String) (args : List String)
    (f : Flight) (y0 : ℚ) (hy : f.drone.position.y = .fin y0) :
    (runAction p command "takeoff" args f).spinActive = true ∧
    (runAction p command "takeoff" args f).drone.position
      = { f.drone.position with y := .fin 2.2 } ∧
    (runAction p command "takeoff" args f).drone.rotation = f.drone.rotation := by
  obtain ⟨h1, h2⟩ := moveDelta_y_to p (togglePropellerSpin true f) y0 2.2 hy
  rw [round6_hover] at h1
  simp only [runAction]
  rw [h1]
  exact ⟨h2, rfl, rfl⟩

/-- Witness for C15: `takeoff` from the initial height 0.8. -/
theorem takeoff_reaches_hover_height_witness :
    (runAction stdPlatform "takeoff" "takeoff" [] exampleFlight).spinActive = true ∧
    (runAction stdPlatform "takeoff" "takeoff" [] exampleFlight).drone.position
      = { exampleFlight.drone.position with y := .fin 2.2 } ∧
    (runAction stdPlatform "takeoff" "takeoff" [] exampleFlight).drone.rotation
      = exampleFlight.drone.rotation :=
  takeoff_reaches_hover_height stdPlatform "takeoff" [] exampleFlight 0.8 rfl

/-- C16 (as the code behaves): the height `takeoff_height` ends at is the one the
tween writes at completion, the target rounded to six decimals. From the initial
height 0.8, `takeoff_height 1.2345678` ends at `y = 1.234568`, which is not
`max(0.2, 1.2345678)`. -/
theorem takeoff_height_is_rounded :
    stdPlatform.stringToNumber "1.2345678" = .fin 1.2345678 ∧
    (runAction stdPlatform "takeoff_height 1.2345678" "takeoff_height" ["1.2345678"]
        exampleFlight).drone.position
      = { x := .fin 0, y := .fin 1.234568, z := .fin 0 } ∧
    JsNum.fin 1.234568 ≠ JsNum.fin (Max.max 0.2 1.2345678) := by
  have n0 : stdPlatform.stringToNumber "1.2345678"
      = .fin ((1 : ℕ) + (2345678 : ℕ) / (10 : ℚ) ^ 7) := rfl
  have n1 : stdPlatform.stringToNumber "1.2345678" = .fin 1.2345678 := by
    rw [n0]
    norm_num
  have hmax : Max.max (0.2 : ℚ) 1.2345678 = 1.2345678 := max_eq_right (by norm_num)
  have hr : round6 1.2345678 = 1.234568 := by
    rw [round6_eval _ 1234568 (by norm_num) (by norm_num)]
    norm_num
  obtain ⟨h1, -⟩ := moveDelta_y_to stdPlatform (togglePropellerSpin true exampleFlight)
    0.8 1.2345678 rfl
  refine ⟨n1, ?_, ?_⟩
  · simp only [runAction, List.head?, Platform.argNumber, n1, JsNum.isFinite_fin, if_true,
      JsNum.max_fin_fin, hmax]
    rw [h1, hr]
    rfl
  · rw [hmax]
    norm_num

/-- C16 (amended): from a start state with a drone at a finite height, after
`takeoff_height h` the rotor flag is true and `y` is the target the tween writes:
`max(0.2, h)` rounded to six decimals when `h` converts to a finite number (the
maximum itself when that is a multiple of 0.000001, and within 0.0000005 of it in
every case), and 2.2 when `h` does not convert or is missing; `x`, `z`, the yaw and
the tilt are as before. -/
theorem takeoff_height_reaches_target (p : Platform) (command : String) (args : List String)
    (f : Flight) (y0 : ℚ) (hy : f.drone.position.y = .fin y0) :
    (runAction p command "takeoff_height" args f).spinActive = true ∧
    (∀ h : ℚ, p.argNumber args.head? = .fin h →
      (runAction p command "takeoff_height" args f).drone.position
        = { f.drone.position with y := .fin (round6 (Max.max 0.2 h)) }) ∧
    ((p.argNumber args.head?).isFinite = false →
      (runAction p command "takeoff_height" args f).drone.position
        = { f.drone.position with y := .fin 2.2 }) ∧
    (args = [] →
      (runAction p command "takeoff_height" args f).drone.position
        = { f.drone.position with y := .fin 2.2 }) ∧
    (runAction p command "takeoff_height" args f).drone.rotation = f.drone.rotation ∧
    (∀ (q : ℚ) (k : ℤ), q = k / 1000000 → round6 q = q) ∧
    (∀ q : ℚ, |round6 q - q| ≤ 1 / 2000000) := by
  have key : ∀ t : ℚ,
      (if (p.argNumber args.head?).isFinite then JsNum.max (.fin 0.2) (p.argNumber args.head?)
        else .fin 2.2) = .fin t →
      (runAction p command "takeoff_height" args f).spinActive = true ∧
      (runAction p command "takeoff_height" args f).drone.position
        = { f.drone.position with y := .fin (round6 t) } ∧
      (runAction p command "takeoff_height" args f).drone.rotation = f.drone.rotation := by
    intro t ht
    obtain ⟨h1, h2⟩ := moveDelta_y_to p (togglePropellerSpin true f) y0 t hy
    simp only [runAction, ht]
    rw [h1]
    exact ⟨h2, rfl, rfl⟩
  have hnot : (p.argNumber args.head?).isFinite = false →
      (runAction p command "takeoff_height" args f).spinActive = true ∧
      (runAction p command "takeoff_height" args f).drone.position
        = { f.drone.position with y := .fin 2.2 } ∧
      (runAction p command "takeoff_height" args f).drone.rotation = f.drone.rotation := by
    intro hnf
    have hk := key 2.2 (by simp [hnf])
    rw [round6_hover] at hk
    exact hk
  have hfin : ∀ h : ℚ, p.argNumber args.head? = .fin h →
      (runAction p command "takeoff_height" args f).spinActive = true ∧
      (runAction p command "takeoff_height" args f).drone.position
        = { f.drone.position with y := .fin (round6 (Max.max 0.2 h)) } ∧
      (runAction p command "takeoff_height" args f).drone.rotation = f.drone.rotation :=
    fun h hh => key (Max.max 0.2 h) (by simp [hh])
  have hcases : (p.argNumber args.head?).isFinite = false ∨ ∃ h, p.argNumber args.head? = .fin h := by
    cases hn : p.argNumber args.head? <;> simp [JsNum.isFinite]
  refine ⟨?_, fun h hh => (hfin h hh).2.1, fun hnf => (hnot hnf).2.1, ?_, ?_, round6_of_grid,
    round6_near⟩
  · rcases hcases with hnf | ⟨h, hh⟩
    · exact (hnot hnf).1
    · exact (hfin h hh).1
  · intro hargs
    exact (hnot (by simp [hargs, Platform.argNumber, JsNum.isFinite])).2.1
  · rcases hcases with hnf | ⟨h, hh⟩
    · exact (hnot hnf).2.2
    · exact (hfin h hh).2.2

/-- Witness for C16: `takeoff_height 3`, and `takeoff_height` with no argument, from
the initial height 0.8. -/
theorem takeoff_height_reaches_target_witness :
    (runAction stdPlatform "takeoff_height 3" "takeoff_height" ["3"] exampleFlight).drone.position
      = { exampleFlight.drone.position with y := .fin (round6 (Max.max 0.2 3)) } ∧
    (runAction stdPlatform "takeoff_height" "takeoff_height" [] exampleFlight).drone.position
      = { exampleFlight.drone.position with y := .fin 2.2 } ∧
    round6 (Max.max 0.2 3) = Max.max 0.2 3 :=
  ⟨(takeoff_height_reaches_target stdPlatform "takeoff_height 3" ["3"] exampleFlight 0.8
      rfl).2.1 3 (by decide),
   (takeoff_height_reaches_target stdPlatform "takeoff_height" [] exampleFlight 0.8
      rfl).2.2.2.1 rfl,
   (takeoff_height_reaches_target stdPlatform "takeoff_height 3" ["3"] exampleFlight 0.8
      rfl).2.2.2.2.2.1 _ 3000000 (by norm_num)⟩

/-- C17: from a start state with a drone at a finite height, `land` first descends to
`y = 0.2` with the rotor flag as it was, and only then clears the flag; after it
`y` is 0.2, the flag is false, and `x`, `z`, the yaw and the tilt are as before. -/
theorem land_descends_then_stops_rotor (p : Platform) (command : String) (args : List String)
    (f : Flight) (y0 : ℚ) (hy : f.drone.position.y = .fin y0) :
    runAction p command "land" args f
      = togglePropellerSpin false (moveDelta p .y (JsNum.fin 0.2 - f.drone.position.y) f) ∧
    (moveDelta p .y (JsNum.fin 0.2 - f.drone.position.y) f).drone.position
      = { f.drone.position with y := .fin 0.2 } ∧
    (moveDelta p .y (JsNum.fin 0.2 - f.drone.position.y) f).spinActive = f.spinActive ∧
    (runAction p command "land" args f).spinActive = false ∧
    (runAction p command "land" args f).drone.position
      = { f.drone.position with y := .fin 0.2 } ∧
    (runAction p command "land" args f).drone.rotation = f.drone.rotation := by
  obtain ⟨h1, h2⟩ := moveDelta_y_to p f y0 0.2 hy
  rw [round6_ground] at h1
  have hrun : runAction p command "land" args f
      = togglePropellerSpin false (moveDelta p .y (JsNum.fin 0.2 - f.drone.position.y) f) := by
    simp only [runAction]
  refine ⟨hrun, by rw [h1], h2, by rw [hrun]; rfl, ?_, ?_⟩
  · rw [hrun]
    simp only [togglePropellerSpin]
    rw [h1]
  · rw [hrun]
    simp only [togglePropellerSpin]
    rw [h1]

/-- Witness for C17: `land` from the initial height 0.8 with the rotors running. -/
theorem land_descends_then_stops_rotor_witness :
    (runAction stdPlatform "land" "land" [] { exampleFlight with spinActive := true }).spinActive
      = false ∧
    (runAction stdPlatform "land" "land" [] { exampleFlight with spinActive := true }).drone.position
      = { exampleFlight.drone.position with y := .fin 0.2 } :=
  ⟨(land_descends_then_stops_rotor stdPlatform "land" []
      { exampleFlight with spinActive := true } 0.8 rfl).2.2.2.1,
   (land_descends_then_stops_rotor stdPlatform "land" []
      { exampleFlight with spinActive := true } 0.8 rfl).2.2.2.2.1⟩

/-- C18 (as the code behaves): the yaw a `yaw` command ends at is the one the tween
writes at completion, the target rounded to six decimals. From yaw 0, `yaw YL 90`
ends at `1.570796` and `yaw YR 90` at `-1.570796`, not at plus and minus
`90 * PI / 180 = 1.5707963267948965`. -/
theorem yaw_target_is_rounded :
    (runAction stdPlatform "yaw YL 90" "yaw" ["YL", "90"] exampleFlight).drone.rotation.y
      = .fin 1.570796 ∧
    (runAction stdPlatform "yaw YR 90" "yaw" ["YR", "90"] exampleFlight).drone.rotation.y
      = .fin (-1.570796) ∧
    (0 + 90 * stdPlatform.PI / 180 : ℚ) = 1.5707963267948965 ∧
    JsNum.fin 1.570796 ≠ JsNum.fin (0 + 90 * stdPlatform.PI / 180) ∧
    JsNum.fin (-1.570796) ≠ JsNum.fin (0 - 90 * stdPlatform.PI / 180) := by
  have hPI : stdPlatform.PI = 3141592653589793 / 1000000000000000 := rfl
  have n1 : stdPlatform.stringToNumber "90" = .fin 90 := by decide
  obtain ⟨hL, -⟩ := runAction_yaw_drone stdPlatform "yaw YL 90" "YL" "90" exampleFlight 0 90
    rfl n1
  obtain ⟨hR, -⟩ := runAction_yaw_drone stdPlatform "yaw YR 90" "YR" "90" exampleFlight 0 90
    rfl n1
  have r1 : round6 (90 * (stdPlatform.PI / 180)) = 1.570796 := by
    rw [hPI, round6_eval _ 1570796 (by norm_num) (by norm_num)]
    norm_num
  have r2 : round6 (-(90 * (stdPlatform.PI / 180))) = -1.570796 := by
    rw [hPI, round6_eval _ (-1570796) (by norm_num) (by norm_num)]
    norm_num
  refine ⟨?_, ?_, ?_, ?_, ?_⟩
  · rw [hL]
    simp [r1]
  · rw [hR]
    simp [r2]
  · rw [hPI]
    norm_num
  · rw [hPI]
    norm_num
  · rw [hPI]
    norm_num

/-- C18 (amended): for every finite angle `g` in degrees and a finite starting yaw,
after `yaw YL g` the yaw is the starting yaw plus `g * PI / 180`, rounded to six
decimals as the tween writes it, and after `yaw YR g` it is the starting yaw minus
`g * PI / 180`, rounded likewise: the target itself when that is a multiple of
0.000001, and within 0.0000005 of it in every case. The position, the tilt and the
rotor flag are as before. -/
theorem yaw_turns_by_degrees (p : Platform) (command raw : String) (f : Flight) (yaw0 g : ℚ)
    (hyaw : f.drone.rotation.y = .fin yaw0) (hg : p.stringToNumber raw = .fin g) :
    (runAction p command "yaw" ["YL", raw] f).drone
      = { f.drone with
          rotation := { f.drone.rotation with
            y := .fin (round6 (yaw0 + g * p.PI / 180)) } } ∧
    (runAction p command "yaw" ["YR", raw] f).drone
      = { f.drone with
          rotation := { f.drone.rotation with
            y := .fin (round6 (yaw0 - g * p.PI / 180)) } } ∧
    (runAction p command "yaw" ["YL", raw] f).spinActive = f.spinActive ∧
    (runAction p command "yaw" ["YR", raw] f).spinActive = f.spinActive ∧
    (∀ (q : ℚ) (k : ℤ), q = k / 1000000 → round6 q = q) ∧
    (∀ q : ℚ, |round6 q - q| ≤ 1 / 2000000) := by
  obtain ⟨hL, hLs⟩ := runAction_yaw_drone p command "YL" raw f yaw0 g hyaw hg
  obtain ⟨hR, hRs⟩ := runAction_yaw_drone p command "YR" raw f yaw0 g hyaw hg
  have e1 : yaw0 + g * (p.PI / 180) = yaw0 + g * p.PI / 180 := by ring
  have e2 : yaw0 - g * (p.PI / 180) = yaw0 - g * p.PI / 180 := by ring
  refine ⟨?_, ?_, hLs, hRs, round6_of_grid, round6_near⟩
  · rw [hL]
    simp [e1]
  · rw [hR]
    simp [e2]

/-- Witness for C18: `yaw YL 90` and `yaw YR 90` from yaw 0. -/
theorem yaw_turns_by_degrees_witness :
    (runAction stdPlatform "yaw YL 90" "yaw" ["YL", "90"] exampleFlight).drone.rotation.y
      = .fin (round6 (0 + 90 * stdPlatform.PI / 180)) ∧
    (runAction stdPlatform "yaw YR 90" "yaw" ["YR", "90"] exampleFlight).drone.rotation.y
      = .fin (round6 (0 - 90 * stdPlatform.PI / 180)) ∧
    |round6 (0 + 90 * stdPlatform.PI / 180) - (0 + 90 * stdPlatform.PI / 180)|
      ≤ 1 / 2000000 :=
  ⟨by rw [(yaw_turns_by_degrees stdPlatform "yaw YL 90" "90" exampleFlight 0 90 rfl
      (by decide)).1],
   by rw [(yaw_turns_by_degrees stdPlatform "yaw YR 90" "90" exampleFlight 0 90 rfl
      (by decide)).2.1],
   (yaw_turns_by_degrees stdPlatform "yaw YL 90" "90" exampleFlight 0 90 rfl
      (by decide)).2.2.2.2.2 _⟩

theorem tiltMap_other (d : Option String) (hF : d ≠ some "F") (hB : d ≠ some "B")
    (hL : d ≠ some "L") (hR : d ≠ some "R") : tiltMap d = (.fin 0, .fin 0) := by
  unfold tiltMap
  split <;> simp_all

/-- C19: the tilt target is chosen by the direction: F gives (tiltX, tiltZ) =
(-0.18, 0), B gives (0.18, 0), L gives (0, 0.18), R gives (0, -0.18), and U, D, a
missing direction and every other direction give (0, 0); the first tween of
`tiltDrone` brings a finite tilt to that target, and after `tiltDrone` completes
tiltX and tiltZ are both 0 for every direction, with the position, the yaw and the
rotor flag as before. -/
theorem tilt_targets_and_return (p : Platform) (d : Option String) (f : Flight) (a b : ℚ)
    (hx : f.drone.rotation.x = .fin a) (hz : f.drone.rotation.z = .fin b) :
    tiltMap (some "F") = (.fin (-0.18), .fin 0) ∧
    tiltMap (some "B") = (.fin 0.18, .fin 0) ∧
    tiltMap (some "L") = (.fin 0, .fin 0.18) ∧
    tiltMap (some "R") = (.fin 0, .fin (-0.18)) ∧
    tiltMap (some "U") = (.fin 0, .fin 0) ∧
    tiltMap (some "D") = (.fin 0, .fin 0) ∧
    (d ≠ some "F" → d ≠ some "B" → d ≠ some "L" → d ≠ some "R" →
      tiltMap d = (.fin 0, .fin 0)) ∧
    (tiltTo p (tiltMap d).1 (tiltMap d).2 (.fin 0.28) f).drone.rotation
      = { f.drone.rotation with x := (tiltMap d).1, z := (tiltMap d).2 } ∧
    tiltDrone p d f
      = tiltTo p (.fin 0) (.fin 0) (.fin 0.4) (tiltTo p (tiltMap d).1 (tiltMap d).2 (.fin 0.28) f) ∧
    (tiltDrone p d f).drone
      = { f.drone with rotation := { f.drone.rotation with x := .fin 0, z := .fin 0 } } ∧
    (tiltDrone p d f).spinActive = f.spinActive := by
  obtain ⟨u, v, huv, hu, hv⟩ := tiltMap_fin d
  refine ⟨rfl, rfl, rfl, rfl, rfl, rfl, tiltMap_other d, ?_, rfl, tiltDrone_drone p d f a b hx hz,
    tiltDrone_spinActive p d f⟩
  simp [tiltTo_eq, huv, hx, hz, tweenValue_one, hu, hv]

/-- Witness for C19: the tilt of `fly F` from the level drone. -/
theorem tilt_targets_and_return_witness :
    (tiltTo stdPlatform (tiltMap (some "F")).1 (tiltMap (some "F")).2 (.fin 0.28)
        exampleFlight).drone.rotation
      = { exampleFlight.drone.rotation with
          x := (tiltMap (some "F")).1, z := (tiltMap (some "F")).2 } ∧
    (tiltDrone stdPlatform (some "F") exampleFlight).drone
      = { exampleFlight.drone with
          rotation := { exampleFlight.drone.rotation with x := .fin 0, z := .fin 0 } } :=
  ⟨(tilt_targets_and_return stdPlatform (some "F") exampleFlight 0 0 rfl rfl).2.2.2.2.2.2.2.1,
   (tilt_targets_and_return stdPlatform (some "F") exampleFlight 0 0 rfl rfl).2.2.2.2.2.2.2.2.2.1⟩

/-- C20: with the centre at the start position offset on `x` by `+r` for CR and `-r`
for CL, the callback of the circle tween at angle `theta` writes
`(x, z) = centre + r * (cos theta, sin theta)` for CR and
`centre + r * (-cos theta, sin theta)` for CL, leaves `y` as it is and sets the yaw to
`startYaw - theta` for CR and `startYaw + theta` for CL; the written point is at
distance `|r|` from the centre in the xz-plane (squared distance `r ^ 2`) whenever
`cos ^ 2 + sin ^ 2 = 1` at `theta`; and the circle command runs this callback, with
that centre, at the angles of the tween: `2 * PI * t` at eased progress `t`, in the
six decimals the tween writes. -/
theorem circle_parametrisation (p : Platform) (x0 y0 z0 yaw0 r theta : ℚ) (drone : Drone)
    (htrig : p.cos theta ^ 2 + p.sin theta ^ 2 = 1) :
    circleOnUpdate p { x := .fin (x0 + r), y := .fin y0, z := .fin z0 } (.fin r) true
        (.fin yaw0) (.fin theta) drone
      = { position := { x := .fin (x0 + r + r * p.cos theta), y := drone.position.y,
                        z := .fin (z0 + r * p.sin theta) },
          rotation := { drone.rotation with y := .fin (yaw0 - theta) } } ∧
    circleOnUpdate p { x := .fin (x0 - r), y := .fin y0, z := .fin z0 } (.fin r) false
        (.fin yaw0) (.fin theta) drone
      = { position := { x := .fin (x0 - r + r * -p.cos theta), y := drone.position.y,
                        z := .fin (z0 + r * p.sin theta) },
          rotation := { drone.rotation with y := .fin (yaw0 + theta) } } ∧
    (x0 + r + r * p.cos theta - (x0 + r)) ^ 2 + (z0 + r * p.sin theta - z0) ^ 2 = r ^ 2 ∧
    (x0 - r + r * -p.cos theta - (x0 - r)) ^ 2 + (z0 + r * p.sin theta - z0) ^ 2 = r ^ 2 ∧
    (∀ (command raw : String) (f : Flight),
      f.drone.position = { x := .fin x0, y := .fin y0, z := .fin z0 } →
      f.drone.rotation.y = .fin yaw0 → p.stringToNumber raw = .fin r → r ≠ 0 →
      runAction p command "circle" ["CR", raw] f
        = animateProperty p (circleDuration (.fin r))
            (fun t g =>
              let centre : Vector3 := { x := .fin (x0 + r), y := .fin y0, z := .fin z0 }
              let theta : JsNum := .fin (round6 (2 * p.PI * t))
              { g with drone := circleOnUpdate p centre (.fin r) true (.fin yaw0) theta g.drone })
            f ∧
      runAction p command "circle" ["CL", raw] f
        = animateProperty p (circleDuration (.fin r))
            (fun t g =>
              let centre : Vector3 := { x := .fin (x0 - r), y := .fin y0, z := .fin z0 }
              let theta : JsNum := .fin (round6 (2 * p.PI * t))
              { g with drone := circleOnUpdate p centre (.fin r) false (.fin yaw0) theta g.drone })
            f) := by
  refine ⟨?_, ?_, ?_, ?_, ?_⟩
  · simp [circleOnUpdate, Platform.cosN, Platform.sinN]
    exact ⟨⟨by ring, by ring⟩, by ring⟩
  · simp [circleOnUpdate, Platform.cosN, Platform.sinN]
    exact ⟨by ring, by ring⟩
  · have : (x0 + r + r * p.cos theta - (x0 + r)) ^ 2 + (z0 + r * p.sin theta - z0) ^ 2
        = r ^ 2 * (p.cos theta ^ 2 + p.sin theta ^ 2) := by ring
    rw [this, htrig, mul_one]
  · have : (x0 - r + r * -p.cos theta - (x0 - r)) ^ 2 + (z0 + r * p.sin theta - z0) ^ 2
        = r ^ 2 * (p.cos theta ^ 2 + p.sin theta ^ 2) := by ring
    rw [this, htrig, mul_one]
  · intro command raw f hpos hyaw hr hr0
    have hrad : (JsNum.fin r).orElse (.fin 1.5) = .fin r := by
      simp [JsNum.orElse, JsNum.truthy, hr0]
    have htw : ∀ t : ℚ,
        tweenValue (.fin 0) (.fin (2 * p.PI)) t = .fin (round6 (2 * p.PI * t)) := by
      intro t
      simp [tweenValue]
    constructor
    · simp [runAction, Platform.argNumber, hr, hrad, hpos, hyaw, htw]
    · simp [runAction, Platform.argNumber, hr, hrad, hpos, hyaw, htw]
      congr 1
      funext t g
      congr 2
      ring_nf

/-- Witness for C20: the callback of a circle of radius 1 about the centre (1, 0.8, 0)
at angle 3, on the example platform. -/
theorem circle_parametrisation_witness :
    circleOnUpdate stdPlatform { x := .fin (0 + 1), y := .fin 0.8, z := .fin 0 } (.fin 1) true
        (.fin 0) (.fin 3) exampleDrone
      = { position := { x := .fin (0 + 1 + 1 * stdPlatform.cos 3), y := exampleDrone.position.y,
                        z := .fin (0 + 1 * stdPlatform.sin 3) },
          rotation := { exampleDrone.rotation with y := .fin (0 - 3) } } ∧
    (0 + 1 + 1 * stdPlatform.cos 3 - (0 + 1)) ^ 2 + (0 + 1 * stdPlatform.sin 3 - 0) ^ 2
      = (1 : ℚ) ^ 2 :=
  ⟨(circle_parametrisation stdPlatform 0 0.8 0 0 1 3 exampleDrone
      (by norm_num [stdPlatform])).1,
   (circle_parametrisation stdPlatform 0 0.8 0 0 1 3 exampleDrone
      (by norm_num [stdPlatform])).2.2.1⟩

/-! ## The render tick -/

theorem animatePropellerSpin_fin (state : SimulationState) (drone : Drone) (count : Nat)
    (speed : ℚ) (hd : state.drone = some drone) (hc : count ≠ 0)
    (hs : state.propellerSpin.speed = .fin speed) :
    animatePropellerSpin (some state) count
      = some { state with
          propellerSpin := { state.propellerSpin with
            speed := .fin (spinStep state.propellerSpin.active speed) } } := by
  cases ha : state.propellerSpin.active <;>
    simp [animatePropellerSpin, hd, hc, hs, ha, spinStep]

theorem spinStep_sub_target (active : Bool) (speed : ℚ) :
    spinStep active speed - (if active then 0.32 else 0)
      = 0.92 * (speed - (if active then 0.32 else 0)) := by
  unfold spinStep
  ring

theorem spinStep_iterate (active : Bool) (n : Nat) (speed : ℚ) :
    (spinStep active)^[n] speed - (if active then 0.32 else 0)
      = 0.92 ^ n * (speed - (if active then 0.32 else 0)) := by
  induction n generalizing speed with
  | zero => simp
  | succ n ih =>
      rw [Function.iterate_succ_apply, ih, spinStep_sub_target]
      ring

theorem spinStep_between (active : Bool) (speed : ℚ) :
    (speed ≤ (if active then 0.32 else 0) →
      speed ≤ spinStep active speed ∧ spinStep active speed ≤ (if active then 0.32 else 0)) ∧
    ((if active then 0.32 else 0) ≤ speed →
      (if active then 0.32 else 0) ≤ spinStep active speed ∧ spinStep active speed ≤ speed) := by
  unfold spinStep
  constructor
  · intro h
    constructor <;> nlinarith
  · intro h
    constructor <;> nlinarith

theorem spinStep_bounded (active : Bool) (speed : ℚ) (h0 : 0 ≤ speed) (h1 : speed ≤ 0.32) :
    0 ≤ spinStep active speed ∧ spinStep active speed ≤ 0.32 := by
  unfold spinStep
  cases active
  · simp only [Bool.false_eq_true, if_false]
    constructor <;> nlinarith
  · simp only [if_true]
    constructor <;> nlinarith

theorem foldl_spinStep_bounded (flags : List Bool) (speed : ℚ) (h0 : 0 ≤ speed)
    (h1 : speed ≤ 0.32) :
    0 ≤ flags.foldl (fun s a => spinStep a s) speed ∧
      flags.foldl (fun s a => spinStep a s) speed ≤ 0.32 := by
  induction flags generalizing speed with
  | nil => exact ⟨h0, h1⟩
  | cons a flags ih =>
      obtain ⟨h2, h3⟩ := spinStep_bounded a speed h0 h1
      exact ih (spinStep a speed) h2 h3

theorem foldl_toggleThenTick (count : Nat) (hc : count ≠ 0) (flags : List Bool)
    (state : SimulationState) (drone : Drone) (speed : ℚ)
    (hd : state.drone = some drone) (hs : state.propellerSpin.speed = .fin speed) :
    ∃ final : SimulationState,
      flags.foldl (toggleThenTick count) (some state) = some final ∧
      final.drone = some drone ∧
      final.propellerSpin.speed = .fin (flags.foldl (fun s a => spinStep a s) speed) := by
  induction flags generalizing state speed with
  | nil => exact ⟨state, rfl, hd, hs⟩
  | cons a flags ih =>
      have hstep : toggleThenTick count (some state) a
          = some { state with
              propellerSpin := { active := a, speed := .fin (spinStep a speed) } } := by
        unfold toggleThenTick
        rw [Option.map_some']
        exact animatePropellerSpin_fin
          { state with propellerSpin := { state.propellerSpin with active := a } }
          drone count speed hd hc hs
      simp only [List.foldl_cons]
      rw [hstep]
      exact ih _ (spinStep a speed) hd rfl

/-- C23 (as the code behaves): the speed is not replaced on every render tick. With
the fallback drone, which has no propeller objects, the rotor flag active and the
speed 0, a tick leaves the speed at 0 and does not write 0 + (0.32 - 0) * 0.08. -/
theorem tick_without_propellers_keeps_speed :
    animatePropellerSpin
        (some { drone := some exampleDrone, propellerSpin := { active := true, speed := .fin 0 } })
        0
      = some { drone := some exampleDrone,
               propellerSpin := { active := true, speed := .fin 0 } } ∧
    spinStep true 0 ≠ 0 := by
  refine ⟨rfl, ?_⟩
  unfold spinStep
  norm_num

/-- C23 (amended): on every render tick with a drone loaded and at least one
propeller found, a finite rotor speed is replaced by `speed + (target - speed) * 0.08`
with target 0.32 for an active rotor flag and 0 otherwise, and on any other tick the
state is left as it is; hence after `n` updates with a fixed target the distance to
the target is `0.92 ^ n` times the initial distance, an update never overshoots the
target, and from a speed in `[0, 0.32]` (in particular from 0) the speed stays in
`[0, 0.32]` under any sequence of flag changes and ticks. -/
theorem rotor_speed_eases (state : SimulationState) (drone : Drone) (count : Nat) (speed : ℚ)
    (hd : state.drone = some drone) (hc : count ≠ 0)
    (hs : state.propellerSpin.speed = .fin speed) :
    animatePropellerSpin (some state) count
      = some { state with
          propellerSpin := { state.propellerSpin with
            speed := .fin (speed
              + ((if state.propellerSpin.active then 0.32 else 0) - speed) * 0.08) } } ∧
    animatePropellerSpin (some state) 0 = some state ∧
    animatePropellerSpin (some { state with drone := none }) count
      = some { state with drone := none } ∧
    animatePropellerSpin none count = none ∧
    (∀ (active : Bool) (n : Nat) (s : ℚ),
      (spinStep active)^[n] s - (if active then 0.32 else 0)
        = 0.92 ^ n * (s - (if active then 0.32 else 0))) ∧
    (∀ (active : Bool) (s : ℚ),
      (s ≤ (if active then 0.32 else 0) →
        s ≤ spinStep active s ∧ spinStep active s ≤ (if active then 0.32 else 0)) ∧
      ((if active then 0.32 else 0) ≤ s →
        (if active then 0.32 else 0) ≤ spinStep active s ∧ spinStep active s ≤ s)) ∧
    (∀ flags : List Bool, 0 ≤ speed → speed ≤ 0.32 →
      ∃ final : SimulationState,
        flags.foldl (toggleThenTick count) (some state) = some final ∧
        ∃ v : ℚ, final.propellerSpin.speed = .fin v ∧ 0 ≤ v ∧ v ≤ 0.32) := by
  refine ⟨?_, ?_, ?_, rfl, fun active n s => spinStep_iterate active n s,
    fun active s => spinStep_between active s, ?_⟩
  · rw [animatePropellerSpin_fin state drone count speed hd hc hs]
    rfl
  · simp [animatePropellerSpin, hd]
  · simp [animatePropellerSpin]
  · intro flags h0 h1
    obtain ⟨final, hf, -, hv⟩ := foldl_toggleThenTick count hc flags state drone speed hd hs
    obtain ⟨hb0, hb1⟩ := foldl_spinStep_bounded flags speed h0 h1
    exact ⟨final, hf, _, hv, hb0, hb1⟩

/-- Witness for C23: one tick of the example drone with four propellers, the rotor
flag active, from speed 0. -/
theorem rotor_speed_eases_witness :
    animatePropellerSpin
        (some { drone := some exampleDrone, propellerSpin := { active := true, speed := .fin 0 } })
        4
      = some { drone := some exampleDrone,
               propellerSpin := { active := true,
                                  speed := .fin (0 + ((if true = true then 0.32 else 0) - 0) * 0.08) } } :=
  (rotor_speed_eases
    { drone := some exampleDrone, propellerSpin := { active := true, speed := .fin 0 } }
    exampleDrone 4 0 rfl (by decide) rfl).1

/-! ## Determinism of the compiler -/

theorem emit_congr (p : Platform) (type : String) (fields fields' : List (String × JsVal))
    (h : ∀ name, getFieldValue fields name = getFieldValue fields' name) :
    emit p type fields = emit p type fields' := by
  unfold emit
  split <;> simp only [h]

theorem visit_sameSnapshot (p : Platform) (b b' : Block) (h : b.sameSnapshot b')
    (sequence : List Instr) : visit p b sequence = visit p b' sequence := by
  induction b generalizing b' sequence with
  | null =>
      cases b' with
      | null => rfl
      | node type' fields' next' => exact absurd h (by simp [Block.sameSnapshot])
  | node type fields next ih =>
      cases b' with
      | null => exact absurd h (by simp [Block.sameSnapshot])
      | node type' fields' next' =>
          simp only [Block.sameSnapshot] at h
          obtain ⟨ht, hf, hn⟩ := h
          subst ht
          simp only [visit]
          rw [emit_congr p type fields fields' hf]
          exact ih next' hn _

theorem flatMap_visit_sameSnapshot (p : Platform) (bs bs' : List Block)
    (h : List.Forall₂ Block.sameSnapshot bs bs') :
    bs.flatMap (fun b => visit p b []) = bs'.flatMap (fun b => visit p b []) := by
  induction h with
  | nil => rfl
  | cons hb _ ih =>
      simp only [List.flatMap_cons]
      rw [visit_sameSnapshot p _ _ hb, ih]

theorem runSteps_workspace (exec : String → Sim → Outcome) (mission : List Instr) (app : App) :
    (runSteps exec mission app).workspace = app.workspace := by
  induction mission generalizing app with
  | nil => rfl
  | cons step rest ih =>
      cases step with
      | command value =>
          simp only [runSteps]
          split
          · rw [ih]
          · rfl
      | wait value =>
          simp only [runSteps]
          rw [ih]

theorem handleRunProgram_workspace (p : Platform) (exec : String → Sim → Outcome) (app : App) :
    (handleRunProgram p exec app).workspace = app.workspace := by
  unfold handleRunProgram
  split
  · rfl
  · simp only [updateCodePreview]
    split
    · rfl
    · simp only [runSteps_workspace]

/-- C24: compiling is deterministic: the sequence is a function of the snapshot
alone. Two workspaces whose top-level chains come in the same order and show, block
by block, the same type, the same value for every field name and the same successor
compile to identical sequences; and a run leaves the snapshot as it was, so
compiling again after it returns the same sequence, instruction for instruction. -/
theorem compile_deterministic (p : Platform) (workspace workspace' : Workspace)
    (h : List.Forall₂ Block.sameSnapshot workspace.topBlocks workspace'.topBlocks) :
    buildMissionSequence p (some workspace) = buildMissionSequence p (some workspace') ∧
    (∀ (exec : String → Sim → Outcome) (app : App),
      buildMissionSequence p (handleRunProgram p exec app).workspace
        = buildMissionSequence p app.workspace) := by
  refine ⟨?_, fun exec app => by rw [handleRunProgram_workspace]⟩
  rw [buildMissionSequence_flatMap, buildMissionSequence_flatMap]
  exact flatMap_visit_sameSnapshot p _ _ h

/-- Witness for C24: a `wait` block whose field list carries a second, shadowed `TIME`
entry reads the same as one without it, and both workspaces compile to `wait 2`. -/
theorem compile_deterministic_witness :
    buildMissionSequence stdPlatform
        (some ⟨[.node "wait" [("TIME", .num (.fin 2)), ("TIME", .num (.fin 5))] .null]⟩)
      = buildMissionSequence stdPlatform (some ⟨[.node "wait" [("TIME", .num (.fin 2))] .null]⟩) :=
  (compile_deterministic stdPlatform
    ⟨[.node "wait" [("TIME", .num (.fin 2)), ("TIME", .num (.fin 5))] .null]⟩
    ⟨[.node "wait" [("TIME", .num (.fin 2))] .null]⟩
    (List.Forall₂.cons
      ⟨rfl, fun name => by
        by_cases hn : name = "TIME"
        · subst hn
          rfl
        · have hb : (name == "TIME") = false := by simpa using hn
          simp [getFieldValue, List.lookup, hb], trivial⟩
      List.Forall₂.nil)).1

/-! ## The start of the circle -/

theorem circle_start_position (p : Platform) (x0 y0 z0 r : ℚ) (startAngle : JsNum)
    (drone : Drone) (hy : drone.position.y = .fin y0)
    (hcos : p.cos 0 = 1) (hsin : p.sin 0 = 0) :
    (circleOnUpdate p { x := JsNum.fin x0 + JsNum.fin r, y := .fin y0, z := .fin z0 } (.fin r)
        true startAngle (.fin 0) drone).position
      = { x := .fin (x0 + 2 * r), y := .fin y0, z := .fin z0 } ∧
    (circleOnUpdate p { x := JsNum.fin x0 + -JsNum.fin r, y := .fin y0, z := .fin z0 } (.fin r)
        false startAngle (.fin 0) drone).position
      = { x := .fin (x0 - 2 * r), y := .fin y0, z := .fin z0 } := by
  constructor
  · simp [circleOnUpdate, Platform.cosN, Platform.sinN, hcos, hsin, hy]
    ring
  · simp [circleOnUpdate, Platform.cosN, Platform.sinN, hcos, hsin, hy]
    ring

/-- C25 (as the code behaves): the circle does not start where the drone is. For the
drone at `(0, 0.8, 0)` and radius 1, with `cos 0 = 1` and `sin 0 = 0`, the callback at
angle 0 writes `x = 2` for CR (centre at `x = 1`) and `x = -2` for CL (centre at
`x = -1`), so the first update already moves the drone by twice the radius. -/
theorem circle_starts_displaced :
    (circleOnUpdate stdPlatform
        { exampleDrone.position with x := exampleDrone.position.x + JsNum.fin 1 } (.fin 1) true
        exampleDrone.rotation.y (.fin 0) exampleDrone).position
      = { x := .fin 2, y := .fin 0.8, z := .fin 0 } ∧
    (circleOnUpdate stdPlatform
        { exampleDrone.position with x := exampleDrone.position.x + -JsNum.fin 1 } (.fin 1) false
        exampleDrone.rotation.y (.fin 0) exampleDrone).position
      = { x := .fin (-2), y := .fin 0.8, z := .fin 0 } ∧
    stdPlatform.cos 0 = 1 ∧ stdPlatform.sin 0 = 0 := by
  refine ⟨?_, ?_, rfl, rfl⟩
  · simp [circleOnUpdate, exampleDrone, Platform.cosN, Platform.sinN, stdPlatform]
    norm_num
  · simp [circleOnUpdate, exampleDrone, Platform.cosN, Platform.sinN, stdPlatform]
    norm_num

/-! ## Commands as text: trimming and splitting -/

theorem rdropWhile_keeps {α : Type} (q : α → Bool) (a b : List α) (ha : a ≠ [])
    (hlast : ¬ q (a.getLast ha) = true) : a <+: (a ++ b).rdropWhile q := by
  induction b using List.reverseRecOn with
  | nil =>
      rw [List.append_nil, List.rdropWhile_eq_self_iff.2 (fun hl => hlast)]
  | append_singleton b x ih =>
      rw [← List.append_assoc, List.rdropWhile_concat]
      split
      · exact ih
      · exact ⟨b ++ [x], by simp⟩

theorem splitChars_no_space (t : List Char) (ht : ∀ c ∈ t, c ≠ ' ') :
    splitChars t = (t, []) := by
  induction t with
  | nil => rfl
  | cons c cs ih =>
      have hc : c ≠ ' ' := ht c (List.mem_cons_self _ _)
      have hcs := ih (fun x hx => ht x (List.mem_cons_of_mem _ hx))
      simp [splitChars, hc, hcs]

theorem splitChars_append_space (w rest : List Char) (hw : ∀ c ∈ w, c ≠ ' ') :
    splitChars (w ++ ' ' :: rest) = (w, (splitChars rest).1 :: (splitChars rest).2) := by
  induction w with
  | nil => simp [splitChars]
  | cons c cs ih =>
      have hc : c ≠ ' ' := hw c (List.mem_cons_self _ _)
      have hcs := ih (fun x hx => hw x (List.mem_cons_of_mem _ hx))
      simp [splitChars, hc, hcs]

theorem not_space_of_not_whitespace (c : Char) (h : isJsWhitespace c = false) : c ≠ ' ' := by
  intro hc
  subst hc
  exact absurd h (by decide)

theorem trim_data (s : String) :
    (trim s).data = (s.data.dropWhile isJsWhitespace).rdropWhile isJsWhitespace := rfl

theorem splitCommand_fst (s : String) :
    (splitCommand s).1 = String.mk (splitChars s.data).1 := rfl

theorem verb_of_chars (verb rest : List Char) (hne : verb ≠ [])
    (hws : ∀ c ∈ verb, isJsWhitespace c = false) :
    (splitChars (((verb ++ ' ' :: rest).dropWhile isJsWhitespace).rdropWhile isJsWhitespace)).1
      = verb := by
  have hspace : ∀ c ∈ verb, c ≠ ' ' := fun c hc => not_space_of_not_whitespace c (hws c hc)
  obtain ⟨v, vs, rfl⟩ := List.exists_cons_of_ne_nil hne
  have hhead : isJsWhitespace v = false := hws v (List.mem_cons_self _ _)
  have hdrop : ((v :: vs) ++ ' ' :: rest).dropWhile isJsWhitespace = (v :: vs) ++ ' ' :: rest := by
    simp [List.dropWhile, hhead]
  rw [hdrop]
  have hlast : ¬ isJsWhitespace ((v :: vs).getLast hne) = true := by
    rw [hws _ (List.getLast_mem hne)]
    simp
  obtain ⟨r, hr⟩ := rdropWhile_keeps isJsWhitespace (v :: vs) (' ' :: rest) hne hlast
  have hpre : ((v :: vs) ++ ' ' :: rest).rdropWhile isJsWhitespace <+: (v :: vs) ++ ' ' :: rest :=
    List.rdropWhile_prefix _ _
  rw [← hr] at hpre ⊢
  have hr' : r <+: ' ' :: rest := (List.prefix_append_right_inj _).1 hpre
  cases r with
  | nil =>
      rw [List.append_nil, splitChars_no_space _ hspace]
  | cons x xs =>
      have hx : x = ' ' := by
        obtain ⟨t, ht⟩ := hr'
        simp only [List.cons_append, List.cons.injEq] at ht
        exact ht.1
      subst hx
      rw [splitChars_append_space _ _ hspace]

theorem verb_of_command (verb rest : String) (hne : verb.data ≠ [])
    (hws : ∀ c ∈ verb.data, isJsWhitespace c = false) :
    (splitCommand (trim (verb ++ " " ++ rest))).1 = verb := by
  rw [splitCommand_fst, trim_data]
  have hdata : (verb ++ " " ++ rest).data = verb.data ++ ' ' :: rest.data := by
    simp [String.data_append]
  rw [hdata, verb_of_chars verb.data rest.data hne hws]

theorem emit_command_verb (p : Platform) (type value : String)
    (fields : List (String × JsVal)) (h : Instr.command value ∈ emit p type fields) :
    (splitCommand (trim value)).1 ∈ compiledVerbs := by
  unfold emit at h
  split at h
  all_goals
    simp only [List.mem_cons, List.mem_singleton, Instr.command.injEq, List.mem_nil_iff,
      or_false, false_or, reduceCtorEq] at h
  · subst h
    decide
  · subst h
    decide
  · subst h
    decide
  · subst h
    decide
  · subst h
    have := verb_of_command "fly"
      (p.toText (getFieldValue fields "DIRECTION") ++ " "
        ++ p.numberToString (parseNumber p (getFieldValue fields "VALUE") (.fin 1)))
      (by decide) (by decide)
    simp only [String.append_assoc] at this ⊢
    rw [show "fly " = "fly" ++ " " from rfl, String.append_assoc, this]
    decide
  · subst h
    have := verb_of_command "circle"
      (p.toText (getFieldValue fields "DIRECTION") ++ " "
        ++ p.numberToString (parseNumber p (getFieldValue fields "VALUE") (.fin (3 / 2))))
      (by decide) (by decide)
    simp only [String.append_assoc] at this ⊢
    rw [show "circle " = "circle" ++ " " from rfl, String.append_assoc, this]
    decide
  · subst h
    have := verb_of_command "yaw"
      (p.toText (getFieldValue fields "DIRECTION") ++ " "
        ++ p.numberToString (parseNumber p (getFieldValue fields "VALUE") (.fin 30)))
      (by decide) (by decide)
    simp only [String.append_assoc] at this ⊢
    rw [show "yaw " = "yaw" ++ " " from rfl, String.append_assoc, this]
    decide

theorem command_split (verb d t : String) (hv : verb.data ≠ [])
    (hvws : ∀ c ∈ verb.data, isJsWhitespace c = false)
    (hd : ∀ c ∈ d.data, isJsWhitespace c = false)
    (hne : t.data ≠ []) (ht : ∀ c ∈ t.data, isJsWhitespace c = false) :
    splitCommand (trim (verb ++ " " ++ d ++ " " ++ t)) = (verb, [d, t]) := by
  have hdata : (verb ++ " " ++ d ++ " " ++ t).data
      = verb.data ++ ' ' :: (d.data ++ ' ' :: t.data) := by
    simp [String.data_append]
  obtain ⟨v, vs, hvv⟩ := List.exists_cons_of_ne_nil hv
  have hhead : isJsWhitespace v = false := hvws v (by rw [hvv]; exact List.mem_cons_self _ _)
  have hdrop : (verb.data ++ ' ' :: (d.data ++ ' ' :: t.data)).dropWhile isJsWhitespace
      = verb.data ++ ' ' :: (d.data ++ ' ' :: t.data) := by
    rw [hvv]
    simp [List.dropWhile, hhead]
  have hlast : isJsWhitespace (t.data.getLast hne) = false := ht _ (List.getLast_mem hne)
  have hrdrop : (verb.data ++ ' ' :: (d.data ++ ' ' :: t.data)).rdropWhile isJsWhitespace
      = verb.data ++ ' ' :: (d.data ++ ' ' :: t.data) := by
    have hsplit : verb.data ++ ' ' :: (d.data ++ ' ' :: t.data)
        = (verb.data ++ ' ' :: (d.data ++ ' ' :: t.data.dropLast)) ++ [t.data.getLast hne] := by
      conv_lhs => rw [← List.dropLast_append_getLast hne]
      simp
    rw [hsplit, List.rdropWhile_concat_neg _ _ _ (by simp [hlast])]
  have hchars : splitChars (verb.data ++ ' ' :: (d.data ++ ' ' :: t.data))
      = (verb.data, [d.data, t.data]) := by
    rw [splitChars_append_space _ _ (fun c hc => not_space_of_not_whitespace c (hvws c hc)),
      splitChars_append_space _ _ (fun c hc => not_space_of_not_whitespace c (hd c hc)),
      splitChars_no_space _ (fun c hc => not_space_of_not_whitespace c (ht c hc))]
  have htrim : (trim (verb ++ " " ++ d ++ " " ++ t)).data
      = verb.data ++ ' ' :: (d.data ++ ' ' :: t.data) := by
    rw [trim_data, hdata, hdrop, hrdrop]
  show (String.mk (splitChars (trim (verb ++ " " ++ d ++ " " ++ t)).data).1,
      (splitChars (trim (verb ++ " " ++ d ++ " " ++ t)).data).2.map String.mk) = (verb, [d, t])
  rw [htrim, hchars]
  rfl

theorem recoveredArgument_of_split (p : Platform) (fallback : JsNum) (c verb d t : String)
    (h : splitCommand (trim c) = (verb, [d, t])) :
    recoveredArgument p fallback c = (p.stringToNumber t).orElse fallback := by
  simp [recoveredArgument, h, Platform.argNumber]

theorem runAction_circle_uses_recovered (p : Platform) (rawCommand : String) (f : Flight) :
    (runAction p (trim rawCommand) "circle" (splitCommand (trim rawCommand)).2 f).log
      = f.log ++ [Event.tween (circleDuration (recoveredArgument p (.fin 1.5) rawCommand))] := by
  rw [runAction_circle]
  rfl

/-- C22: every command in a compiled sequence has one of the verbs takeoff, land, fly,
circle, yaw, and so never the verb wait; the blocks that suspend emit a `wait`
instruction; and the run loop serves a `wait` instruction by the timer
`delay(seconds)` of `max(seconds, 0) * 1000` milliseconds, whatever the stored command
function is (it is not called) and with the simulation as it was. -/
theorem waits_are_scheduled_not_dispatched (p : Platform) (workspace : Option Workspace)
    (value : String) (h : Instr.command value ∈ buildMissionSequence p workspace) :
    (splitCommand (trim value)).1 ∈ compiledVerbs ∧
    (splitCommand (trim value)).1 ≠ "wait" ∧
    (∀ fields, ∃ seconds,
      emit p "wait" fields = [.wait seconds] ∧
      emit p "takeoff_after" fields = [.wait seconds, .command "takeoff"] ∧
      emit p "land_after" fields = [.wait seconds, .command "land"]) ∧
    (∀ (exec : String → Sim → Outcome) (seconds : JsNum) (rest : List Instr) (app : App),
      runSteps exec (Instr.wait seconds :: rest) app
        = runSteps exec rest
            { app with trace := app.trace ++ [RunEvent.step (Instr.wait seconds),
                RunEvent.timeout (JsNum.max seconds (.fin 0) * JsNum.fin 1000)] }) := by
  have hverb : (splitCommand (trim value)).1 ∈ compiledVerbs := by
    cases workspace with
    | none => simp [buildMissionSequence] at h
    | some ws =>
        rw [buildMissionSequence_flatMap] at h
        obtain ⟨b, -, hb⟩ := List.mem_flatMap.1 h
        rw [visit_toList] at hb
        obtain ⟨tf, -, htf⟩ := List.mem_flatMap.1 hb
        exact emit_command_verb p tf.1 value tf.2 htf
  refine ⟨hverb, ?_, fun fields => ⟨_, rfl, rfl, rfl⟩, fun exec seconds rest app => rfl⟩
  intro hw
  rw [hw] at hverb
  exact absurd hverb (by decide)

/-- Witness for C22: the command `fly F 5` of the compiled chain takeoff, fly F 5. -/
theorem waits_are_scheduled_not_dispatched_witness :
    (splitCommand (trim "fly F 5")).1 ∈ compiledVerbs ∧
    (splitCommand (trim "fly F 5")).1 ≠ "wait" :=
  ⟨(waits_are_scheduled_not_dispatched stdPlatform
      (some ⟨[chainOf [.takeoff, .fly "F" 5]]⟩) "fly F 5" (by decide)).1,
   (waits_are_scheduled_not_dispatched stdPlatform
      (some ⟨[chainOf [.takeoff, .fly "F" 5]]⟩) "fly F 5" (by decide)).2.1⟩

/-- C26 (as the code behaves): a circle block with radius 0 does not fly a circle of
radius 0. It compiles to `circle CR 0`, from which the executor recovers the radius
`Number("0") || 1.5 = 1.5` and runs the circle tween of `4 + 1.5 * 0.4` seconds. -/
theorem circle_radius_zero_becomes_default :
    emit stdPlatform "circle" [("DIRECTION", .str "CR"), ("VALUE", .num (.fin 0))]
      = [.command "circle CR 0"] ∧
    recoveredArgument stdPlatform (.fin 1.5) "circle CR 0" = .fin 1.5 ∧
    JsNum.fin 1.5 ≠ JsNum.fin 0 ∧
    (executeCommand stdPlatform "circle CR 0" exampleSim).log
      = [Event.tween (circleDuration (.fin 1.5))] := by
  have t1 : trim "circle CR 0" = "circle CR 0" := by decide
  have s1 : splitCommand "circle CR 0" = ("circle", ["CR", "0"]) := by decide
  have n1 : readNumber "0" = .fin 0 := by decide
  refine ⟨by decide, ?_, ?_, ?_⟩
  · simp [recoveredArgument, t1, s1, Platform.argNumber, stdPlatform, n1, JsNum.orElse,
      JsNum.truthy]
  · simp
    norm_num
  · simp [executeCommand, exampleSim, t1, s1, runAction_circle, Platform.argNumber, n1,
      JsNum.orElse, JsNum.truthy, stdPlatform]

/-- C26 (amended): for a fly, yaw or circle block whose direction has no white space
and whose finite VALUE `v` prints as a non-empty text without white space that reads
back as `v`, the compiled command splits into its verb, the direction and that text,
and the number the executor recovers from it is `v` for fly and yaw, and for circle
`v` when `v` is not 0; for a circle block with radius 0 the executor recovers the
default 1.5. -/
theorem executor_recovers_compiled_value (p : Platform) (d : String) (v : ℚ)
    (hd : ∀ c ∈ d.data, isJsWhitespace c = false)
    (hne : (p.numberToString (.fin v)).data ≠ [])
    (ht : ∀ c ∈ (p.numberToString (.fin v)).data, isJsWhitespace c = false)
    (hround : p.stringToNumber (p.numberToString (.fin v)) = .fin v) :
    (∃ c, emit p "fly" (Op.fly d v).fields = [.command c] ∧
      splitCommand (trim c) = ("fly", [d, p.numberToString (.fin v)]) ∧
      recoveredArgument p (.fin 0) c = .fin v) ∧
    (∃ c, emit p "yaw" (Op.yaw d v).fields = [.command c] ∧
      splitCommand (trim c) = ("yaw", [d, p.numberToString (.fin v)]) ∧
      recoveredArgument p (.fin 0) c = .fin v) ∧
    (∃ c, emit p "circle" (Op.circle d v).fields = [.command c] ∧
      splitCommand (trim c) = ("circle", [d, p.numberToString (.fin v)]) ∧
      (v ≠ 0 → recoveredArgument p (.fin 1.5) c = .fin v) ∧
      (v = 0 → recoveredArgument p (.fin 1.5) c = .fin 1.5)) := by
  have hfly := command_split "fly" d (p.numberToString (.fin v)) (by decide) (by decide) hd hne ht
  have hyaw := command_split "yaw" d (p.numberToString (.fin v)) (by decide) (by decide) hd hne ht
  have hcircle := command_split "circle" d (p.numberToString (.fin v)) (by decide) (by decide)
    hd hne ht
  refine ⟨⟨_, rfl, hfly, ?_⟩, ⟨_, rfl, hyaw, ?_⟩, ⟨_, rfl, hcircle, ?_, ?_⟩⟩
  · exact (recoveredArgument_of_split p _ _ _ _ _ hfly).trans
      (by rw [hround, orElse_fin_zero])
  · exact (recoveredArgument_of_split p _ _ _ _ _ hyaw).trans
      (by rw [hround, orElse_fin_zero])
  · intro hv
    exact (recoveredArgument_of_split p _ _ _ _ _ hcircle).trans
      (by rw [hround]; simp [JsNum.orElse, JsNum.truthy, hv])
  · intro hv
    exact (recoveredArgument_of_split p _ _ _ _ _ hcircle).trans
      (by rw [hround]; simp [JsNum.orElse, JsNum.truthy, hv])

/-- Witness for C26: the block `fly F 5` on the example platform. -/
theorem executor_recovers_compiled_value_witness :
    ∃ c, emit stdPlatform "fly" (Op.fly "F" 5).fields = [.command c] ∧
      splitCommand (trim c) = ("fly", ["F", stdPlatform.numberToString (.fin 5)]) ∧
      recoveredArgument stdPlatform (.fin 0) c = .fin 5 :=
  (executor_recovers_compiled_value stdPlatform "F" 5 (by decide) (by decide) (by decide)
    (by decide)).1

/-! ## The panel layout -/

theorem Layout.valid_cases (l : Layout) (h : l.valid) :
    l = ⟨some (.str "blockly"), some (.str "simulation"), some (.str "code")⟩ ∨
    l = ⟨some (.str "blockly"), some (.str "code"), some (.str "simulation")⟩ ∨
    l = ⟨some (.str "simulation"), some (.str "blockly"), some (.str "code")⟩ ∨
    l = ⟨some (.str "simulation"), some (.str "code"), some (.str "blockly")⟩ ∨
    l = ⟨some (.str "code"), some (.str "blockly"), some (.str "simulation")⟩ ∨
    l = ⟨some (.str "code"), some (.str "simulation"), some (.str "blockly")⟩ := by
  obtain ⟨a, b, c⟩ := l
  have hB := h "blockly" (by simp)
  have hS := h "simulation" (by simp)
  have hC := h "code" (by simp)
  simp only [List.count_cons, List.count_nil, beq_iff_eq] at hB hS hC
  have key : ∀ x : Option JsVal,
      x = some (.str "blockly") ∨ x = some (.str "simulation") ∨ x = some (.str "code") ∨
      (x ≠ some (.str "blockly") ∧ x ≠ some (.str "simulation") ∧ x ≠ some (.str "code")) := by
    intro x
    tauto
  rcases key a with rfl | rfl | rfl | ⟨a1, a2, a3⟩ <;>
  rcases key b with rfl | rfl | rfl | ⟨b1, b2, b3⟩ <;>
  rcases key c with rfl | rfl | rfl | ⟨c1, c2, c3⟩ <;>
  simp_all

theorem swapPanels_valid (panelId : String) (target : Location) (prev : Layout)
    (h : prev.valid) : (swapPanels panelId (some target) prev).valid := by
  by_cases h0 : panelId = ""
  · simpa [swapPanels, h0] using h
  by_cases h1 : panelId = "blockly"
  · subst h1
    rcases prev.valid_cases h with rfl | rfl | rfl | rfl | rfl | rfl <;>
      cases target <;> decide
  by_cases h2 : panelId = "simulation"
  · subst h2
    rcases prev.valid_cases h with rfl | rfl | rfl | rfl | rfl | rfl <;>
      cases target <;> decide
  by_cases h3 : panelId = "code"
  · subst h3
    rcases prev.valid_cases h with rfl | rfl | rfl | rfl | rfl | rfl <;>
      cases target <;> decide
  · have hfind : [Location.left, Location.rightTop, Location.rightBottom].find?
        (fun location => prev.get location == some (JsVal.str panelId)) = none := by
      rcases prev.valid_cases h with rfl | rfl | rfl | rfl | rfl | rfl <;>
        simp [Layout.get, Ne.symm h1, Ne.symm h2, Ne.symm h3]
    simp only [swapPanels, h0, if_false, hfind]
    exact h

/-- C29 (as the code behaves): `validateLayout` does not return a valid layout for
every input. An object that holds the three panel names once each under other keys
passes both checks and comes back with all three slots `undefined`; the same happens
for the array of the three names, and an object with only two of the slot keys comes
back with one slot `undefined`. -/
theorem validateLayout_keeps_wrong_keys :
    validateLayout (.object [("a", .str "blockly"), ("b", .str "simulation"), ("c", .str "code")])
      = { left := none, rightTop := none, rightBottom := none } ∧
    ¬ (validateLayout
        (.object [("a", .str "blockly"), ("b", .str "simulation"), ("c", .str "code")])).valid ∧
    validateLayout (.object [("0", .str "blockly"), ("1", .str "simulation"), ("2", .str "code")])
      = { left := none, rightTop := none, rightBottom := none } ∧
    validateLayout
        (.object [("left", .str "blockly"), ("rightTop", .str "simulation"), ("x", .str "code")])
      = { left := some (.str "blockly"), rightTop := some (.str "simulation"),
          rightBottom := none } := by
  refine ⟨by decide, by decide, by decide, by decide⟩

/-! ## Decoding of HTML entities -/

/-- C27 (as the code behaves): `decodeHtmlEntities` is not a left inverse of HTML
escaping. The text `&quot;` is escaped as `&amp;quot;`, and decoding that gives the
double quote: the `&` produced by the `&amp;` pass is decoded again by the `&quot;`
pass that runs after it (likewise `&#39;` comes back as an apostrophe). -/
theorem decodeHtmlEntities_decodes_twice :
    escapeHtml "&quot;" = "&amp;quot;" ∧
    decodeHtmlEntities (escapeHtml "&quot;") = "\"" ∧
    decodeHtmlEntities (escapeHtml "&quot;") ≠ "&quot;" ∧
    decodeHtmlEntities (escapeHtml "&#39;") = String.singleton (Char.ofNat 39) ∧
    decodeHtmlEntities (escapeHtml "a < b & c") = "a < b & c" := by
  refine ⟨by decide, by decide, by decide, by decide, by decide⟩

/-! ## Extraction of the XML root -/

theorem indexOf_drop (pattern : List Char) (cs : List Char) (i : Nat)
    (h : indexOf pattern cs = some i) : pattern <+: cs.drop i := by
  induction cs generalizing i with
  | nil => simp [indexOf] at h
  | cons c cs ih =>
      simp only [indexOf] at h
      split at h
      · rename_i hp
        simp only [Option.some.injEq] at h
        subst h
        exact List.isPrefixOf_iff_prefix.1 hp
      · cases hrec : indexOf pattern cs with
        | none => simp [hrec] at h
        | some j =>
            simp only [hrec, Option.map_some', Option.some.injEq] at h
            subst h
            exact ih j hrec

theorem lastIndexOf_drop (pattern : List Char) (cs : List Char) (j : Nat)
    (h : lastIndexOf pattern cs = some j) : pattern <+: cs.drop j := by
  induction cs generalizing j with
  | nil => simp [lastIndexOf] at h
  | cons c cs ih =>
      simp only [lastIndexOf] at h
      cases hrec : lastIndexOf pattern cs with
      | some k =>
          simp only [hrec, Option.some.injEq] at h
          subst h
          exact ih k hrec
      | none =>
          simp only [hrec] at h
          split at h
          · rename_i hp
            simp only [Option.some.injEq] at h
            subst h
            exact List.isPrefixOf_iff_prefix.1 hp
          · simp at h

theorem prefix_drop_length (pattern cs : List Char) (i : Nat) (h : pattern <+: cs.drop i)
    (hne : pattern ≠ []) : i + pattern.length ≤ cs.length := by
  have hlen := h.length_le
  rw [List.length_drop] at hlen
  have hpos : 0 < pattern.length := List.length_pos.2 hne
  omega

theorem indexOf_of_prefix (pattern cs : List Char) (hne : pattern ≠ []) (h : pattern <+: cs) :
    indexOf pattern cs = some 0 := by
  cases cs with
  | nil => exact absurd (List.prefix_nil.1 h) hne
  | cons c cs => simp [indexOf, List.isPrefixOf_iff_prefix.2 h]

theorem lastIndexOf_none_of_short (pattern cs : List Char) (h : cs.length < pattern.length) :
    lastIndexOf pattern cs = none := by
  cases hrec : lastIndexOf pattern cs with
  | none => rfl
  | some j =>
      have hp := lastIndexOf_drop pattern cs j hrec
      have hlen := hp.length_le
      rw [List.length_drop] at hlen
      omega

theorem lastIndexOf_of_suffix (pattern a : List Char) (hne : pattern ≠ []) :
    lastIndexOf pattern (a ++ pattern) = some a.length := by
  induction a with
  | nil =>
      obtain ⟨c, cs, rfl⟩ := List.exists_cons_of_ne_nil hne
      have hshort : lastIndexOf (c :: cs) cs = none :=
        lastIndexOf_none_of_short _ _ (by simp)
      have hp : (c :: cs).isPrefixOf (c :: cs) = true :=
        List.isPrefixOf_iff_prefix.2 (List.prefix_refl _)
      simp only [List.nil_append, lastIndexOf, hshort, hp, if_true, List.length_nil]
  | cons x a ih =>
      simp [lastIndexOf, ih]

theorem indexOf_none_iff (pattern cs : List Char) (hne : pattern ≠ []) :
    indexOf pattern cs = none ↔ ¬ pattern <:+: cs := by
  induction cs with
  | nil =>
      simp only [indexOf, true_iff]
      intro h
      exact hne (List.infix_nil.1 h)
  | cons c cs ih =>
      simp only [indexOf]
      split
      · rename_i hp
        simp only [reduceCtorEq, false_iff, not_not]
        exact (List.isPrefixOf_iff_prefix.1 hp).isInfix
      · rename_i hp
        rw [Option.map_eq_none', ih, List.infix_cons_iff]
        have : ¬ pattern <+: c :: cs := fun h => hp (List.isPrefixOf_iff_prefix.2 h)
        tauto

theorem lastIndexOf_none_iff (pattern cs : List Char) (hne : pattern ≠ []) :
    lastIndexOf pattern cs = none ↔ ¬ pattern <:+: cs := by
  induction cs with
  | nil =>
      simp only [lastIndexOf, true_iff]
      intro h
      exact hne (List.infix_nil.1 h)
  | cons c cs ih =>
      rw [List.infix_cons_iff]
      cases hrec : lastIndexOf pattern cs with
      | some k =>
          have hin : pattern <:+: cs := by
            by_contra hcon
            rw [ih.2 hcon] at hrec
            exact absurd hrec (by simp)
          simp [lastIndexOf, hrec, hin]
      | none =>
          have hnin : ¬ pattern <:+: cs := ih.1 hrec
          simp only [lastIndexOf, hrec]
          split
          · rename_i hp
            simp [List.isPrefixOf_iff_prefix.1 hp]
          · rename_i hp
            have : ¬ pattern <+: c :: cs := fun h => hp (List.isPrefixOf_iff_prefix.2 h)
            simp [this, hnin]

theorem toLowerCase_slice (cs : List Char) (start stop : Nat) :
    toLowerCase (slice cs start stop) = slice (toLowerCase cs) start stop := by
  simp [toLowerCase, slice, List.map_drop, List.map_take]

theorem slice_prefix_suffix (L pat1 pat2 : List Char) (st e : Nat)
    (h1 : pat1 <+: L.drop st) (h2 : pat2 <+: L.drop e) (hse : st ≤ e)
    (hlen : pat1.length ≤ pat2.length) (hne : pat2 ≠ []) :
    pat1 <+: slice L st (e + pat2.length) ∧ pat2 <:+ slice L st (e + pat2.length) := by
  have hbound := prefix_drop_length pat2 L e h2 hne
  have he : e ≤ L.length := by omega
  constructor
  · unfold slice
    rw [List.drop_take, List.prefix_take_iff]
    exact ⟨h1, by omega⟩
  · obtain ⟨t2, ht2⟩ := h2
    have hL : L = L.take e ++ (pat2 ++ t2) := by
      rw [ht2, List.take_append_drop]
    have htake : L.take (e + pat2.length) = L.take e ++ pat2 := by
      have hlen_e : (L.take e).length = e := by simp [he]
      conv_lhs => rw [hL]
      rw [← List.append_assoc]
      exact List.take_left' (by simp [hlen_e])
    unfold slice
    rw [htake, List.drop_append_of_le_length (by simp [he]; omega)]
    exact List.suffix_append _ _

theorem slice_infix (cs : List Char) (start stop : Nat) : slice cs start stop <:+: cs := by
  unfold slice
  exact (List.drop_suffix _ _).isInfix.trans (List.take_prefix _ _).isInfix

theorem slice_short (cs : List Char) (start stop n : Nat) (h : stop < start + n)
    (hn : 0 < n) : (slice cs start stop).length < n := by
  unfold slice
  rw [List.length_drop, List.length_take]
  omega

theorem extractXmlRoot_found (s : String) (start stop : Nat)
    (h1 : indexOf "<xml".data (toLowerCase s.data) = some start)
    (h2 : lastIndexOf "</xml>".data (toLowerCase s.data) = some stop) :
    extractXmlRoot s = String.mk (slice s.data start (stop + 6)) := by
  unfold extractXmlRoot
  rw [h1, h2]
  rfl

theorem extractXmlRoot_fixed_of_short (r : String) (h : r.data.length < 6) :
    extractXmlRoot r = r := by
  have hnone : lastIndexOf "</xml>".data (toLowerCase r.data) = none :=
    lastIndexOf_none_of_short _ _ (by simpa [toLowerCase] using h)
  unfold extractXmlRoot
  rw [hnone]
  split
  · rename_i heq
    simp at heq
  · rfl

theorem extractXmlRoot_fixed_of_framed (r : String)
    (hpre : "<xml".data <+: toLowerCase r.data) (hsuf : "</xml>".data <:+ toLowerCase r.data) :
    extractXmlRoot r = r := by
  have h1 : indexOf "<xml".data (toLowerCase r.data) = some 0 :=
    indexOf_of_prefix _ _ (by decide) hpre
  obtain ⟨a, ha⟩ := hsuf
  have h2 : lastIndexOf "</xml>".data (toLowerCase r.data) = some a.length := by
    rw [← ha]
    exact lastIndexOf_of_suffix _ _ (by decide)
  have hlen : r.data.length = a.length + 6 := by
    have hl := congrArg List.length ha
    rw [List.length_append] at hl
    simp only [toLowerCase, List.length_map] at hl
    have h6 : "</xml>".data.length = 6 := rfl
    rw [h6] at hl
    omega
  rw [extractXmlRoot_found r 0 a.length h1 h2]
  unfold slice
  rw [List.drop_zero, List.take_of_length_le (Nat.le_of_eq hlen)]

theorem extractXmlRoot_idempotent (s : String) :
    extractXmlRoot (extractXmlRoot s) = extractXmlRoot s := by
  cases h1 : indexOf "<xml".data (toLowerCase s.data) with
  | none =>
      have : extractXmlRoot s = s := by simp [extractXmlRoot, h1]
      rw [this, this]
  | some start =>
      cases h2 : lastIndexOf "</xml>".data (toLowerCase s.data) with
      | none =>
          have : extractXmlRoot s = s := by simp [extractXmlRoot, h1, h2]
          rw [this, this]
      | some stop =>
          rw [extractXmlRoot_found s start stop h1 h2]
          by_cases hle : start ≤ stop
          · have hp := slice_prefix_suffix (toLowerCase s.data) "<xml".data "</xml>".data start stop
              (indexOf_drop _ _ _ h1) (lastIndexOf_drop _ _ _ h2) hle (by decide) (by decide)
            apply extractXmlRoot_fixed_of_framed
            · rw [toLowerCase_slice]
              exact hp.1
            · rw [toLowerCase_slice]
              exact hp.2
          · apply extractXmlRoot_fixed_of_short
            exact slice_short _ _ _ _ (by omega) (by decide)

/-- C28 (as the code behaves): a string that contains both `<xml` and `</xml>` need
not give a result that starts with `<xml`. In `</xml><xml>` the first `<xml` (at 6)
lies after the last `</xml>` (at 0), and `slice(6, 6)` is the empty string. -/
theorem extractXmlRoot_closing_before_opening :
    indexOf "<xml".data (toLowerCase "</xml><xml>".data) = some 6 ∧
    lastIndexOf "</xml>".data (toLowerCase "</xml><xml>".data) = some 0 ∧
    extractXmlRoot "</xml><xml>" = "" ∧
    ¬ "<xml".data <+: toLowerCase (extractXmlRoot "</xml><xml>").data := by
  refine ⟨by decide, by decide, by decide, by decide⟩

/-- C28 (amended): for every ASCII string in which `<xml` occurs, the last `</xml>`
occurs, and the first `<xml` does not lie after the last `</xml>` (both read
case-insensitively), `extractXmlRoot` returns the substring from the first opening to
the end of the last closing tag, which starts with `<xml` and ends with `</xml>`; if
the first `<xml` lies after the last `</xml>` it returns a piece shorter than
`</xml>`; for a string that lacks one of the two it returns the input unchanged; and
`extractXmlRoot` is idempotent. -/
theorem extractXmlRoot_from_first_to_last (s : String) (_hascii : ∀ c ∈ s.data, c.toNat < 128) :
    (∀ start stop,
      indexOf "<xml".data (toLowerCase s.data) = some start →
      lastIndexOf "</xml>".data (toLowerCase s.data) = some stop →
      (extractXmlRoot s).data = slice s.data start (stop + 6) ∧
      (extractXmlRoot s).data <:+: s.data ∧
      (start ≤ stop →
        "<xml".data <+: toLowerCase (extractXmlRoot s).data ∧
        "</xml>".data <:+ toLowerCase (extractXmlRoot s).data) ∧
      (stop < start → (extractXmlRoot s).data.length < 6)) ∧
    (¬ "<xml".data <:+: toLowerCase s.data ∨ ¬ "</xml>".data <:+: toLowerCase s.data →
      extractXmlRoot s = s) ∧
    ("<xml".data <:+: toLowerCase s.data ∧ "</xml>".data <:+: toLowerCase s.data →
      ∃ start stop, indexOf "<xml".data (toLowerCase s.data) = some start ∧
        lastIndexOf "</xml>".data (toLowerCase s.data) = some stop) ∧
    extractXmlRoot (extractXmlRoot s) = extractXmlRoot s := by
  refine ⟨?_, ?_, ?_, extractXmlRoot_idempotent s⟩
  · intro start stop h1 h2
    rw [extractXmlRoot_found s start stop h1 h2]
    refine ⟨rfl, slice_infix _ _ _, ?_, ?_⟩
    · intro hle
      have hp := slice_prefix_suffix (toLowerCase s.data) "<xml".data "</xml>".data start stop
        (indexOf_drop _ _ _ h1) (lastIndexOf_drop _ _ _ h2) hle (by decide) (by decide)
      show "<xml".data <+: toLowerCase (slice s.data start (stop + 6)) ∧
        "</xml>".data <:+ toLowerCase (slice s.data start (stop + 6))
      rw [toLowerCase_slice]
      exact hp
    · intro hlt
      exact slice_short _ _ _ _ (by omega) (by decide)
  · intro h
    rcases h with h | h
    · have := (indexOf_none_iff "<xml".data (toLowerCase s.data) (by decide)).2 h
      simp [extractXmlRoot, this]
    · have := (lastIndexOf_none_iff "</xml>".data (toLowerCase s.data) (by decide)).2 h
      unfold extractXmlRoot
      rw [this]
      split
      · rename_i heq
        simp at heq
      · rfl
  · intro h
    cases h1 : indexOf "<xml".data (toLowerCase s.data) with
    | none =>
        exact absurd h.1 ((indexOf_none_iff "<xml".data (toLowerCase s.data) (by decide)).1 h1)
    | some start =>
        cases h2 : lastIndexOf "</xml>".data (toLowerCase s.data) with
        | none =>
            exact absurd h.2
              ((lastIndexOf_none_iff "</xml>".data (toLowerCase s.data) (by decide)).1 h2)
        | some stop => exact ⟨start, stop, rfl, rfl⟩

/-- Witness for C28: a reply with text around the XML root. -/
theorem extractXmlRoot_from_first_to_last_witness :
    (extractXmlRoot "ok <XML><a/></xml> bye").data = slice "ok <XML><a/></xml> bye".data 3 (12 + 6) ∧
    extractXmlRoot "ok <XML><a/></xml> bye" = "<XML><a/></xml>" ∧
    extractXmlRoot (extractXmlRoot "ok <XML><a/></xml> bye")
      = extractXmlRoot "ok <XML><a/></xml> bye" :=
  ⟨((extractXmlRoot_from_first_to_last "ok <XML><a/></xml> bye" (by decide)).1 3 12
      (by decide) (by decide)).1,
   by decide,
   (extractXmlRoot_from_first_to_last "ok <XML><a/></xml> bye" (by decide)).2.2.2⟩

/-! ## The XML sanitizer -/

theorem foldl_remove (allowed : List String) (es current : List (Nat × Xml)) :
    es.foldl
        (fun current entry =>
          if removesChild allowed entry.2 then current.filter (fun e => e.1 != entry.1)
          else current)
        current
      = current.filter
          (fun x => !(es.any (fun e => removesChild allowed e.2 && e.1 == x.1))) := by
  induction es generalizing current with
  | nil => simp
  | cons e es ih =>
      simp only [List.foldl_cons, List.any_cons]
      rw [ih]
      by_cases hr : removesChild allowed e.2 = true
      · simp only [hr, if_true, Bool.true_and, List.filter_filter]
        apply List.filter_congr
        intro x _
        by_cases hx : e.1 = x.1
        · simp [hx]
        · have hx' : ¬ x.1 = e.1 := fun h => hx h.symm
          have h1 : (x.1 != e.1) = true := by simp [hx']
          have h2 : (e.1 == x.1) = false := by simp [hx]
          rw [h1, h2]
          simp
      · simp only [hr, Bool.false_eq_true, if_false, Bool.false_and, Bool.false_or]

theorem removeDisallowed_eq_filter (allowed : List String) (childNodes : List Xml) :
    removeDisallowed allowed childNodes
      = childNodes.filter (fun c => !removesChild allowed c) := by
  unfold removeDisallowed
  simp only
  rw [foldl_remove]
  have hnodup : (childNodes.enum.map Prod.fst).Nodup := List.nodup_enum_map_fst childNodes
  have hcongr : childNodes.enum.filter
        (fun x => !(childNodes.enum.any (fun e => removesChild allowed e.2 && e.1 == x.1)))
      = childNodes.enum.filter ((fun c => !removesChild allowed c) ∘ Prod.snd) := by
    apply List.filter_congr
    intro x hx
    simp only [Function.comp]
    congr 1
    by_cases hr : removesChild allowed x.2 = true
    · rw [hr, List.any_eq_true]
      exact ⟨x, hx, by simp [hr]⟩
    · have hr' : removesChild allowed x.2 = false := by simpa using hr
      rw [hr', List.any_eq_false]
      intro e he hcon
      simp only [Bool.and_eq_true, beq_iff_eq] at hcon
      have hex : e = x := List.inj_on_of_nodup_map hnodup he hx hcon.2
      rw [hex, hr'] at hcon
      exact absurd hcon.1 (by simp)
  rw [hcongr, ← List.filter_map, List.enum_map_snd]

theorem Xml.induction (P : Xml → Prop) (htext : ∀ data, P (.text data))
    (helem : ∀ nodeName attributes childNodes,
      (∀ c ∈ childNodes, P c) → P (.element nodeName attributes childNodes)) :
    ∀ t, P t := by
  intro t
  exact @Xml.rec P (fun cs => ∀ c ∈ cs, P c)
    (fun nodeName attributes childNodes ih => helem nodeName attributes childNodes ih)
    htext
    (fun c hc => absurd hc (List.not_mem_nil c))
    (fun head tail hhead htail c hc => by
      rcases List.mem_cons.1 hc with rfl | hmem
      · exact hhead
      · exact htail c hmem)
    t

theorem sanitizeNode_stopped (table : String → Lookup) (t : Xml) :
    sanitizeNode table true t = (t, true) := by
  cases t with
  | text data => simp [sanitizeNode]
  | element nodeName attributes childNodes => simp [sanitizeNode]

theorem sanitizeNodes_stopped (table : String → Lookup) (cs : List Xml) :
    sanitizeNodes table true cs = (cs, true) := by
  induction cs with
  | nil => simp [sanitizeNodes]
  | cons c cs ih => simp [sanitizeNodes, sanitizeNode_stopped, ih]

theorem mem_blockTypesOfNodes (x : String) (cs : List Xml) :
    x ∈ blockTypesOfNodes cs ↔ ∃ c ∈ cs, x ∈ blockTypes c := by
  induction cs with
  | nil => simp [blockTypesOfNodes]
  | cons c cs ih => simp [blockTypesOfNodes, ih]

theorem tables_agree (type : String) (h : type ≠ "takeoff_height") :
    ALLOWED_FIELDS_BY_TYPE type = widgetAllowedFields type := by
  unfold ALLOWED_FIELDS_BY_TYPE
  split <;> first | rfl | exact absurd rfl h | skip
  unfold widgetAllowedFields
  split <;> simp_all

theorem sanitizeNodes_agree (cs : List Xml)
    (ih : ∀ c ∈ cs, "takeoff_height" ∉ blockTypes c →
      ∀ stopped, sanitizeNode ALLOWED_FIELDS_BY_TYPE stopped c
        = sanitizeNode widgetAllowedFields stopped c)
    (hnot : "takeoff_height" ∉ blockTypesOfNodes cs) (stopped : Bool) :
    sanitizeNodes ALLOWED_FIELDS_BY_TYPE stopped cs
      = sanitizeNodes widgetAllowedFields stopped cs := by
  induction cs generalizing stopped with
  | nil => simp [sanitizeNodes]
  | cons c cs ihs =>
      simp only [blockTypesOfNodes, List.mem_append, not_or] at hnot
      have hc := ih c (List.mem_cons_self _ _) hnot.1
      have hrest := ihs (fun d hd => ih d (List.mem_cons_of_mem _ hd)) hnot.2
      simp only [sanitizeNodes, hc, hrest]

theorem sanitizeNode_agree (t : Xml) :
    "takeoff_height" ∉ blockTypes t →
      ∀ stopped, sanitizeNode ALLOWED_FIELDS_BY_TYPE stopped t
        = sanitizeNode widgetAllowedFields stopped t := by
  refine Xml.induction
    (fun t => "takeoff_height" ∉ blockTypes t →
      ∀ stopped, sanitizeNode ALLOWED_FIELDS_BY_TYPE stopped t
        = sanitizeNode widgetAllowedFields stopped t) ?_ ?_ t
  · intro data _ stopped
    cases stopped <;> rfl
  · intro nodeName attributes childNodes ih hnot stopped
    simp only [blockTypes, List.mem_append, not_or] at hnot
    obtain ⟨hself, hchildren⟩ := hnot
    have hcs := sanitizeNodes_agree childNodes ih hchildren false
    cases stopped with
    | true => simp [sanitizeNode]
    | false =>
        by_cases hb : nodeName = "block"
        · have htype : (getAttribute attributes "type").getD "" ≠ "takeoff_height" := by
            intro hcon
            apply hself
            simp [hb, hcon]
          simp only [sanitizeNode, hb, if_true, callbackThrows, sanitizeBlockEl,
            tables_agree _ htype, hcs]
        · simp only [sanitizeNode, hb, if_false, hcs]

/-- C21 (as the code behaves): the pass stops at the first block whose type names a
property that the table inherits from `Object.prototype` and that has a field child.
For the type `constructor` the table read gives the inherited function, the call
`allowed.includes(name)` throws outside the inner `try`, and the outer `catch` ends
the `forEach`: whatever follows the block keeps all its fields. So the `takeoff` block
after a `constructor` block keeps its `VALUE` field, which the same block loses when
it stands alone or comes first. -/
theorem sanitize_stops_at_inherited_type :
    ALLOWED_FIELDS_BY_TYPE "constructor" = .inherited ∧
    ALLOWED_FIELDS_BY_TYPE "takeoff" = .array [] ∧
    (∀ (fieldAttributes : List (String × String)) (fieldChildren rest : List Xml),
      sanitizeBlocklyXmlDom
          (.element "xml" []
            (.element "block" [("type", "constructor")]
                [.element "field" fieldAttributes fieldChildren] :: rest))
        = .element "xml" []
            (.element "block" [("type", "constructor")]
                [.element "field" fieldAttributes fieldChildren] :: rest)) ∧
    sanitizeBlocklyXmlDom
        (.element "xml" []
          [.element "block" [("type", "constructor")]
              [.element "field" [("name", "X")] [.text "1"]],
           .element "block" [("type", "takeoff")]
              [.element "field" [("name", "VALUE")] [.text "1"]]])
      = .element "xml" []
          [.element "block" [("type", "constructor")]
              [.element "field" [("name", "X")] [.text "1"]],
           .element "block" [("type", "takeoff")]
              [.element "field" [("name", "VALUE")] [.text "1"]]] ∧
    sanitizeBlocklyXmlDom
        (.element "xml" []
          [.element "block" [("type", "takeoff")]
              [.element "field" [("name", "VALUE")] [.text "1"]]])
      = .element "xml" [] [.element "block" [("type", "takeoff")] []] ∧
    sanitizeBlocklyXmlDom
        (.element "xml" []
          [.element "block" [("type", "takeoff")]
              [.element "field" [("name", "VALUE")] [.text "1"]],
           .element "block" [("type", "constructor")]
              [.element "field" [("name", "X")] [.text "1"]],
           .element "block" [("type", "takeoff")]
              [.element "field" [("name", "VALUE")] [.text "1"]]])
      = .element "xml" []
          [.element "block" [("type", "takeoff")] [],
           .element "block" [("type", "constructor")]
              [.element "field" [("name", "X")] [.text "1"]],
           .element "block" [("type", "takeoff")]
              [.element "field" [("name", "VALUE")] [.text "1"]]] := by
  refine ⟨rfl, rfl, ?_, rfl, rfl, rfl⟩
  intro fieldAttributes fieldChildren rest
  have hthrow : callbackThrows ALLOWED_FIELDS_BY_TYPE [("type", "constructor")]
      [.element "field" fieldAttributes fieldChildren] = true := rfl
  simp [sanitizeBlocklyXmlDom, sanitizeWith, sanitizeNodes, sanitizeNode, hthrow,
    sanitizeNodes_stopped]

/-- C30 (as the code behaves): the two copies of the sanitizer are not equivalent. The
table in `LlmChatWidget.jsx` has no entry for `takeoff_height`, so on a
`takeoff_height` block with a `VALUE` field the copy of `utils/droneBlocks.js` removes
the field and the copy of the widget keeps it. -/
theorem sanitizer_copies_differ :
    sanitizeBlocklyXmlDom
        (.element "xml" []
          [.element "block" [("type", "takeoff_height")]
            [.element "field" [("name", "VALUE")] [.text "1"]]])
      = .element "xml" [] [.element "block" [("type", "takeoff_height")] []] ∧
    widgetSanitizeBlocklyXmlDom
        (.element "xml" []
          [.element "block" [("type", "takeoff_height")]
            [.element "field" [("name", "VALUE")] [.text "1"]]])
      = .element "xml" []
          [.element "block" [("type", "takeoff_height")]
            [.element "field" [("name", "VALUE")] [.text "1"]]] ∧
    sanitizeBlocklyXmlDom
        (.element "xml" []
          [.element "block" [("type", "takeoff_height")]
            [.element "field" [("name", "VALUE")] [.text "1"]]])
      ≠ widgetSanitizeBlocklyXmlDom
        (.element "xml" []
          [.element "block" [("type", "takeoff_height")]
            [.element "field" [("name", "VALUE")] [.text "1"]]]) := by
  have h1 : sanitizeBlocklyXmlDom
        (.element "xml" []
          [.element "block" [("type", "takeoff_height")]
            [.element "field" [("name", "VALUE")] [.text "1"]]])
      = .element "xml" [] [.element "block" [("type", "takeoff_height")] []] := rfl
  have h2 : widgetSanitizeBlocklyXmlDom
        (.element "xml" []
          [.element "block" [("type", "takeoff_height")]
            [.element "field" [("name", "VALUE")] [.text "1"]]])
      = .element "xml" []
          [.element "block" [("type", "takeoff_height")]
            [.element "field" [("name", "VALUE")] [.text "1"]]] := rfl
  refine ⟨h1, h2, ?_⟩
  rw [h1, h2]
  simp

/-- C30 (amended): on every XML tree that has no block element of type
`takeoff_height`, the sanitizer of `utils/droneBlocks.js` and the sanitizer of
`components/LlmChatWidget.jsx` return the same tree, so they remove the same field
elements; the two tables agree on every type but `takeoff_height`. -/
theorem sanitizer_copies_agree_without_takeoff_height (xmlDom : Xml)
    (h : "takeoff_height" ∉ blockTypes xmlDom) :
    sanitizeBlocklyXmlDom xmlDom = widgetSanitizeBlocklyXmlDom xmlDom ∧
    (∀ type, type ≠ "takeoff_height" → ALLOWED_FIELDS_BY_TYPE type = widgetAllowedFields type) := by
  refine ⟨?_, tables_agree⟩
  cases xmlDom with
  | text data => rfl
  | element nodeName attributes childNodes =>
      simp only [blockTypes, List.mem_append, not_or] at h
      simp only [sanitizeBlocklyXmlDom, widgetSanitizeBlocklyXmlDom, sanitizeWith]
      rw [sanitizeNodes_agree childNodes (fun c _ hc => sanitizeNode_agree c hc) h.2 false]

/-- Witness for C30: a `fly` block with a stray `SPEED` field. -/
theorem sanitizer_copies_agree_without_takeoff_height_witness :
    sanitizeBlocklyXmlDom
        (.element "xml" []
          [.element "block" [("type", "fly")]
            [.element "field" [("name", "DIRECTION")] [.text "F"],
             .element "field" [("name", "SPEED")] [.text "9"]]])
      = widgetSanitizeBlocklyXmlDom
        (.element "xml" []
          [.element "block" [("type", "fly")]
            [.element "field" [("name", "DIRECTION")] [.text "F"],
             .element "field" [("name", "SPEED")] [.text "9"]]]) :=
  (sanitizer_copies_agree_without_takeoff_height
    (.element "xml" []
      [.element "block" [("type", "fly")]
        [.element "field" [("name", "DIRECTION")] [.text "F"],
         .element "field" [("name", "SPEED")] [.text "9"]]])
    (by simp [blockTypes, blockTypesOfNodes, getAttribute])).1

end Dapi
